import Mathlib

/-!
BluetoothBLEClient: connection state machine and notification handler

A shallow embedding of `src/ble.c` (the connection state machine `bleState`,
`propertyChanged`, `notification`, `quit`) and of the parts of
`src/bleClient.c` they call (`bluez_read_property_boolean`,
`bluez_proxy_get_property`, `bluez_set_property`, `bluez_power_on`,
`bluez_scan`, `bluez_discovery_filter`, `bluez_connect`,
`bluez_acquire_notify`, `bluez_write_attribute`, `g_dbus_proxy_method_call`),
of the object screening and property cache of `src/bleClient.c`
(`parse_properties`, `bluez_screen_interface`, `bluez_screen_uuid`,
`bluez_dbus_msg_recurse`, `update_properties`, `bluez_add_property`,
`properties_changed`, `proxy_added`) and of its notification channel
(`acquire_notify_reply`, `pipe_read`).

The C globals and function-local statics become fields of one `World` record
that every function takes and returns.  The libdbus connection is external:
every message the code hands to `dbus_connection_send` or
`dbus_connection_send_with_reply` is appended to `World.calls` together with
the answer of the connection, and that answer is a parameter (`Bus`) of every
function that can send.  Memory allocation is taken to succeed.
-/

namespace BleClient

/-! ## D-Bus values -/

/-- A D-Bus value as seen through a `DBusMessageIter`. -/
inductive DBusValue where
  | byte (n : Nat)
  | boolean (b : Bool)
  | int16 (n : Int)
  | uint16 (n : Nat)
  | int32 (n : Int)
  | uint32 (n : Nat)
  | int64 (n : Int)
  | uint64 (n : Nat)
  | double (bits : Nat)
  | string (s : String)
  | objectPath (s : String)
  | signature (s : String)
  | unixFd (fd : Int)
  | variant (v : DBusValue)
  | array (elemSig : String) (xs : List DBusValue)
  | struct (xs : List DBusValue)
  | dictEntry (k v : DBusValue)

def DBUS_TYPE_INVALID : Nat := 0
def DBUS_TYPE_BYTE : Nat := 121
def DBUS_TYPE_BOOLEAN : Nat := 98
def DBUS_TYPE_INT16 : Nat := 110
def DBUS_TYPE_UINT16 : Nat := 113
def DBUS_TYPE_INT32 : Nat := 105
def DBUS_TYPE_UINT32 : Nat := 117
def DBUS_TYPE_INT64 : Nat := 120
def DBUS_TYPE_UINT64 : Nat := 116
def DBUS_TYPE_DOUBLE : Nat := 100
def DBUS_TYPE_STRING : Nat := 115
def DBUS_TYPE_OBJECT_PATH : Nat := 111
def DBUS_TYPE_SIGNATURE : Nat := 103
def DBUS_TYPE_UNIX_FD : Nat := 104
def DBUS_TYPE_ARRAY : Nat := 97
def DBUS_TYPE_VARIANT : Nat := 118
def DBUS_TYPE_STRUCT : Nat := 114
def DBUS_TYPE_DICT_ENTRY : Nat := 101

/-- The type code `dbus_message_iter_get_arg_type` reports for a value. -/
def DBusValue.argType : DBusValue → Nat
  | .byte _ => DBUS_TYPE_BYTE
  | .boolean _ => DBUS_TYPE_BOOLEAN
  | .int16 _ => DBUS_TYPE_INT16
  | .uint16 _ => DBUS_TYPE_UINT16
  | .int32 _ => DBUS_TYPE_INT32
  | .uint32 _ => DBUS_TYPE_UINT32
  | .int64 _ => DBUS_TYPE_INT64
  | .uint64 _ => DBUS_TYPE_UINT64
  | .double _ => DBUS_TYPE_DOUBLE
  | .string _ => DBUS_TYPE_STRING
  | .objectPath _ => DBUS_TYPE_OBJECT_PATH
  | .signature _ => DBUS_TYPE_SIGNATURE
  | .unixFd _ => DBUS_TYPE_UNIX_FD
  | .variant _ => DBUS_TYPE_VARIANT
  | .array _ _ => DBUS_TYPE_ARRAY
  | .struct _ => DBUS_TYPE_STRUCT
  | .dictEntry _ _ => DBUS_TYPE_DICT_ENTRY

/-- The libdbus predicate `dbus_type_is_basic`. -/
def dbus_type_is_basic (t : Nat) : Bool :=
  t == DBUS_TYPE_BYTE || t == DBUS_TYPE_BOOLEAN || t == DBUS_TYPE_INT16 ||
  t == DBUS_TYPE_UINT16 || t == DBUS_TYPE_INT32 || t == DBUS_TYPE_UINT32 ||
  t == DBUS_TYPE_INT64 || t == DBUS_TYPE_UINT64 || t == DBUS_TYPE_DOUBLE ||
  t == DBUS_TYPE_STRING || t == DBUS_TYPE_OBJECT_PATH || t == DBUS_TYPE_SIGNATURE ||
  t == DBUS_TYPE_UNIX_FD

/-! ## Constants of `bleClient.h` and `bleClient.c` -/

def BLUEZ_SERVICE : String := "org.bluez"
def BLUEZ_PATH : String := "/org/bluez"
def ROOT_PATH : String := "/"
def UUID_CHARACTERISTIC_RD : String := "0003caa2-0000-1000-8000-00805f9b0131"
def UUID_CHARACTERISTIC_WR : String := "0003cbb1-0000-1000-8000-00805f9b0131"
def UUID_DEVICE : String := "0003cbbb-0000-1000-8000-00805f9b0131"
def DBUS_INTERFACE_PROPERTIES : String := "org.freedesktop.DBus.Properties"
def MAX_BLUEZ_PATH : Nat := 64
def MAX_BLUEZ_INTERFACE : Nat := 32
def MAX_PROPERTIES : Nat := 4

/-! ## States and events of `ble.c` -/

/-- The enum of connection states, in declaration order (values 0 to 8). -/
inductive State where
  | STATE_INIT
  | STATE_CONTROLLER_OFF
  | STATE_CONTROLLER_ON
  | STATE_SCAN
  | STATE_SCAN_STOPPED
  | STATE_CONNECTING
  | STATE_CONNECTED
  | STATE_ACQUIRE_NOTIFY
  | STATE_ROCK_N_ROLL
  deriving DecidableEq, Repr

/-- The integer value of a state enumerator. -/
def State.toNat : State → Nat
  | .STATE_INIT => 0
  | .STATE_CONTROLLER_OFF => 1
  | .STATE_CONTROLLER_ON => 2
  | .STATE_SCAN => 3
  | .STATE_SCAN_STOPPED => 4
  | .STATE_CONNECTING => 5
  | .STATE_CONNECTED => 6
  | .STATE_ACQUIRE_NOTIFY => 7
  | .STATE_ROCK_N_ROLL => 8

/-- The enum of events passed into `bleState` (values 1 to 8). -/
inductive Event where
  | CLIENT_READY
  | POWER_ON
  | DEVICE_ADDED
  | DEVICE_DETECTED
  | SCAN_STOPPED
  | DEVICE_READY
  | NOTIFY_ACQUIRED
  | DEVICE_DISCONNECTED
  deriving DecidableEq, Repr

/-- The integer value of an event enumerator. -/
def Event.toNat : Event → Nat
  | .CLIENT_READY => 1
  | .POWER_ON => 2
  | .DEVICE_ADDED => 3
  | .DEVICE_DETECTED => 4
  | .SCAN_STOPPED => 5
  | .DEVICE_READY => 6
  | .NOTIFY_ACQUIRED => 7
  | .DEVICE_DISCONNECTED => 8

/-! ## Proxies, property cache, bus -/

/-- One slot of a proxy's property array: `struct prop_entry`.  `msg` is the
cached copy of the value (`none` for a null message). -/
structure prop_entry where
  name : String
  type : Nat
  msg : Option DBusValue

/-- The four statically allocated proxies. -/
inductive Role where
  | adapter
  | device
  | characteristicRd
  | characteristicWr
  deriving DecidableEq, Repr

/-- The fields of `struct GDBusProxy` the program uses.  `client` is true when
the `client` pointer is set (there is a single client, `btClient`);
`obj_path` and `interface` are the characters the two arrays hold, up to the
terminator, or all of the array when it holds none; `property` lists the
array slots up to and including the empty-name terminator. -/
structure GDBusProxy where
  client : Bool
  obj_path : String
  interface : String
  property : List prop_entry
  watch : Nat
  pending : Bool

/-- The object path as the readers of `proxy->obj_path` see it (the message
builders and the property watch): the array read as a C string.  When the
array of `MAX_BLUEZ_PATH` bytes holds no terminator, the read runs on into
`interface`, the field that follows it in `struct GDBusProxy`.  Lengths count
bytes: object paths and interface names are ASCII.  The array `interface`
itself always holds a terminator, as only the three interface names of
`bluez_screen_interface`, all shorter than `MAX_BLUEZ_INTERFACE`, are ever
copied into it. -/
def GDBusProxy.path (p : GDBusProxy) : String :=
  if p.obj_path.length < MAX_BLUEZ_PATH then p.obj_path else p.obj_path ++ p.interface

/-- The reply handlers installed on method calls. -/
inductive ReplyFn where
  | acquire_notify_reply
  | write_reply
  | bluez_discovery_filter_reply
  | bluez_set_property_reply
  deriving DecidableEq, Repr

/-- A method-call message as built by `dbus_message_new_method_call` and the
setup function: destination, object path, interface, member, body, and the
reply handler (`none` for a call sent with the no-reply flag). -/
structure BusMsg where
  destination : String
  path : String
  interface : String
  member : String
  args : List DBusValue
  reply : Option ReplyFn

/-- One invocation of the connection's send function: the message and whether
the connection took it. -/
structure BusCall where
  msg : BusMsg
  accepted : Bool

/-- The behaviour of the external connection: whether the `n`-th message
handed to it (counting from 0) is taken. -/
abbrev Bus := Nat → BusMsg → Bool

/-- The callbacks that can be registered for notifications; `ble.c` registers
its function `notification`. -/
inductive NotificationCallback where
  | notification
  deriving DecidableEq, Repr

/-- The global `notify_io` of type `struct pipe_io`; `fd` stands for the
`struct io` wrapping the acquired descriptor. -/
structure pipe_io where
  proxy : Option Role
  fd : Option Int
  mtu : Nat
  cb : Option NotificationCallback

/-- The functions that can be registered as property-change callback;
`ble.c` registers its function `propertyChanged`. -/
inductive PropertyCallback where
  | propertyChanged
  deriving DecidableEq, Repr

/-- One invocation of the property-change callback: the interface, the
property name and the tri-state value it was given. -/
structure PropertyCallbackCall where
  interface : String
  name : String
  value : Int
  deriving DecidableEq, Repr

/-- One property watch registered with `g_dbus_add_properties_watch`: the
object path and interface it listens on and the proxy handed to
`properties_changed` as user data. -/
structure PropertiesWatch where
  path : String
  interface : String
  proxy : Role
  deriving DecidableEq, Repr

/-- All mutable state of the program: `currentState` (static in `bleState`),
the four proxies, `filterSet` (static in `bluez_discovery_filter`),
`notify_io`, `called` (static in `notification`), whether `mainLoop` is
non-null, the number of `g_main_loop_quit` calls made, the trace of
messages handed to the bus connection, the callback stored in
`btClient.propertyCallback`, the trace of its invocations, and the property
watches registered so far. -/
structure World where
  currentState : State
  adapter : GDBusProxy
  device : GDBusProxy
  characteristicRd : GDBusProxy
  characteristicWr : GDBusProxy
  filterSet : Bool
  notify_io : pipe_io
  called : Nat
  mainLoop : Bool
  quitCalls : Nat
  calls : List BusCall
  propertyCallback : Option PropertyCallback
  propertyCallbackCalls : List PropertyCallbackCall
  watches : List PropertiesWatch

/-- The proxy a pointer to one of the four static proxies designates. -/
def World.proxy (w : World) : Role → GDBusProxy
  | .adapter => w.adapter
  | .device => w.device
  | .characteristicRd => w.characteristicRd
  | .characteristicWr => w.characteristicWr

/-- A property slot holding only its declared name. -/
def declared (name : String) : prop_entry := { name := name, type := 0, msg := none }

/-- A zero-initialised proxy with the given declared property names followed
by the empty-name terminator. -/
def GDBusProxy.static (names : List String) : GDBusProxy :=
  { client := false, obj_path := "", interface := "",
    property := (names.map declared) ++ [declared ""], watch := 0, pending := false }

/-- The program state at start-up, from the static initialisers. -/
def World.init : World :=
  { currentState := .STATE_INIT
    adapter := GDBusProxy.static ["Powered", "Discovering"]
    device := GDBusProxy.static ["RSSI", "Connected", "ServicesResolved"]
    characteristicRd := GDBusProxy.static ["NotifyAcquired"]
    characteristicWr := GDBusProxy.static []
    filterSet := false
    notify_io := { proxy := none, fd := none, mtu := 0, cb := none }
    called := 0
    mainLoop := false
    quitCalls := 0
    calls := []
    propertyCallback := none
    propertyCallbackCalls := []
    watches := [] }

/-! ## Sending (`g_dbus_send_message`, `g_dbus_send_message_with_reply`) -/

/-- Hand a message to the bus connection: the call is recorded with the
connection's answer, which is also the return value of
`g_dbus_send_message` and of `g_dbus_send_message_with_reply`. -/
def transmit (bus : Bus) (w : World) (msg : BusMsg) : Bool × World :=
  let ok := bus w.calls.length msg
  (ok, { w with calls := w.calls ++ [{ msg := msg, accepted := ok }] })

/-- The message `g_dbus_proxy_method_call` builds for a proxy: destination
`BLUEZ_SERVICE`, the proxy's object path and interface as read from its
arrays, the method, the body written by the setup function, and the reply
handler. -/
def methodCallMsg (p : GDBusProxy) (method : String) (args : List DBusValue)
    (function : Option ReplyFn) : BusMsg :=
  { destination := BLUEZ_SERVICE, path := p.path, interface := p.interface,
    member := method, args := args, reply := function }

/-- The function `g_dbus_proxy_method_call`: `proxy` and `method` are nullable
pointers, `args` is what the setup function appends, `function` the reply
handler.  Returns FALSE without sending when the proxy or method is null or
the proxy has no client. -/
def g_dbus_proxy_method_call (bus : Bus) (w : World) (proxy : Option Role)
    (method : Option String) (args : List DBusValue) (function : Option ReplyFn) :
    Bool × World :=
  match proxy, method with
  | some r, some m =>
    if (w.proxy r).client = false then (false, w)
    else transmit bus w (methodCallMsg (w.proxy r) m args function)
  | _, _ => (false, w)

/-! ## Property cache reads -/

/-- The search loop shared by the property functions: walk the slots in
order, stop at the empty-name terminator, return the first slot whose name
matches. -/
def findProperty : List prop_entry → String → Option prop_entry
  | [], _ => none
  | p :: ps, name =>
    if p.name = "" then none
    else if p.name = name then some p
    else findProperty ps name

/-- The function `bluez_proxy_get_property`: `some v` when it returns TRUE
with the iterator on the cached value `v`, `none` when it returns FALSE. -/
def bluez_proxy_get_property (w : World) (proxy : Option Role) (name : Option String) :
    Option DBusValue :=
  match proxy, name with
  | some r, some n =>
    match findProperty ((w.proxy r).property.take MAX_PROPERTIES) n with
    | none => none
    | some prop => prop.msg
  | _, _ => none

/-- The function `bluez_read_property_boolean`.  `yes` is the out-pointer:
`none` when null, else its current pointee.  Returns the return code and the
pointee afterwards. -/
def bluez_read_property_boolean (w : World) (proxy : Option Role) (name : Option String)
    (yes : Option Bool) : Int × Option Bool :=
  match yes with
  | none => (1, none)
  | some _ =>
    match bluez_proxy_get_property w proxy name with
    | none => (1, some false)
    | some (.boolean value) => (0, some value)
    | some _ => (1, some false)

/-! ## Requests -/

/-- The message `bluez_set_property` builds: a `Set` call on the properties
interface of the proxy's object, whose body is the proxy's interface, the
property name and the value wrapped in a variant, with the reply handler
`bluez_set_property_reply`. -/
def setPropertyMsg (p : GDBusProxy) (name : String) (v : DBusValue) : BusMsg :=
  { destination := BLUEZ_SERVICE, path := p.path,
    interface := DBUS_INTERFACE_PROPERTIES, member := "Set",
    args := [.string p.interface, .string name, .variant v],
    reply := some .bluez_set_property_reply }

/-- The function `bluez_set_property`: refuses a null proxy, name or value
and a non-basic type, else sends the `Set` call and waits for a reply. -/
def bluez_set_property (bus : Bus) (w : World) (proxy : Option Role) (name : Option String)
    (type : Nat) (value : Option DBusValue) : Bool × World :=
  match proxy, name, value with
  | some r, some n, some v =>
    if dbus_type_is_basic type = false then (false, w)
    else transmit bus w (setPropertyMsg (w.proxy r) n v)
  | _, _, _ => (false, w)

/-- The function `bluez_power_on`. -/
def bluez_power_on (bus : Bus) (w : World) : World :=
  (bluez_set_property bus w (some .adapter) (some "Powered") DBUS_TYPE_BOOLEAN
    (some (.boolean true))).2

/-- The body `bluez_discovery_filter_setup` writes: a dictionary with the one
entry `UUIDs` holding the one-element string array `[UUID_DEVICE]`. -/
def bluez_discovery_filter_setup : List DBusValue :=
  [.array "{sv}" [.dictEntry (.string "UUIDs") (.variant (.array "s" [.string UUID_DEVICE]))]]

/-- The function `bluez_discovery_filter`. -/
def bluez_discovery_filter (bus : Bus) (w : World) : World :=
  if w.filterSet then w
  else
    let r := g_dbus_proxy_method_call bus w (some .adapter) (some "SetDiscoveryFilter")
      bluez_discovery_filter_setup (some .bluez_discovery_filter_reply)
    if r.1 = false then r.2
    else { r.2 with filterSet := true }

/-- The function `bluez_scan`. -/
def bluez_scan (bus : Bus) (w : World) (on_ : Bool) : World :=
  let w1 := if on_ then bluez_discovery_filter bus w else w
  let method := if on_ then "StartDiscovery" else "StopDiscovery"
  (g_dbus_proxy_method_call bus w1 (some .adapter) (some method) [] none).2

/-- The function `bluez_connect`. -/
def bluez_connect (bus : Bus) (w : World) : Bool × World :=
  g_dbus_proxy_method_call bus w (some .device) (some "Connect") [] none

/-- The body `acquire_setup` writes: an empty dictionary. -/
def acquire_setup : List DBusValue := [.array "{sv}" []]

/-- The function `bluez_acquire_notify`. -/
def bluez_acquire_notify (bus : Bus) (w : World) (cb : Option NotificationCallback) : World :=
  if w.characteristicRd.interface ≠ "org.bluez.GattCharacteristic1" then w
  else
    let r := g_dbus_proxy_method_call bus w (some .characteristicRd) (some "AcquireNotify")
      acquire_setup (some .acquire_notify_reply)
    if r.1 = false then r.2
    else { r.2 with notify_io := { r.2.notify_io with proxy := some .characteristicRd, cb := cb } }

/-- The byte loop of `bluez_write_attribute`: `bytes[i] = (uint8_t)value`
for `i` from 3 down to 0, shifting `value` right by 8 between stores.
`n` is the number of stores still to do (index `n - 1` next). -/
def writeBytesLoop : Nat → Nat → List Nat → List Nat
  | 0, _, bytes => bytes
  | i + 1, value, bytes => writeBytesLoop i ((value % 2 ^ 32) / 2 ^ 8) ((value % 2 ^ 8) :: bytes)

/-- The body `write_setup` writes: the byte array and an empty dictionary. -/
def write_setup (bytes : List Nat) : List DBusValue :=
  [.array "y" (bytes.map DBusValue.byte), .array "{sv}" []]

/-- The function `bluez_write_attribute` on a `uint32_t` value. -/
def bluez_write_attribute (bus : Bus) (w : World) (value : Nat) : World :=
  (g_dbus_proxy_method_call bus w (some .characteristicWr) (some "WriteValue")
    (write_setup (writeBytesLoop 4 (value % 2 ^ 32) [])) (some .write_reply)).2

/-! ## `ble.c` -/

/-- The function `quit`: stops the main loop when there is one. -/
def quit (w : World) : World :=
  if w.mainLoop = false then w
  else { w with quitCalls := w.quitCalls + 1 }

/-- The static colour table `led` of `notification`: red, green, blue. -/
def led : List Nat := [0xFF000080, 0x00FF0080, 0x0000FF80]

/-- The function `notification`.  `none` stands for a read of `led` past its
end, which has no defined result. -/
def notification (bus : Bus) (w : World) (value : Int) : Option World :=
  let written : Option World :=
    if value = 0 then (led[w.called / 2]?).map (bluez_write_attribute bus w)
    else some w
  match written with
  | none => none
  | some w1 =>
    let w2 := { w1 with called := w1.called + 1 }
    if w2.called < 6 then some w2
    else some (quit w2)

/-- How one pass through the body of the loop of `bleState` ends: with a
`return`, or with a `break` out of the switch and so another pass. -/
inductive LoopStep where
  | ret (w : World)
  | again (w : World)

/-- One pass through the body of the `while (1)` loop of `bleState`. -/
def bleStateIter (bus : Bus) (w0 : World) (event : Event) : LoopStep :=
  let w : World :=
    if event = .DEVICE_DISCONNECTED then { w0 with currentState := .STATE_CONTROLLER_ON }
    else w0
  match w.currentState with
  | .STATE_INIT =>
    if event ≠ .CLIENT_READY then .ret w
    else .again { w with currentState := .STATE_CONTROLLER_OFF }
  | .STATE_CONTROLLER_OFF =>
    let r := bluez_read_property_boolean w (some .adapter) (some "Powered") (some false)
    if r.1 ≠ 0 then .ret w
    else if r.2 ≠ some true then .ret (bluez_power_on bus w)
    else .again { w with currentState := .STATE_CONTROLLER_ON }
  | .STATE_CONTROLLER_ON =>
    let r := bluez_read_property_boolean w (some .device) (some "Connected") (some false)
    if r.2 ≠ some true then .ret (bluez_scan bus { w with currentState := .STATE_SCAN } true)
    else .again { w with currentState := .STATE_CONNECTED }
  | .STATE_SCAN =>
    if event ≠ .DEVICE_DETECTED then .ret w
    else .ret { bluez_scan bus w false with currentState := .STATE_SCAN_STOPPED }
  | .STATE_SCAN_STOPPED =>
    if event ≠ .SCAN_STOPPED then .ret w
    else
      let r := bluez_connect bus w
      if r.1 = true then .ret { r.2 with currentState := .STATE_CONNECTING }
      else .ret r.2
  | .STATE_CONNECTING =>
    if event ≠ .DEVICE_READY then .ret w
    else .again { w with currentState := .STATE_CONNECTED }
  | .STATE_CONNECTED =>
    .ret { bluez_acquire_notify bus w (some .notification) with
             currentState := .STATE_ACQUIRE_NOTIFY }
  | .STATE_ACQUIRE_NOTIFY =>
    if event = .NOTIFY_ACQUIRED then .ret { w with currentState := .STATE_ROCK_N_ROLL }
    else .ret w
  | .STATE_ROCK_N_ROLL => .ret w

/-- The function `bleState`: the loop body is repeated until it returns.
`fuel` bounds the number of passes; `none` means the loop has not returned
within `fuel` passes. -/
def bleState : Nat → Bus → World → Event → Option World
  | 0, _, _, _ => none
  | fuel + 1, bus, w, event =>
    match bleStateIter bus w event with
    | .ret w1 => some w1
    | .again w1 => bleState fuel bus w1 event

/-- The function `client_ready`. -/
def client_ready (fuel : Nat) (bus : Bus) (w : World) : Option World :=
  bleState fuel bus w .CLIENT_READY

/-- The function `propertyChanged`, the registered property-change callback:
`value` is 1 or 0 for a boolean property and -1 for any other type. -/
def propertyChanged (fuel : Nat) (bus : Bus) (w : World) (interface name : String)
    (value : Int) : Option World :=
  let yes : Bool := decide (value = 1)
  if interface = "org.bluez.Device1" then
    let s1 : Option World :=
      if name = "ServicesResolved" ∧ yes = true then bleState fuel bus w .DEVICE_READY
      else some w
    let s2 : Option World := s1.bind fun w1 =>
      if name = "RSSI" then bleState fuel bus w1 .DEVICE_DETECTED
      else some w1
    s2.bind fun w2 =>
      if name = "Connected" ∧ yes = false then bleState fuel bus w2 .DEVICE_DISCONNECTED
      else some w2
  else if interface = "org.bluez.Adapter1" then
    if name = "Powered" ∧ yes = true then bleState fuel bus w .POWER_ON
    else if name = "Discovering" ∧ yes = false then bleState fuel bus w .SCAN_STOPPED
    else some w
  else if interface = "org.bluez.GattCharacteristic1" then
    if name = "NotifyAcquired" ∧ yes = true then bleState fuel bus w .NOTIFY_ACQUIRED
    else some w
  else some w

/-! ## Helpers for stating properties -/

/-- Deliver a list of notification values in order. -/
def notifications (bus : Bus) : World → List Int → Option World
  | w, [] => some w
  | w, v :: vs => (notification bus w v).bind fun w1 => notifications bus w1 vs

/-- The messages handed to the bus so far, oldest first. -/
def World.requests (w : World) : List BusMsg := w.calls.map BusCall.msg

/-- The number of messages in a list that call the given method. -/
def countMember (member : String) (ms : List BusMsg) : Nat :=
  ms.countP fun m => m.member == member

/-- A bus connection that takes every message. -/
def Bus.reliable : Bus := fun _ _ => true

/-- A bus connection that takes no message. -/
def Bus.down : Bus := fun _ _ => false

/-- A proxy as `bluez_screen_interface` binds it: client set, object path and
interface copied in, watch handle stored, pending flag raised. -/
def GDBusProxy.bind (p : GDBusProxy) (path interface : String) (watch : Nat) : GDBusProxy :=
  { p with client := true, obj_path := path, interface := interface, watch := watch,
           pending := true }

/-- Store a value in the slot with the given name, as `bluez_add_property`
does for a declared property: type code and cached copy are replaced. -/
def cacheValue (name : String) (v : DBusValue) : List prop_entry → List prop_entry
  | [] => []
  | p :: ps =>
    if p.name = "" then p :: ps
    else if p.name = name then { p with type := v.argType, msg := some v } :: ps
    else p :: cacheValue name v ps

/-- The controller proxy bound to `/org/bluez/hci0` with the given cached
`Powered` value. -/
def sampleAdapter (powered : Bool) : GDBusProxy :=
  let p := (GDBusProxy.static ["Powered", "Discovering"]).bind "/org/bluez/hci0"
    "org.bluez.Adapter1" 1
  { p with property := cacheValue "Powered" (.boolean powered) p.property }

/-- The peripheral proxy bound to a device path with the given cached
`Connected` value. -/
def sampleDevice (connected : Bool) : GDBusProxy :=
  let p := (GDBusProxy.static ["RSSI", "Connected", "ServicesResolved"]).bind
    "/org/bluez/hci0/dev_00_A0_50_3E_47_9D" "org.bluez.Device1" 2
  { p with property := cacheValue "Connected" (.boolean connected) p.property }

/-- The notify-characteristic proxy bound to a characteristic path. -/
def sampleCharacteristicRd : GDBusProxy :=
  (GDBusProxy.static ["NotifyAcquired"]).bind
    "/org/bluez/hci0/dev_00_A0_50_3E_47_9D/service000c/char000d"
    "org.bluez.GattCharacteristic1" 3

/-- The write-characteristic proxy bound to a characteristic path. -/
def sampleCharacteristicWr : GDBusProxy :=
  (GDBusProxy.static []).bind
    "/org/bluez/hci0/dev_00_A0_50_3E_47_9D/service000c/char0010"
    "org.bluez.GattCharacteristic1" 4

/-- A running session in the given state with all four proxies bound, the
controller's `Powered` and the peripheral's `Connected` cached as given, and
the main loop created. -/
def sampleWorld (s : State) (powered connected : Bool) : World :=
  { World.init with
    currentState := s
    adapter := sampleAdapter powered
    device := sampleDevice connected
    characteristicRd := sampleCharacteristicRd
    characteristicWr := sampleCharacteristicWr
    mainLoop := true }

/-- The value of `currentState` after each pass through the loop of
`bleState`, in order, for at most `fuel` passes. -/
def bleStateVisited : Nat → Bus → World → Event → List State
  | 0, _, _, _ => []
  | fuel + 1, bus, w, event =>
    match bleStateIter bus w event with
    | .ret w1 => [w1.currentState]
    | .again w1 => w1.currentState :: bleStateVisited fuel bus w1 event

/-- Deliver a sequence of events to `bleState`.  Each delivery comes with the
bus behaviour and the rest of the program state at that moment (proxies and
caches may have changed in between); only `currentState` is carried from one
call to the next.  The result lists, for each delivery, the state the call
started in and the event, and gives the state after the last call. -/
def runEvents (fuel : Nat) : State → List (Bus × World × Event) →
    Option (List (State × Event) × State)
  | s, [] => some ([], s)
  | s, (bus, w, event) :: rest =>
    match bleState fuel bus { w with currentState := s } event with
    | none => none
    | some w1 =>
      match runEvents fuel w1.currentState rest with
      | none => none
      | some (seen, last) => some ((s, event) :: seen, last)

/-- A fresh or running session whose controller is powered and whose
peripheral is cached as connected, but whose characteristic objects have not
been seen: both characteristic proxies are as at start-up. -/
def sampleWorldNoCharacteristics (s : State) : World :=
  { sampleWorld s true true with
    characteristicRd := World.init.characteristicRd
    characteristicWr := World.init.characteristicWr }

/-- The `WriteValue` call that carries a 32-bit value through a proxy: the
four bytes of `bluez_write_attribute` and an empty options dictionary, with
the reply handler `write_reply`. -/
def writeCommand (p : GDBusProxy) (value : Nat) : BusMsg :=
  methodCallMsg p "WriteValue" (write_setup (writeBytesLoop 4 (value % 2 ^ 32) []))
    (some .write_reply)

/-- Whether no slot of a proxy's property array holds a cached value. -/
def GDBusProxy.cacheEmpty (p : GDBusProxy) : Bool :=
  p.property.all fun e => e.msg.isNone

/-- The proxy-table invariant: a proxy holds cached values only once it has
a client.  Values enter a cache through `bluez_add_property` only, which runs
on the proxy `bluez_screen_interface` has just bound or on the proxy a
property watch was registered for at binding. -/
def World.cachedOnlyIfBound (w : World) : Bool :=
  [w.adapter, w.device, w.characteristicRd, w.characteristicWr].all fun p =>
    p.client || p.cacheEmpty

/-- A session in the given state in which only the peripheral proxy is bound
(the managed objects held a matching `org.bluez.Device1` object but no
`org.bluez.Adapter1` object), with the peripheral's `Connected` cached false
and the main loop created. -/
def sampleWorldNoAdapter (s : State) : World :=
  { World.init with
    currentState := s
    device := sampleDevice false
    mainLoop := true }

/-- A running session with the controller, the peripheral and the notify
characteristic bound but no write characteristic seen. -/
def sampleWorldNoWriteCharacteristic (s : State) : World :=
  { sampleWorld s true true with characteristicWr := World.init.characteristicWr }

/-! ## Message iterators and UUID screening -/

/-- A `DBusMessageIter`: the elements of the container being walked, from
the current one to the last.  The empty list is an iterator at the end. -/
abbrev DBusMessageIter := List DBusValue

/-- The libdbus function `dbus_message_iter_get_arg_type`. -/
def dbus_message_iter_get_arg_type : DBusMessageIter → Nat
  | [] => DBUS_TYPE_INVALID
  | v :: _ => v.argType

/-- The libdbus function `dbus_message_iter_next`. -/
def dbus_message_iter_next : DBusMessageIter → DBusMessageIter
  | [] => []
  | _ :: rest => rest

/-- The libdbus function `dbus_message_iter_recurse`: an iterator over the
contents of the container the iterator is on. -/
def dbus_message_iter_recurse : DBusMessageIter → DBusMessageIter
  | .variant v :: _ => [v]
  | .array _ xs :: _ => xs
  | .struct xs :: _ => xs
  | .dictEntry k v :: _ => [k, v]
  | _ => []

/-- The function `bluez_dbus_msg_recurse`: recurse into the current element;
when the first element inside has the wanted type, read it and step past it.
Returns the result flag, the value read, and the sub-iterator as it is left. -/
def bluez_dbus_msg_recurse (iter : DBusMessageIter) (type : Nat) :
    Bool × Option DBusValue × DBusMessageIter :=
  let sub := dbus_message_iter_recurse iter
  if dbus_message_iter_get_arg_type sub ≠ type then (false, none, sub)
  else (true, sub.head?, dbus_message_iter_next sub)

/-- The `for (;;)` loop of `bluez_screen_uuid` over a string array: `uuid` is
the string to compare next and `child` the iterator as it stands; each round
steps the iterator once more before reading the next string. -/
def screenUuidArray (uuidWanted : String) : String → DBusMessageIter → Bool
  | uuid, [] => decide (uuid = uuidWanted)
  | uuid, _ :: rest =>
    if uuid = uuidWanted then true
    else
      match rest with
      | .string next :: _ => screenUuidArray uuidWanted next rest
      | _ => false

/-- What `bluez_screen_uuid` does with the value of a `UUID` or `UUIDs`
entry; `key` is the entry iterator after the key has been read. -/
def screenUuidValue (uuidWanted : String) (key : DBusMessageIter) : Bool :=
  if dbus_message_iter_get_arg_type key = DBUS_TYPE_VARIANT then
    let r := bluez_dbus_msg_recurse key DBUS_TYPE_STRING
    if r.1 = true then
      match r.2.1 with
      | some (.string uuid) => decide (uuid = uuidWanted)
      | _ => false
    else if dbus_message_iter_get_arg_type r.2.2 = DBUS_TYPE_ARRAY then
      let c := bluez_dbus_msg_recurse r.2.2 DBUS_TYPE_STRING
      if c.1 = false then false
      else
        match c.2.1 with
        | some (.string uuid) => screenUuidArray uuidWanted uuid c.2.2
        | _ => false
    else false
  else false

/-- The `while` loop of `bluez_screen_uuid` over the dictionary entries. -/
def screenUuidEntries (uuidWanted : String) : DBusMessageIter → Bool
  | [] => false
  | e :: rest =>
    if e.argType ≠ DBUS_TYPE_DICT_ENTRY then false
    else
      let k := bluez_dbus_msg_recurse (e :: rest) DBUS_TYPE_STRING
      if k.1 = false then false
      else
        match k.2.1 with
        | some (.string name) =>
          if name = "UUID" ∨ name = "UUIDs" then screenUuidValue uuidWanted k.2.2
          else screenUuidEntries uuidWanted rest
        | _ => false

/-- The function `bluez_screen_uuid`. -/
def bluez_screen_uuid (iter : DBusMessageIter) (uuidWanted : String) : Bool :=
  if dbus_message_iter_get_arg_type iter ≠ DBUS_TYPE_ARRAY then false
  else screenUuidEntries uuidWanted (dbus_message_iter_recurse iter)

/-! ## Screening and the property cache (`bleClient.c`) -/

def DBUS_INTERFACE_INTROSPECTABLE : String := "org.freedesktop.DBus.Introspectable"

/-- What a destination array of `n` bytes holds after
`strncpy(dest, src, n)`: all of `src` and a terminator when `src` is shorter
than `n`, else its first `n` characters and no terminator.  How the array
then reads as a C string is `GDBusProxy.path`. -/
def strncpy (src : String) (n : Nat) : String :=
  if src.length < n then src else src.take n

/-- Store a proxy in the slot of a role. -/
def World.setProxy (w : World) (r : Role) (p : GDBusProxy) : World :=
  match r with
  | .adapter => { w with adapter := p }
  | .device => { w with device := p }
  | .characteristicRd => { w with characteristicRd := p }
  | .characteristicWr => { w with characteristicWr := p }

/-- The object path the readers of a proxy see once `bluez_screen_interface`
has copied `path` and `interface` into it: `path` itself when it is shorter
than `MAX_BLUEZ_PATH`, else its first `MAX_BLUEZ_PATH` characters run on into
the interface name. -/
def boundPath (path interface : String) : String :=
  GDBusProxy.path
    { client := true, obj_path := strncpy path MAX_BLUEZ_PATH, interface := interface,
      property := [], watch := 0, pending := true }

/-- The proxy `bluez_screen_interface` selects for an interface name and
property dictionary, before it binds it: `none` for the null pointer. -/
def screenRole (interface : String) (iter : DBusMessageIter) : Option Role :=
  if interface = "org.bluez.Adapter1" then some .adapter
  else if interface = "org.bluez.Device1" then
    if bluez_screen_uuid iter UUID_DEVICE = true then some .device else none
  else if interface = "org.bluez.GattCharacteristic1" then
    if bluez_screen_uuid iter UUID_CHARACTERISTIC_RD = true then some .characteristicRd
    else if bluez_screen_uuid iter UUID_CHARACTERISTIC_WR = true then some .characteristicWr
    else none
  else none

/-- The function `bluez_screen_interface`: select the proxy; when there is
one, set its client, copy path and interface in, register a property watch
on them with the proxy as user data, store the handle `watch` the
registration returns, and raise the pending flag.  Returns the proxy
selected. -/
def bluez_screen_interface (w : World) (path interface : String) (iter : DBusMessageIter)
    (watch : Nat) : Option Role × World :=
  match screenRole interface iter with
  | none => (none, w)
  | some r =>
    let p : GDBusProxy :=
      { w.proxy r with
        client := true
        obj_path := strncpy path MAX_BLUEZ_PATH
        interface := strncpy interface MAX_BLUEZ_INTERFACE
        watch := watch
        pending := true }
    (some r,
     { w.setProxy r p with
       watches := w.watches ++ [{ path := p.path, interface := p.interface, proxy := r }] })

/-- The store loop of `bluez_add_property` over the slots examined: `none`
when the empty-name terminator is met first (the function returns), else the
slots as the loop leaves them, with type code and cached copy replaced in the
first slot of that name if there is one. -/
def storeLoop : List prop_entry → String → DBusValue → Option (List prop_entry)
  | [], _, _ => some []
  | p :: ps, name, v =>
    if p.name = "" then none
    else if p.name = name then some ({ p with type := v.argType, msg := some v } :: ps)
    else (storeLoop ps name v).map fun slots => p :: slots

/-- The tri-state value `bluez_add_property` hands to the callback: 1 or 0
for a boolean, -1 for any other type. -/
def triState : DBusValue → Int
  | .boolean b => if b = true then 1 else 0
  | _ => -1

/-- The function `bluez_add_property`.  `iter` is the dictionary-entry
iterator after the key; `proxy->prop_func` is never set in this program.  The
registered callback is run through `propertyChanged`, so the result is `none`
when the state machine it calls does not return within `fuel` passes. -/
def bluez_add_property (fuel : Nat) (bus : Bus) (w : World) (proxy : Role) (name : String)
    (iter : DBusMessageIter) (send_changed : Bool) : Option World :=
  let client := (w.proxy proxy).client
  match iter with
  | .variant value :: _ =>
    match storeLoop ((w.proxy proxy).property.take MAX_PROPERTIES) name value with
    | none => some w
    | some slots =>
      let w1 := w.setProxy proxy
        { w.proxy proxy with
          property := slots ++ (w.proxy proxy).property.drop MAX_PROPERTIES }
      if client = false ∨ send_changed = false then some w1
      else
        match w1.propertyCallback with
        | none => some w1
        | some .propertyChanged =>
          propertyChanged fuel bus
            { w1 with
              propertyCallbackCalls := w1.propertyCallbackCalls ++
                [{ interface := (w1.proxy proxy).interface, name := name,
                   value := triState value }] }
            (w1.proxy proxy).interface name (triState value)
  | _ => some w

/-- The loop of `update_properties` over the dictionary entries. -/
def updateEntries (fuel : Nat) (bus : Bus) (proxy : Role) (send_changed : Bool) :
    World → DBusMessageIter → Option World
  | w, [] => some w
  | w, e :: rest =>
    if e.argType ≠ DBUS_TYPE_DICT_ENTRY then some w
    else
      let k := bluez_dbus_msg_recurse (e :: rest) DBUS_TYPE_STRING
      if k.1 = false then some w
      else
        match k.2.1 with
        | some (.string name) =>
          (bluez_add_property fuel bus w proxy name k.2.2 send_changed).bind fun w1 =>
            updateEntries fuel bus proxy send_changed w1 rest
        | _ => some w

/-- The function `update_properties`. -/
def update_properties (fuel : Nat) (bus : Bus) (w : World) (proxy : Role)
    (iter : DBusMessageIter) (send_changed : Bool) : Option World :=
  if dbus_message_iter_get_arg_type iter ≠ DBUS_TYPE_ARRAY then some w
  else updateEntries fuel bus proxy send_changed w (dbus_message_iter_recurse iter)

/-- The function `proxy_added`; `client->proxy_added` is never set in this
program. -/
def proxy_added (w : World) (proxy : Role) : World :=
  if (w.proxy proxy).pending = false then w
  else w.setProxy proxy { w.proxy proxy with pending := false }

/-- The function `parse_properties`; `watch` is the handle the watch
registration returns if a proxy is bound. -/
def parse_properties (fuel : Nat) (bus : Bus) (w : World) (path interface : String)
    (iter : DBusMessageIter) (watch : Nat) : Option World :=
  if interface = DBUS_INTERFACE_INTROSPECTABLE then some w
  else if interface = DBUS_INTERFACE_PROPERTIES then some w
  else
    match bluez_screen_interface w path interface iter watch with
    | (none, _) => some w
    | (some r, w1) =>
      (update_properties fuel bus w1 r iter false).map fun w2 => proxy_added w2 r

/-- The function `properties_changed`, the handler of a property watch:
`proxy` is the user data of the watch, `args` the body of the signal. -/
def properties_changed (fuel : Nat) (bus : Bus) (w : World) (proxy : Role)
    (args : DBusMessageIter) : Option World :=
  if dbus_message_iter_get_arg_type args ≠ DBUS_TYPE_STRING then some w
  else update_properties fuel bus w proxy (dbus_message_iter_next args) true

/-- The function `bluez_set_property_change_fn`. -/
def bluez_set_property_change_fn (w : World) (fn : Option PropertyCallback) : World :=
  { w with propertyCallback := fn }

/-- The names a proxy declares: those of the slots examined, up to the
empty-name terminator. -/
def declaredNames (p : GDBusProxy) : List String :=
  ((p.property.take MAX_PROPERTIES).map prop_entry.name).takeWhile fun n => n ≠ ""

/-- The property names of the static initialisers, by role. -/
def staticNames : Role → List String
  | .adapter => ["Powered", "Discovering"]
  | .device => ["RSSI", "Connected", "ServicesResolved"]
  | .characteristicRd => ["NotifyAcquired"]
  | .characteristicWr => []

/-- The cached values of a proxy, slot by slot: name, type code and copy. -/
def GDBusProxy.cache (p : GDBusProxy) : List (String × Nat × Option DBusValue) :=
  p.property.map fun e => (e.name, e.type, e.msg)

/-! ## The notification pipe (`bleClient.c`) -/

/-- The `struct chrc` a pipe handler can be given as user data. -/
structure chrc where
  path : String
  notify_io : Option Int

/-- The function `pipe_read`.  `io` is the object that became readable,
`bytes_read` the result of `read` and `buf0` the byte at index 0 of the
buffer after the `read` call (which `read` has written only when it returned
a positive count).  Returns the flag and the state; `none` when the callback
has no defined result. -/
def pipe_read (bus : Bus) (w : World) (io : Int) (user_data : Option chrc)
    (bytes_read : Int) (buf0 : Nat) : Option (Bool × World) :=
  if w.notify_io.fd ≠ some io ∧ user_data.isNone = true then some (true, w)
  else if bytes_read < 0 then some (false, w)
  else
    match w.notify_io.cb with
    | none => some (true, w)
    | some .notification =>
      (notification bus w (buf0 : Int)).map fun w1 => (true, w1)

/-- Read four bytes as a big-endian unsigned integer. -/
def readBigEndian (bytes : List Nat) : Nat :=
  bytes.foldl (fun acc b => acc * 256 + b) 0

/-- A running session as `sampleWorld` with `propertyChanged` registered as
the property-change callback. -/
def sampleSession (s : State) (powered connected : Bool) : World :=
  bluez_set_property_change_fn (sampleWorld s powered connected) (some .propertyChanged)

/-- The largest number of passes through the loop of `bleState` a call
started in the given state can take on an event other than
`DEVICE_DISCONNECTED`. -/
def passesNeeded : State → Nat
  | .STATE_INIT => 4
  | .STATE_CONTROLLER_OFF => 3
  | .STATE_CONTROLLER_ON => 2
  | .STATE_SCAN => 1
  | .STATE_SCAN_STOPPED => 1
  | .STATE_CONNECTING => 2
  | .STATE_CONNECTED => 1
  | .STATE_ACQUIRE_NOTIFY => 1
  | .STATE_ROCK_N_ROLL => 1

/-- An active session as `sampleWorld` whose notification pipe is open: the
reader wraps descriptor 7 and `notification` is the registered callback. -/
def sampleActive : World :=
  { sampleWorld .STATE_ROCK_N_ROLL true true with
    notify_io := { proxy := some .characteristicRd, fd := some 7, mtu := 23,
                   cb := some .notification } }

/-- The state with the property slots of one proxy replaced. -/
def World.withCache (w : World) (r : Role) (slots : List prop_entry) : World :=
  w.setProxy r { w.proxy r with property := slots }

/-- Two program states that differ at most in what the state machine and its
requests write: `currentState`, the bus trace, `filterSet` and `notify_io`.
The proxies with their caches, the notification counter, the main loop, the
registered callback, its trace and the watches are the same. -/
def World.sameTables (w w1 : World) : Prop :=
  w1.adapter = w.adapter ∧ w1.device = w.device ∧
  w1.characteristicRd = w.characteristicRd ∧ w1.characteristicWr = w.characteristicWr ∧
  w1.called = w.called ∧ w1.mainLoop = w.mainLoop ∧ w1.quitCalls = w.quitCalls ∧
  w1.propertyCallback = w.propertyCallback ∧
  w1.propertyCallbackCalls = w.propertyCallbackCalls ∧ w1.watches = w.watches

/-! ## The reply to `AcquireNotify` (`bleClient.c`) -/

def DBUS_MESSAGE_TYPE_METHOD_RETURN : Nat := 2
def DBUS_MESSAGE_TYPE_ERROR : Nat := 3

/-- A message received from the bus as a reply handler sees it: its type
code, the error name it carries when it is an error, and its arguments. -/
structure DBusMessage where
  type : Nat
  errorName : String
  args : List DBusValue

/-- The libdbus function `dbus_set_error_from_message`: true exactly for a
message of type error. -/
def dbus_set_error_from_message (message : DBusMessage) : Bool :=
  message.type == DBUS_MESSAGE_TYPE_ERROR

/-- The libdbus function `dbus_message_get_args` for a list of requested type
codes: the leading arguments of the message, one per code, when each has the
requested type; arguments after them are not looked at. -/
def dbus_message_get_args : List DBusValue → List Nat → Option (List DBusValue)
  | _, [] => some []
  | [], _ :: _ => none
  | v :: vs, t :: ts =>
    if v.argType ≠ t then none
    else (dbus_message_get_args vs ts).map fun rest => v :: rest

/-- The function `pipe_io_new`: the reader object wrapping a descriptor, with
`pipe_read` and `pipe_hup` installed; `io_new` gives null for a negative
descriptor. -/
def pipe_io_new (fd : Int) : Option Int :=
  if fd < 0 then none else some fd

/-- The function `acquire_notify_reply`, the reply handler of the
`AcquireNotify` call. -/
def acquire_notify_reply (w : World) (message : DBusMessage) : World :=
  if dbus_set_error_from_message message = true then w
  else
    let w1 : World := { w with notify_io := { w.notify_io with fd := none, mtu := 0 } }
    match dbus_message_get_args message.args [DBUS_TYPE_UNIX_FD, DBUS_TYPE_UINT16] with
    | some [.unixFd fd, .uint16 mtu] =>
      { w1 with notify_io := { w1.notify_io with mtu := mtu % 2 ^ 16, fd := pipe_io_new fd } }
    | _ => w1

/-- A successful reply to `AcquireNotify`: descriptor 7, MTU 23. -/
def sampleAcquireReturn : DBusMessage :=
  { type := DBUS_MESSAGE_TYPE_METHOD_RETURN, errorName := "",
    args := [.unixFd 7, .uint16 23] }

/-- An error reply to `AcquireNotify`. -/
def sampleAcquireError : DBusMessage :=
  { type := DBUS_MESSAGE_TYPE_ERROR, errorName := "org.bluez.Error.NotPermitted",
    args := [.string "Notify acquired"] }

/-- A method return whose arguments are not a descriptor and an MTU. -/
def sampleAcquireMalformed : DBusMessage :=
  { type := DBUS_MESSAGE_TYPE_METHOD_RETURN, errorName := "",
    args := [.unixFd 7, .string "23"] }

/-! ## The events of property changes -/

/-- The event `propertyChanged` hands to `bleState`, read off the conditions
of its branches; `yes` is `TRUE == value`, so `!yes` holds for 0 and for -1. -/
def propertyChangedEvent (interface name : String) (value : Int) : Option Event :=
  if interface = "org.bluez.Device1" then
    if name = "ServicesResolved" ∧ value = 1 then some .DEVICE_READY
    else if name = "RSSI" then some .DEVICE_DETECTED
    else if name = "Connected" ∧ value ≠ 1 then some .DEVICE_DISCONNECTED
    else none
  else if interface = "org.bluez.Adapter1" then
    if name = "Powered" ∧ value = 1 then some .POWER_ON
    else if name = "Discovering" ∧ value ≠ 1 then some .SCAN_STOPPED
    else none
  else if interface = "org.bluez.GattCharacteristic1" then
    if name = "NotifyAcquired" ∧ value = 1 then some .NOTIFY_ACQUIRED
    else none
  else none

/-- The table of the specification for boolean property changes, row by row
as the claim words it: `ServicesResolved` = 1 on the peripheral gives
`DEVICE_READY`, `RSSI` on the peripheral gives `DEVICE_DETECTED` for any
value, `Connected` = 0 gives `DEVICE_DISCONNECTED`, `Powered` = 1 on the
controller gives `POWER_ON`, `Discovering` = 0 gives `SCAN_STOPPED`,
`NotifyAcquired` = 1 on the characteristic gives `NOTIFY_ACQUIRED`, and
nothing else raises an event. -/
def specEventTable (interface name : String) (value : Int) : Option Event :=
  if interface = "org.bluez.Device1" ∧ name = "ServicesResolved" ∧ value = 1 then
    some .DEVICE_READY
  else if interface = "org.bluez.Device1" ∧ name = "RSSI" then
    some .DEVICE_DETECTED
  else if interface = "org.bluez.Device1" ∧ name = "Connected" ∧ value = 0 then
    some .DEVICE_DISCONNECTED
  else if interface = "org.bluez.Adapter1" ∧ name = "Powered" ∧ value = 1 then
    some .POWER_ON
  else if interface = "org.bluez.Adapter1" ∧ name = "Discovering" ∧ value = 0 then
    some .SCAN_STOPPED
  else if interface = "org.bluez.GattCharacteristic1" ∧ name = "NotifyAcquired" ∧ value = 1 then
    some .NOTIFY_ACQUIRED
  else none

/-! ## UUID screening as the specification words it -/

/-- Is this value the wanted string. -/
def isWantedString (uuidWanted : String) : DBusValue → Bool
  | .string s => decide (s = uuidWanted)
  | _ => false

/-- Following the claim's words: the entry's value is a variant that is
either the wanted string itself or an array of strings containing the wanted
string (the elements of a D-Bus array all have one type). -/
def specUuidValueMatches (uuidWanted : String) : DBusValue → Bool
  | .variant (.string s) => decide (s = uuidWanted)
  | .variant (.array _ xs) => xs.any (isWantedString uuidWanted)
  | _ => false

/-- Following the claim's words: the first entry whose key is `UUID` or
`UUIDs`, with only string-keyed entries before it, decides. -/
def specScreenEntries (uuidWanted : String) : List DBusValue → Bool
  | .dictEntry (.string name) v :: rest =>
    if name = "UUID" ∨ name = "UUIDs" then specUuidValueMatches uuidWanted v
    else specScreenEntries uuidWanted rest
  | _ => false

/-- Following the claim's words: what `bluez_screen_uuid` is to return for a
property dictionary. -/
def specScreenUuid (iter : DBusMessageIter) (uuidWanted : String) : Bool :=
  match iter with
  | .array _ entries :: _ => specScreenEntries uuidWanted entries
  | _ => false

/-- A property dictionary with the single entry `UUIDs`, an array of the
given strings. -/
def uuidsDictionary (uuids : List String) : DBusMessageIter :=
  [.array "{sv}" [.dictEntry (.string "UUIDs") (.variant (.array "s" (uuids.map .string)))]]

/-! ## What a bulk load leaves in the cache -/

/-- The key of a dictionary entry when it is a string. -/
def entryKey : DBusValue → Option String
  | .dictEntry (.string k) _ => some k
  | _ => none

/-- The property names a dictionary holds: the string keys of its entries. -/
def dictionaryKeys : DBusMessageIter → List String
  | .array _ entries :: _ => entries.filterMap entryKey
  | _ => []

/-- Two slot arrays that agree slot by slot outside a set of names: every
slot keeps its name, and a slot whose name is not in the set is the same slot
(name, type code and cached value). -/
def keptOutside (names : List String) (old new : List prop_entry) : Prop :=
  List.Forall₂ (fun e e1 => e1.name = e.name ∧ (e.name ∉ names → e1 = e)) old new

/-- A peripheral whose cache was filled under an earlier binding: `RSSI`,
`Connected` true and `ServicesResolved` true. -/
def sampleDeviceResolved : GDBusProxy :=
  { sampleDevice true with
    property :=
      [{ name := "RSSI", type := DBUS_TYPE_INT16, msg := some (.int16 (-60)) },
       { name := "Connected", type := DBUS_TYPE_BOOLEAN, msg := some (.boolean true) },
       { name := "ServicesResolved", type := DBUS_TYPE_BOOLEAN, msg := some (.boolean true) },
       declared ""] }

/-- The property dictionary of a peripheral object that reappears: its
service UUID and `Connected` false, with no `ServicesResolved` entry. -/
def sampleReappeared : DBusMessageIter :=
  [.array "{sv}"
    [.dictEntry (.string "UUIDs") (.variant (.array "s" [.string UUID_DEVICE])),
     .dictEntry (.string "Connected") (.variant (.boolean false))]]

/-- A session that is scanning again after a disconnect, the peripheral proxy
still holding what was cached under its earlier binding. -/
def sampleWorldResolved : World :=
  { sampleWorld .STATE_SCAN true true with device := sampleDeviceResolved }

/-! ## Reading messages off the trace -/

/-- A string or boolean argument in letters, the content of a variant
included; the empty string for any other value. -/
def DBusValue.text : DBusValue → String
  | .string s => s
  | .boolean true => "true"
  | .boolean false => "false"
  | .variant (.string s) => s
  | .variant (.boolean true) => "true"
  | .variant (.boolean false) => "false"
  | _ => ""

/-- A message with its arguments reduced to type codes and letters. -/
structure MsgSummary where
  destination : String
  path : String
  interface : String
  member : String
  types : List Nat
  texts : List String
  reply : Option ReplyFn
  deriving DecidableEq, Repr

/-- The fields of a message: destination, object path, interface, member,
the type codes of the arguments, the arguments in letters and the reply
handler. -/
def BusMsg.summary (m : BusMsg) : MsgSummary :=
  { destination := m.destination, path := m.path, interface := m.interface,
    member := m.member, types := m.args.map DBusValue.argType,
    texts := m.args.map DBusValue.text, reply := m.reply }

/-! ## The passes of one call -/

/-- The state the switch of `bleState` dispatches on in each pass of one
call, in order, for at most `fuel` passes: the value of `currentState` after
the reset a `DEVICE_DISCONNECTED` event causes at the top of the loop. -/
def bleStateEntered : Nat → Bus → World → Event → List State
  | 0, _, _, _ => []
  | fuel + 1, bus, w, event =>
    let s : State :=
      if event = .DEVICE_DISCONNECTED then .STATE_CONTROLLER_ON else w.currentState
    match bleStateIter bus w event with
    | .ret _ => [s]
    | .again w1 => s :: bleStateEntered fuel bus w1 event

/-! ## The main loop and the notification pipe (`main` in `ble.c`) -/

/-- Whether the main loop is dispatching: `main` creates `mainLoop` before
anything else and `g_main_loop_run` returns once `g_main_loop_quit` has been
called on it, after which `main` shuts the notification pipe down. -/
def mainLoopRunning (w : World) : Bool :=
  w.mainLoop && w.quitCalls == 0

/-- The states in which the running main loop calls the handler
`notification`, one per value the notification pipe carries, in order: a
value is dispatched only while the loop is running. -/
def handledNotifications (bus : Bus) : World → List Int → List World
  | _, [] => []
  | w, v :: vs =>
    if mainLoopRunning w = false then []
    else
      w :: match notification bus w v with
           | none => []
           | some w1 => handledNotifications bus w1 vs

/-- The function `g_main_loop_run` of GLib as far as the notification pipe
goes: the values the pipe carries are handed to `notification` one by one
while the loop is running; `none` when a call of the handler has no defined
result. -/
def g_main_loop_run (bus : Bus) : World → List Int → Option World
  | w, [] => some w
  | w, v :: vs =>
    if mainLoopRunning w = false then some w
    else (notification bus w v).bind fun w1 => g_main_loop_run bus w1 vs

/-- A property dictionary with the single entry `UUID`, one string, as the
objects of a characteristic carry it. -/
def uuidDictionary (uuid : String) : DBusMessageIter :=
  [.array "{sv}" [.dictEntry (.string "UUID") (.variant (.string uuid))]]

end BleClient

namespace BleClient

/-! ## Basic facts about the embedding -/

theorem read_property_setState (w : World) (s : State) (p : Option Role) (n : Option String)
    (y : Option Bool) :
    bluez_read_property_boolean { w with currentState := s } p n y =
      bluez_read_property_boolean w p n y := by
  cases p with
  | none => rfl
  | some r => cases r <;> rfl

theorem bleStateIter_disconnected (bus : Bus) (w : World) :
    bleStateIter bus w .DEVICE_DISCONNECTED =
      if (bluez_read_property_boolean w (some .device) (some "Connected") (some false)).2
          ≠ some true
      then .ret (bluez_scan bus { w with currentState := .STATE_SCAN } true)
      else .again { w with currentState := .STATE_CONNECTED } := by
  simp only [bleStateIter, if_true, read_property_setState]

theorem bleState_fuel_mono (bus : Bus) (event : Event) :
    ∀ (fuel : Nat) (w w1 : World), bleState fuel bus w event = some w1 →
      ∀ k, bleState (fuel + k) bus w event = some w1 := by
  intro fuel
  induction fuel with
  | zero => intro w w1 h; simp [bleState] at h
  | succ n ih =>
    intro w w1 h k
    have e : n + 1 + k = (n + k) + 1 := by omega
    rw [e]
    simp only [bleState] at h ⊢
    cases hstep : bleStateIter bus w event with
    | ret w2 => rw [hstep] at h; exact h
    | again w2 => rw [hstep] at h; exact ih w2 w1 h k

/-! ## Requests leave the state variable alone -/

theorem proxy_call_state (bus : Bus) (w : World) (p : Option Role) (m : Option String)
    (a : List DBusValue) (f : Option ReplyFn) :
    (g_dbus_proxy_method_call bus w p m a f).2.currentState = w.currentState := by
  unfold g_dbus_proxy_method_call transmit
  cases p <;> cases m <;> simp
  split <;> rfl

theorem power_on_state (bus : Bus) (w : World) :
    (bluez_power_on bus w).currentState = w.currentState := by
  simp [bluez_power_on, bluez_set_property, transmit]
  split <;> rfl

theorem discovery_filter_state (bus : Bus) (w : World) :
    (bluez_discovery_filter bus w).currentState = w.currentState := by
  have hc := proxy_call_state bus w (some .adapter) (some "SetDiscoveryFilter")
    bluez_discovery_filter_setup (some .bluez_discovery_filter_reply)
  unfold bluez_discovery_filter
  by_cases hf : w.filterSet = true
  · rw [if_pos hf]
  · rw [if_neg hf]
    by_cases hr : (g_dbus_proxy_method_call bus w (some .adapter) (some "SetDiscoveryFilter")
        bluez_discovery_filter_setup (some .bluez_discovery_filter_reply)).1 = false
    · simp [hr, hc]
    · simp [hr, hc]

theorem scan_state (bus : Bus) (w : World) (b : Bool) :
    (bluez_scan bus w b).currentState = w.currentState := by
  unfold bluez_scan
  cases b <;> simp [proxy_call_state, discovery_filter_state]

theorem connect_state (bus : Bus) (w : World) :
    (bluez_connect bus w).2.currentState = w.currentState := by
  simp [bluez_connect, proxy_call_state]

theorem acquire_notify_state (bus : Bus) (w : World) (cb : Option NotificationCallback) :
    (bluez_acquire_notify bus w cb).currentState = w.currentState := by
  have hc := proxy_call_state bus w (some .characteristicRd) (some "AcquireNotify")
    acquire_setup (some .acquire_notify_reply)
  unfold bluez_acquire_notify
  by_cases hi : w.characteristicRd.interface ≠ "org.bluez.GattCharacteristic1"
  · rw [if_pos hi]
  · rw [if_neg hi]
    by_cases hr : (g_dbus_proxy_method_call bus w (some .characteristicRd)
        (some "AcquireNotify") acquire_setup (some .acquire_notify_reply)).1 = false
    · simp [hr, hc]
    · simp [hr, hc]

/-! ## One pass of the loop -/

/-- The loop body for an event other than `DEVICE_DISCONNECTED`, by state. -/
theorem bleStateIter_other (bus : Bus) (w : World) (event : Event)
    (hd : event ≠ .DEVICE_DISCONNECTED) :
    bleStateIter bus w event =
      match w.currentState with
      | .STATE_INIT =>
        if event ≠ .CLIENT_READY then .ret w
        else .again { w with currentState := .STATE_CONTROLLER_OFF }
      | .STATE_CONTROLLER_OFF =>
        if (bluez_read_property_boolean w (some .adapter) (some "Powered") (some false)).1 ≠ 0
        then .ret w
        else if (bluez_read_property_boolean w (some .adapter) (some "Powered")
            (some false)).2 ≠ some true
        then .ret (bluez_power_on bus w)
        else .again { w with currentState := .STATE_CONTROLLER_ON }
      | .STATE_CONTROLLER_ON =>
        if (bluez_read_property_boolean w (some .device) (some "Connected")
            (some false)).2 ≠ some true
        then .ret (bluez_scan bus { w with currentState := .STATE_SCAN } true)
        else .again { w with currentState := .STATE_CONNECTED }
      | .STATE_SCAN =>
        if event ≠ .DEVICE_DETECTED then .ret w
        else .ret { bluez_scan bus w false with currentState := .STATE_SCAN_STOPPED }
      | .STATE_SCAN_STOPPED =>
        if event ≠ .SCAN_STOPPED then .ret w
        else if (bluez_connect bus w).1 = true
        then .ret { (bluez_connect bus w).2 with currentState := .STATE_CONNECTING }
        else .ret (bluez_connect bus w).2
      | .STATE_CONNECTING =>
        if event ≠ .DEVICE_READY then .ret w
        else .again { w with currentState := .STATE_CONNECTED }
      | .STATE_CONNECTED =>
        .ret { bluez_acquire_notify bus w (some .notification) with
                 currentState := .STATE_ACQUIRE_NOTIFY }
      | .STATE_ACQUIRE_NOTIFY =>
        if event = .NOTIFY_ACQUIRED then .ret { w with currentState := .STATE_ROCK_N_ROLL }
        else .ret w
      | .STATE_ROCK_N_ROLL => .ret w := by
  simp only [bleStateIter, hd, if_false]

/-- A pass that breaks out of the switch leaves the machine in one of the
three states that act without waiting for an event. -/
theorem iter_again_state (bus : Bus) (w w1 : World) (event : Event)
    (h : bleStateIter bus w event = .again w1) :
    w1.currentState = .STATE_CONTROLLER_OFF ∨ w1.currentState = .STATE_CONTROLLER_ON ∨
      w1.currentState = .STATE_CONNECTED := by
  by_cases hd : event = .DEVICE_DISCONNECTED
  · subst hd
    rw [bleStateIter_disconnected] at h
    split at h
    · cases h
    · injection h with h
      subst h
      simp
  · rw [bleStateIter_other bus w event hd] at h
    cases hs : w.currentState <;> rw [hs] at h <;> simp only at h <;>
      (try split at h) <;> (try split at h) <;>
      (cases h <;> simp)

/-- A pass that returns in `STATE_ROCK_N_ROLL` either started there or
started in `STATE_ACQUIRE_NOTIFY` with the event `NOTIFY_ACQUIRED`. -/
theorem iter_ret_active (bus : Bus) (w w1 : World) (event : Event)
    (h : bleStateIter bus w event = .ret w1)
    (hactive : w1.currentState = .STATE_ROCK_N_ROLL) :
    w.currentState = .STATE_ROCK_N_ROLL ∨
      (w.currentState = .STATE_ACQUIRE_NOTIFY ∧ event = .NOTIFY_ACQUIRED) := by
  by_cases hd : event = .DEVICE_DISCONNECTED
  · subst hd
    rw [bleStateIter_disconnected] at h
    split at h
    · injection h with h
      subst h
      simp [scan_state] at hactive
    · cases h
  · rw [bleStateIter_other bus w event hd] at h
    cases hs : w.currentState <;> rw [hs] at h <;> simp only at h <;>
      (try split at h) <;> (try split at h) <;>
      (cases h <;>
        simp_all [power_on_state, scan_state, connect_state, acquire_notify_state])

/-! ## Whole calls of `bleState` -/

/-- A call that returns in `STATE_ROCK_N_ROLL` started there or started in
`STATE_ACQUIRE_NOTIFY` with `NOTIFY_ACQUIRED`. -/
theorem call_ret_active (bus : Bus) (event : Event) :
    ∀ (fuel : Nat) (w w1 : World), bleState fuel bus w event = some w1 →
      w1.currentState = .STATE_ROCK_N_ROLL →
      w.currentState = .STATE_ROCK_N_ROLL ∨
        (w.currentState = .STATE_ACQUIRE_NOTIFY ∧ event = .NOTIFY_ACQUIRED) := by
  intro fuel
  induction fuel with
  | zero => intro w w1 h; simp [bleState] at h
  | succ n ih =>
    intro w w1 h hact
    simp only [bleState] at h
    cases hstep : bleStateIter bus w event with
    | ret w2 =>
      rw [hstep] at h
      cases h
      exact iter_ret_active bus w _ event hstep hact
    | again w2 =>
      rw [hstep] at h
      have hmid := iter_again_state bus w w2 event hstep
      have hrec := ih w2 w1 h hact
      rcases hmid with hm | hm | hm <;> rcases hrec with hr | ⟨hr, _⟩ <;>
        rw [hm] at hr <;> cases hr

/-- With the peripheral's `Connected` cached as boolean true, the loop of
`bleState` never returns on `DEVICE_DISCONNECTED`: every pass resets the
state to `STATE_CONTROLLER_ON`, moves to `STATE_CONNECTED` and goes round
again. -/
theorem disconnected_while_connected_loops (bus : Bus) :
    ∀ (fuel : Nat) (w : World),
      (bluez_read_property_boolean w (some .device) (some "Connected") (some false)).2
        = some true →
      bleState fuel bus w .DEVICE_DISCONNECTED = none := by
  intro fuel
  induction fuel with
  | zero => intro w _; rfl
  | succ n ih =>
    intro w h
    simp only [bleState, bleStateIter_disconnected, h, ne_eq, not_true_eq_false, if_false]
    exact ih _ (by rw [read_property_setState]; exact h)

/-- With the peripheral's `Connected` not cached as boolean true, a call on
`DEVICE_DISCONNECTED` returns after one pass, having started a scan. -/
theorem disconnected_scans (bus : Bus) (w : World) (fuel : Nat)
    (h : (bluez_read_property_boolean w (some .device) (some "Connected") (some false)).2
        ≠ some true) :
    bleState (fuel + 1) bus w .DEVICE_DISCONNECTED =
      some (bluez_scan bus { w with currentState := .STATE_SCAN } true) := by
  simp only [bleState, bleStateIter_disconnected, if_pos h]

/-- In a trace of deliveries that ends in `STATE_ROCK_N_ROLL` without having
started there, some call started in `STATE_ACQUIRE_NOTIFY` with the event
`NOTIFY_ACQUIRED`. -/
theorem run_active_seen (fuel : Nat) :
    ∀ (steps : List (Bus × World × Event)) (s last : State) (seen : List (State × Event)),
      runEvents fuel s steps = some (seen, last) → s ≠ .STATE_ROCK_N_ROLL →
      last = .STATE_ROCK_N_ROLL →
      (State.STATE_ACQUIRE_NOTIFY, Event.NOTIFY_ACQUIRED) ∈ seen := by
  intro steps
  induction steps with
  | nil =>
    intro s last seen h hs hl
    simp only [runEvents, Option.some.injEq, Prod.mk.injEq] at h
    rw [← h.2] at hl
    exact absurd hl hs
  | cons step rest ih =>
    intro s last seen h hs hl
    obtain ⟨bus, w, event⟩ := step
    simp only [runEvents] at h
    cases hcall : bleState fuel bus { w with currentState := s } event with
    | none => rw [hcall] at h; cases h
    | some w1 =>
      rw [hcall] at h
      simp only at h
      cases hrest : runEvents fuel w1.currentState rest with
      | none => rw [hrest] at h; cases h
      | some r =>
        obtain ⟨seen1, last1⟩ := r
        rw [hrest] at h
        simp only [Option.some.injEq, Prod.mk.injEq] at h
        obtain ⟨hseen, hlast⟩ := h
        subst hseen
        subst hlast
        by_cases hw1 : w1.currentState = .STATE_ROCK_N_ROLL
        · rcases call_ret_active bus event fuel _ w1 hcall hw1 with h0 | ⟨h0, h1⟩
          · exact absurd h0 hs
          · simp only at h0
            subst h0
            subst h1
            exact List.mem_cons_self _ _
        · exact List.mem_cons_of_mem _ (ih w1.currentState last1 seen1 hrest hw1 hl)

/-! ## What each request function hands to the bus -/

theorem power_on_requests (bus : Bus) (w : World) :
    (bluez_power_on bus w).requests =
      w.requests ++ [setPropertyMsg w.adapter "Powered" (.boolean true)] := by
  simp [bluez_power_on, bluez_set_property, transmit, World.requests, World.proxy,
    dbus_type_is_basic, DBUS_TYPE_BOOLEAN, DBUS_TYPE_BYTE]

theorem proxy_call_bound (bus : Bus) (w : World) (r : Role) (m : String)
    (a : List DBusValue) (f : Option ReplyFn) (hb : (w.proxy r).client = true) :
    g_dbus_proxy_method_call bus w (some r) (some m) a f =
      transmit bus w (methodCallMsg (w.proxy r) m a f) := by
  simp [g_dbus_proxy_method_call, hb]

theorem proxy_call_unbound (bus : Bus) (w : World) (r : Role) (m : String)
    (a : List DBusValue) (f : Option ReplyFn) (hb : (w.proxy r).client = false) :
    g_dbus_proxy_method_call bus w (some r) (some m) a f = (false, w) := by
  simp [g_dbus_proxy_method_call, hb]

theorem scan_off_requests (bus : Bus) (w : World) (hb : w.adapter.client = true) :
    (bluez_scan bus w false).requests =
      w.requests ++ [methodCallMsg w.adapter "StopDiscovery" [] none] := by
  simp [bluez_scan, g_dbus_proxy_method_call, hb, transmit, World.requests, World.proxy]

theorem scan_on_requests (bus : Bus) (w : World) (hb : w.adapter.client = true) :
    (bluez_scan bus w true).requests =
      w.requests ++
        (if w.filterSet = true then []
         else [methodCallMsg w.adapter "SetDiscoveryFilter" bluez_discovery_filter_setup
                 (some .bluez_discovery_filter_reply)]) ++
        [methodCallMsg w.adapter "StartDiscovery" [] none] := by
  by_cases hf : w.filterSet = true
  · simp [bluez_scan, bluez_discovery_filter, hf, g_dbus_proxy_method_call, hb, transmit,
      World.requests, World.proxy]
  · by_cases hbus : bus w.calls.length (methodCallMsg w.adapter "SetDiscoveryFilter"
        bluez_discovery_filter_setup (some .bluez_discovery_filter_reply)) = true
    · simp [bluez_scan, bluez_discovery_filter, hf, transmit,
        World.requests, World.proxy, g_dbus_proxy_method_call, hb, hbus]
    · simp [bluez_scan, bluez_discovery_filter, hf, transmit,
        World.requests, World.proxy, g_dbus_proxy_method_call, hb, hbus]

/-- Through a controller proxy that has no client, `bluez_scan` hands nothing
to the bus. -/
theorem scan_unbound_requests (bus : Bus) (w : World) (b : Bool)
    (hb : w.adapter.client = false) :
    (bluez_scan bus w b).requests = w.requests := by
  cases b <;> by_cases hf : w.filterSet = true <;>
    simp [bluez_scan, bluez_discovery_filter, hf, g_dbus_proxy_method_call, hb,
      World.requests, World.proxy]

/-- Through a write-characteristic proxy that has no client,
`bluez_write_attribute` hands nothing to the bus. -/
theorem write_unbound_requests (bus : Bus) (w : World) (value : Nat)
    (hb : w.characteristicWr.client = false) :
    (bluez_write_attribute bus w value).requests = w.requests := by
  simp [bluez_write_attribute, g_dbus_proxy_method_call, hb, World.requests, World.proxy]

theorem read_property_congr (w w1 : World) (h : ∀ r, w1.proxy r = w.proxy r)
    (p : Option Role) (n : Option String) (y : Option Bool) :
    bluez_read_property_boolean w1 p n y = bluez_read_property_boolean w p n y := by
  cases p with
  | none => rfl
  | some r =>
    cases n with
    | none => rfl
    | some name => simp only [bluez_read_property_boolean, bluez_proxy_get_property, h r]

theorem proxy_call_proxy (bus : Bus) (w : World) (p : Option Role) (m : Option String)
    (a : List DBusValue) (f : Option ReplyFn) (r : Role) :
    (g_dbus_proxy_method_call bus w p m a f).2.proxy r = w.proxy r := by
  unfold g_dbus_proxy_method_call transmit
  cases p <;> cases m <;> simp
  split <;> cases r <;> rfl

theorem scan_proxy (bus : Bus) (w : World) (b : Bool) (r : Role) :
    (bluez_scan bus w b).proxy r = w.proxy r := by
  have hfilter : (bluez_discovery_filter bus w).proxy r = w.proxy r := by
    have hc := proxy_call_proxy bus w (some .adapter) (some "SetDiscoveryFilter")
      bluez_discovery_filter_setup (some .bluez_discovery_filter_reply) r
    unfold bluez_discovery_filter
    by_cases hf : w.filterSet = true
    · rw [if_pos hf]
    · rw [if_neg hf]
      by_cases hr : (g_dbus_proxy_method_call bus w (some .adapter)
          (some "SetDiscoveryFilter") bluez_discovery_filter_setup
          (some .bluez_discovery_filter_reply)).1 = false
      · simp [hr, hc]
      · simp only [hr, if_false]
        rw [← hc]
        cases r <;> rfl
  unfold bluez_scan
  cases b
  · simp [proxy_call_proxy]
  · simp [proxy_call_proxy, hfilter]

/-- Outside the looping case, a second `DEVICE_DISCONNECTED` right after the
first returns in the same state as the first, `STATE_SCAN`. -/
theorem disconnected_twice (bus : Bus) (w : World) (fuel : Nat)
    (h : (bluez_read_property_boolean w (some .device) (some "Connected") (some false)).2
        ≠ some true) :
    ∃ w1 w2, bleState (fuel + 1) bus w .DEVICE_DISCONNECTED = some w1 ∧
      bleState (fuel + 1) bus w1 .DEVICE_DISCONNECTED = some w2 ∧
      w1.currentState = .STATE_SCAN ∧ w2.currentState = w1.currentState := by
  have h1 : (bluez_read_property_boolean
      (bluez_scan bus { w with currentState := .STATE_SCAN } true) (some .device)
      (some "Connected") (some false)).2 ≠ some true := by
    rw [read_property_congr w _ (fun r => by rw [scan_proxy]; cases r <;> rfl)]
    exact h
  exact ⟨_, _, disconnected_scans bus w fuel h, disconnected_scans bus _ fuel h1,
    by simp [scan_state], by simp [scan_state]⟩

/-! ## The proxy-table invariant -/

theorem findProperty_mem (name : String) :
    ∀ (ps : List prop_entry) (p : prop_entry), findProperty ps name = some p → p ∈ ps := by
  intro ps
  induction ps with
  | nil => intro p h; simp [findProperty] at h
  | cons q qs ih =>
    intro p h
    simp only [findProperty] at h
    split at h
    · cases h
    · split at h
      · cases h; exact List.mem_cons_self _ _
      · exact List.mem_cons_of_mem _ (ih p h)

/-- Under the invariant, a proxy whose cache yields a value has a client. -/
theorem bound_of_cached (w : World) (r : Role) (name : String) (v : DBusValue)
    (hinv : w.cachedOnlyIfBound = true)
    (hget : bluez_proxy_get_property w (some r) (some name) = some v) :
    (w.proxy r).client = true := by
  by_contra hb
  have hempty : (w.proxy r).cacheEmpty = true := by
    simp only [World.cachedOnlyIfBound, List.all_cons, List.all_nil, Bool.and_true,
      Bool.and_eq_true, Bool.or_eq_true] at hinv
    obtain ⟨h1, h2, h3, h4⟩ := hinv
    cases r
    · exact h1.resolve_left hb
    · exact h2.resolve_left hb
    · exact h3.resolve_left hb
    · exact h4.resolve_left hb
  simp only [bluez_proxy_get_property] at hget
  cases hfind : findProperty ((w.proxy r).property.take MAX_PROPERTIES) name with
  | none => rw [hfind] at hget; cases hget
  | some e =>
    rw [hfind] at hget
    have hmem : e ∈ (w.proxy r).property :=
      List.mem_of_mem_take (findProperty_mem name _ e hfind)
    have hnone : e.msg.isNone = true := by
      simp only [GDBusProxy.cacheEmpty, List.all_eq_true] at hempty
      exact hempty e hmem
    simp only at hget
    rw [hget] at hnone
    cases hnone

/-- Under the invariant, a proxy from which a boolean was read successfully
has a client. -/
theorem bound_of_read (w : World) (r : Role) (name : String) (b : Bool)
    (hinv : w.cachedOnlyIfBound = true)
    (hread : bluez_read_property_boolean w (some r) (some name) (some false) = (0, some b)) :
    (w.proxy r).client = true := by
  cases hget : bluez_proxy_get_property w (some r) (some name) with
  | none => simp [bluez_read_property_boolean, hget] at hread
  | some v => exact bound_of_cached w r name v hinv hget

theorem init_cachedOnlyIfBound : World.init.cachedOnlyIfBound = true := by decide

theorem power_on_proxy (bus : Bus) (w : World) (r : Role) :
    (bluez_power_on bus w).proxy r = w.proxy r := by
  simp only [bluez_power_on, bluez_set_property, transmit]
  split <;> cases r <;> rfl

theorem acquire_notify_proxy (bus : Bus) (w : World) (cb : Option NotificationCallback)
    (r : Role) : (bluez_acquire_notify bus w cb).proxy r = w.proxy r := by
  have hc := proxy_call_proxy bus w (some .characteristicRd) (some "AcquireNotify")
    acquire_setup (some .acquire_notify_reply) r
  unfold bluez_acquire_notify
  by_cases hi : w.characteristicRd.interface ≠ "org.bluez.GattCharacteristic1"
  · rw [if_pos hi]
  · rw [if_neg hi]
    by_cases hr : (g_dbus_proxy_method_call bus w (some .characteristicRd)
        (some "AcquireNotify") acquire_setup (some .acquire_notify_reply)).1 = false
    · simp [hr, hc]
    · simp only [hr, if_false]
      rw [← hc]
      cases r <;> rfl

/-- One pass of the loop of `bleState` leaves the four proxies as they are. -/
theorem iter_proxy (bus : Bus) (w : World) (event : Event) (r : Role) :
    (∀ w1, bleStateIter bus w event = .ret w1 → w1.proxy r = w.proxy r) ∧
    (∀ w1, bleStateIter bus w event = .again w1 → w1.proxy r = w.proxy r) := by
  have hset : ∀ (x : World) (s : State), ({ x with currentState := s } : World).proxy r
      = x.proxy r := by
    intro x s; cases r <;> rfl
  by_cases hd : event = .DEVICE_DISCONNECTED
  · subst hd
    rw [bleStateIter_disconnected]
    constructor <;> intro w1 h <;> split at h <;> cases h
    · rw [scan_proxy, hset]
    · rw [hset]
  · rw [bleStateIter_other bus w event hd]
    constructor <;> intro w1 h <;>
      (cases hs : w.currentState <;> rw [hs] at h <;> simp only at h <;>
        (try split at h) <;> (try split at h) <;>
        (cases h <;>
          simp [hset, power_on_proxy, scan_proxy, acquire_notify_proxy, bluez_connect,
            proxy_call_proxy]))

/-- A call of `bleState` leaves the four proxies, and with them the property
caches, as they are. -/
theorem bleState_proxy (bus : Bus) (event : Event) (r : Role) :
    ∀ (fuel : Nat) (w w1 : World), bleState fuel bus w event = some w1 →
      w1.proxy r = w.proxy r := by
  intro fuel
  induction fuel with
  | zero => intro w w1 h; simp [bleState] at h
  | succ n ih =>
    intro w w1 h
    simp only [bleState] at h
    cases hstep : bleStateIter bus w event with
    | ret w2 =>
      rw [hstep] at h
      cases h
      exact (iter_proxy bus w event r).1 _ hstep
    | again w2 =>
      rw [hstep] at h
      rw [ih w2 w1 h]
      exact (iter_proxy bus w event r).2 _ hstep

/-- Worlds with the same proxies agree on the invariant. -/
theorem cachedOnlyIfBound_congr (w w1 : World) (h : ∀ r, w1.proxy r = w.proxy r) :
    w1.cachedOnlyIfBound = w.cachedOnlyIfBound := by
  have h1 : w1.adapter = w.adapter := h .adapter
  have h2 : w1.device = w.device := h .device
  have h3 : w1.characteristicRd = w.characteristicRd := h .characteristicRd
  have h4 : w1.characteristicWr = w.characteristicWr := h .characteristicWr
  simp only [World.cachedOnlyIfBound, h1, h2, h3, h4]

/-- The state machine preserves the proxy-table invariant. -/
theorem bleState_cachedOnlyIfBound (bus : Bus) (event : Event) (fuel : Nat) (w w1 : World)
    (h : bleState fuel bus w event = some w1) :
    w1.cachedOnlyIfBound = w.cachedOnlyIfBound :=
  cachedOnlyIfBound_congr w w1 fun r => bleState_proxy bus event r fuel w w1 h

theorem iter_disconnected_reset (bus : Bus) (w : World) :
    bleStateIter bus w .DEVICE_DISCONNECTED =
      bleStateIter bus { w with currentState := .STATE_CONTROLLER_ON } .DEVICE_DISCONNECTED :=
  rfl

/-! ## The claims -/

/-- C1 (as amended): for every starting state, `bleState` on
`DEVICE_DISCONNECTED` sets the state to `STATE_CONTROLLER_ON` before any
per-state logic, so the call behaves exactly as one started in
`STATE_CONTROLLER_ON`; and when the peripheral's cached `Connected` is not
boolean true the call returns with the machine in `STATE_SCAN` (scanning),
not in `STATE_CONTROLLER_ON`. -/
theorem C1_disconnect_resets_then_scans (bus : Bus) (w : World)
    (hc : (bluez_read_property_boolean w (some .device) (some "Connected") (some false)).2
        ≠ some true) :
    (∀ fuel, bleState fuel bus w .DEVICE_DISCONNECTED =
        bleState fuel bus { w with currentState := .STATE_CONTROLLER_ON }
          .DEVICE_DISCONNECTED) ∧
    (∀ fuel, ∃ w1, bleState (fuel + 1) bus w .DEVICE_DISCONNECTED = some w1 ∧
        w1.currentState = .STATE_SCAN) := by
  constructor
  · intro fuel
    cases fuel with
    | zero => rfl
    | succ n => simp only [bleState, ← iter_disconnected_reset]
  · intro fuel
    exact ⟨_, disconnected_scans bus w fuel hc, by simp [scan_state]⟩

/-- C1, witness: an active session whose peripheral's `Connected` is cached
false. -/
theorem C1_disconnect_resets_then_scans_witness :
    (bluez_read_property_boolean (sampleWorld .STATE_ROCK_N_ROLL true false) (some .device)
        (some "Connected") (some false)).2 ≠ some true ∧
    ((∀ fuel, bleState fuel Bus.reliable (sampleWorld .STATE_ROCK_N_ROLL true false)
          .DEVICE_DISCONNECTED =
        bleState fuel Bus.reliable
          { sampleWorld .STATE_ROCK_N_ROLL true false with
            currentState := .STATE_CONTROLLER_ON } .DEVICE_DISCONNECTED) ∧
    (∀ fuel, ∃ w1, bleState (fuel + 1) Bus.reliable (sampleWorld .STATE_ROCK_N_ROLL true false)
          .DEVICE_DISCONNECTED = some w1 ∧ w1.currentState = .STATE_SCAN)) :=
  ⟨by decide,
   C1_disconnect_resets_then_scans Bus.reliable (sampleWorld .STATE_ROCK_N_ROLL true false)
     (by decide)⟩

/-- C1, counterexample to the claim as stated: in an active session whose
peripheral's `Connected` is cached false, `bleState` on `DEVICE_DISCONNECTED`
returns with the machine in `STATE_SCAN`, which is not
`STATE_CONTROLLER_ON`. -/
theorem C1_counterexample :
    ∃ w1, bleState 1 Bus.reliable (sampleWorld .STATE_ROCK_N_ROLL true false)
        .DEVICE_DISCONNECTED = some w1 ∧
      w1.currentState = .STATE_SCAN ∧ w1.currentState ≠ .STATE_CONTROLLER_ON :=
  ⟨_, disconnected_scans Bus.reliable (sampleWorld .STATE_ROCK_N_ROLL true false) 0
        (by decide),
    by simp [scan_state], by simp [scan_state]⟩

/-- C2: for every starting state and every content of the property cache a
`DEVICE_DISCONNECTED` delivery can meet (the peripheral's `Connected` does not
read as true: the event is raised only by the change callback, after the new
value, which is not true, has been stored in the cache), delivering
`DEVICE_DISCONNECTED` twice in a row, on any two buses and with the cache as
the first delivery left it, ends in the state the first delivery ended in,
`STATE_SCAN`; both calls return after one pass and neither writes a proxy. -/
theorem C2_disconnect_idempotent (bus bus2 : Bus) (w : World) (fuel : Nat)
    (hread : (bluez_read_property_boolean w (some .device) (some "Connected")
        (some false)).2 ≠ some true) :
    ∃ w1 w2, bleState (fuel + 1) bus w .DEVICE_DISCONNECTED = some w1 ∧
      bleState (fuel + 1) bus2 w1 .DEVICE_DISCONNECTED = some w2 ∧
      w2.currentState = w1.currentState ∧
      w1.currentState = .STATE_SCAN ∧
      (∀ r, w1.proxy r = w.proxy r) ∧ (∀ r, w2.proxy r = w.proxy r) := by
  have hp1 : ∀ r, (bluez_scan bus { w with currentState := .STATE_SCAN } true).proxy r =
      w.proxy r := by
    intro r
    rw [scan_proxy]
    cases r <;> rfl
  have h1 : (bluez_read_property_boolean
      (bluez_scan bus { w with currentState := .STATE_SCAN } true) (some .device)
      (some "Connected") (some false)).2 ≠ some true := by
    rw [read_property_congr w _ hp1]
    exact hread
  refine ⟨_, _, disconnected_scans bus w fuel hread, disconnected_scans bus2 _ fuel h1,
    by simp [scan_state], by simp [scan_state], hp1, ?_⟩
  intro r
  rw [scan_proxy]
  show (bluez_scan bus { w with currentState := .STATE_SCAN } true).proxy r = w.proxy r
  exact hp1 r

/-- C2, witness: an active session whose peripheral has just been cached as
not connected. -/
theorem C2_disconnect_idempotent_witness :
    (bluez_read_property_boolean (sampleWorld .STATE_ROCK_N_ROLL true false) (some .device)
        (some "Connected") (some false)).2 ≠ some true ∧
    ∃ w1 w2, bleState (0 + 1) Bus.reliable (sampleWorld .STATE_ROCK_N_ROLL true false)
        .DEVICE_DISCONNECTED = some w1 ∧
      bleState (0 + 1) Bus.down w1 .DEVICE_DISCONNECTED = some w2 ∧
      w2.currentState = w1.currentState ∧
      w1.currentState = .STATE_SCAN ∧
      (∀ r, w1.proxy r = (sampleWorld .STATE_ROCK_N_ROLL true false).proxy r) ∧
      (∀ r, w2.proxy r = (sampleWorld .STATE_ROCK_N_ROLL true false).proxy r) :=
  ⟨by decide,
   C2_disconnect_idempotent Bus.reliable Bus.down (sampleWorld .STATE_ROCK_N_ROLL true false) 0
     (by decide)⟩

/-- C3: a call of `bleState` that starts in a state other than
`STATE_ROCK_N_ROLL` (ACTIVE) returns in `STATE_ROCK_N_ROLL` if and only if it
started in `STATE_ACQUIRE_NOTIFY` and the event was `NOTIFY_ACQUIRED`; hence
every sequence of deliveries that reaches `STATE_ROCK_N_ROLL` contains a call
that started in `STATE_ACQUIRE_NOTIFY` with `NOTIFY_ACQUIRED`, whatever the
proxies, caches and bus did in between. -/
theorem C3_active_only_after_notify_acquired (bus : Bus) (w : World) (event : Event)
    (hstart : w.currentState ≠ .STATE_ROCK_N_ROLL) :
    ((∃ fuel w1, bleState fuel bus w event = some w1 ∧
        w1.currentState = .STATE_ROCK_N_ROLL) ↔
      (w.currentState = .STATE_ACQUIRE_NOTIFY ∧ event = .NOTIFY_ACQUIRED)) ∧
    (∀ (fuel : Nat) (steps : List (Bus × World × Event)) (seen : List (State × Event))
        (last : State),
      runEvents fuel w.currentState steps = some (seen, last) →
      last = .STATE_ROCK_N_ROLL →
      (State.STATE_ACQUIRE_NOTIFY, Event.NOTIFY_ACQUIRED) ∈ seen) := by
  constructor
  · constructor
    · rintro ⟨fuel, w1, hrun, hact⟩
      rcases call_ret_active bus event fuel w w1 hrun hact with h | h
      · exact absurd h hstart
      · exact h
    · rintro ⟨hs, he⟩
      subst he
      refine ⟨1, { w with currentState := .STATE_ROCK_N_ROLL }, ?_, rfl⟩
      simp [bleState, bleStateIter, hs]
  · intro fuel steps seen last hrun hlast
    exact run_active_seen fuel steps w.currentState last seen hrun hstart hlast

/-- C3, witness: a session waiting in `STATE_ACQUIRE_NOTIFY`. -/
theorem C3_active_only_after_notify_acquired_witness :
    (sampleWorld .STATE_ACQUIRE_NOTIFY true true).currentState ≠ .STATE_ROCK_N_ROLL ∧
    (((∃ fuel w1, bleState fuel Bus.reliable (sampleWorld .STATE_ACQUIRE_NOTIFY true true)
          .NOTIFY_ACQUIRED = some w1 ∧ w1.currentState = .STATE_ROCK_N_ROLL) ↔
      ((sampleWorld .STATE_ACQUIRE_NOTIFY true true).currentState = .STATE_ACQUIRE_NOTIFY ∧
        Event.NOTIFY_ACQUIRED = .NOTIFY_ACQUIRED)) ∧
    (∀ (fuel : Nat) (steps : List (Bus × World × Event)) (seen : List (State × Event))
        (last : State),
      runEvents fuel (sampleWorld .STATE_ACQUIRE_NOTIFY true true).currentState steps =
        some (seen, last) →
      last = .STATE_ROCK_N_ROLL →
      (State.STATE_ACQUIRE_NOTIFY, Event.NOTIFY_ACQUIRED) ∈ seen)) :=
  ⟨by decide,
   C3_active_only_after_notify_acquired Bus.reliable
     (sampleWorld .STATE_ACQUIRE_NOTIFY true true) .NOTIFY_ACQUIRED (by decide)⟩

/-- An object path shorter than the array that holds it reads back as it
was stored. -/
theorem path_short (p : GDBusProxy) (h : p.obj_path.length < MAX_BLUEZ_PATH) :
    p.path = p.obj_path := by
  simp [GDBusProxy.path, h]

/-- C4 (Scenario A): from `STATE_INIT`, delivering `CLIENT_READY` while the
controller's cached `Powered` reads as boolean false hands exactly one message
to the bus and nothing else: the call of `Set` on the interface
`org.freedesktop.DBus.Properties` of the controller's object at the service
`org.bluez`, whose body is the controller's interface name, the property name
`Powered` and the boolean true in a variant, sent with the reply handler
`bluez_set_property_reply`; the object addressed is the controller's stored
path whenever that is shorter than the path array; and the call returns with
the state at `STATE_CONTROLLER_OFF`. -/
theorem C4_scenario_A_power_on (bus : Bus) (w : World) (fuel : Nat)
    (hs : w.currentState = .STATE_INIT)
    (hp : bluez_read_property_boolean w (some .adapter) (some "Powered") (some false)
        = (0, some false)) :
    ∃ w1, bleState (fuel + 2) bus w .CLIENT_READY = some w1 ∧
      w1.currentState = .STATE_CONTROLLER_OFF ∧
      w1.requests = w.requests ++
        [{ destination := "org.bluez",
           path := w.adapter.path,
           interface := "org.freedesktop.DBus.Properties",
           member := "Set",
           args := [.string w.adapter.interface, .string "Powered", .variant (.boolean true)],
           reply := some .bluez_set_property_reply }] ∧
      (w.adapter.obj_path.length < 64 → w.adapter.path = w.adapter.obj_path) ∧
      w1.calls.length = w.calls.length + 1 := by
  have hp' : bluez_read_property_boolean { w with currentState := .STATE_CONTROLLER_OFF }
      (some .adapter) (some "Powered") (some false) = (0, some false) := by
    rw [read_property_setState]; exact hp
  refine ⟨bluez_power_on bus { w with currentState := .STATE_CONTROLLER_OFF }, ?_, ?_, ?_,
    fun h => path_short _ h, ?_⟩
  · simp [bleState, bleStateIter_other, hs, hp']
  · simp [power_on_state]
  · rw [power_on_requests bus _]
    rfl
  · simp [bluez_power_on, bluez_set_property, transmit, World.proxy,
      dbus_type_is_basic, DBUS_TYPE_BOOLEAN, DBUS_TYPE_BYTE]

/-- C4, witness: a fresh session whose controller is bound with `Powered`
cached false. -/
theorem C4_scenario_A_power_on_witness :
    (sampleWorld .STATE_INIT false false).currentState = .STATE_INIT ∧
    bluez_read_property_boolean (sampleWorld .STATE_INIT false false) (some .adapter)
      (some "Powered") (some false) = (0, some false) ∧
    ∃ w1, bleState (0 + 2) Bus.reliable (sampleWorld .STATE_INIT false false) .CLIENT_READY
        = some w1 ∧
      w1.currentState = .STATE_CONTROLLER_OFF ∧
      w1.requests = (sampleWorld .STATE_INIT false false).requests ++
        [{ destination := "org.bluez",
           path := (sampleWorld .STATE_INIT false false).adapter.path,
           interface := "org.freedesktop.DBus.Properties",
           member := "Set",
           args := [.string (sampleWorld .STATE_INIT false false).adapter.interface,
                    .string "Powered", .variant (.boolean true)],
           reply := some .bluez_set_property_reply }] ∧
      ((sampleWorld .STATE_INIT false false).adapter.obj_path.length < 64 →
        (sampleWorld .STATE_INIT false false).adapter.path =
          (sampleWorld .STATE_INIT false false).adapter.obj_path) ∧
      w1.calls.length = (sampleWorld .STATE_INIT false false).calls.length + 1 :=
  ⟨by decide, by decide,
   C4_scenario_A_power_on Bus.reliable (sampleWorld .STATE_INIT false false) 0
     (by decide) (by decide)⟩

/-- Scenario A on the sample session, every field of the one message spelt
out: a `Set` call to `org.bluez` on `/org/bluez/hci0`, interface
`org.freedesktop.DBus.Properties`, with the arguments string, string,
variant, the first two being `org.bluez.Adapter1` and `Powered`. -/
theorem power_on_message_sample :
    (bleState 2 Bus.reliable (sampleWorld .STATE_INIT false false) .CLIENT_READY).map
      (fun w1 => w1.requests.map BusMsg.summary)
      = some [{ destination := "org.bluez", path := "/org/bluez/hci0",
                interface := "org.freedesktop.DBus.Properties", member := "Set",
                types := [DBUS_TYPE_STRING, DBUS_TYPE_STRING, DBUS_TYPE_VARIANT],
                texts := ["org.bluez.Adapter1", "Powered", "true"],
                reply := some .bluez_set_property_reply }] := by
  decide

/-- C5 (Scenario B): from `STATE_INIT`, delivering `CLIENT_READY` while the
controller's cached `Powered` reads as true and the peripheral's cached
`Connected` reads as false hands the bus exactly one `StartDiscovery` call on
the controller (preceded by the `SetDiscoveryFilter` call when the filter has
not been set yet), no property set (power-on), no `StopDiscovery`, no
`Connect` and no `AcquireNotify`, and the call returns in `STATE_SCAN`.
Stated for program states that satisfy the proxy-table invariant
`cachedOnlyIfBound`. -/
theorem C5_scenario_B_start_discovery (bus : Bus) (w : World) (fuel : Nat)
    (hs : w.currentState = .STATE_INIT)
    (hp : bluez_read_property_boolean w (some .adapter) (some "Powered") (some false)
        = (0, some true))
    (hc : bluez_read_property_boolean w (some .device) (some "Connected") (some false)
        = (0, some false))
    (hinv : w.cachedOnlyIfBound = true) :
    ∃ w1, bleState (fuel + 3) bus w .CLIENT_READY = some w1 ∧
      w1.currentState = .STATE_SCAN ∧
      w1.requests = w.requests ++
        (if w.filterSet = true then []
         else [methodCallMsg w.adapter "SetDiscoveryFilter" bluez_discovery_filter_setup
                 (some .bluez_discovery_filter_reply)]) ++
        [methodCallMsg w.adapter "StartDiscovery" [] none] ∧
      countMember "StartDiscovery" w1.requests = countMember "StartDiscovery" w.requests + 1 ∧
      countMember "Set" w1.requests = countMember "Set" w.requests ∧
      countMember "StopDiscovery" w1.requests = countMember "StopDiscovery" w.requests ∧
      countMember "Connect" w1.requests = countMember "Connect" w.requests ∧
      countMember "AcquireNotify" w1.requests = countMember "AcquireNotify" w.requests := by
  have hp1 : bluez_read_property_boolean { w with currentState := .STATE_CONTROLLER_OFF }
      (some .adapter) (some "Powered") (some false) = (0, some true) := by
    rw [read_property_setState]; exact hp
  have hc1 : bluez_read_property_boolean { w with currentState := .STATE_CONTROLLER_ON }
      (some .device) (some "Connected") (some false) = (0, some false) := by
    rw [read_property_setState]; exact hc
  have hb : w.adapter.client = true := bound_of_read w .adapter "Powered" true hinv hp
  have hreq := scan_on_requests bus { w with currentState := .STATE_SCAN } hb
  refine ⟨bluez_scan bus { w with currentState := .STATE_SCAN } true, ?_, ?_, hreq, ?_⟩
  · simp [bleState, bleStateIter_other, hs, hp1, hc1]
  · simp [scan_state]
  · rw [hreq]
    by_cases hf : w.filterSet = true <;>
      simp +decide [hf, countMember, World.requests, methodCallMsg, List.countP_append,
        List.countP_cons, List.countP_nil]

/-- C5, witness: a fresh session with the controller bound and powered and
the peripheral known but not connected. -/
theorem C5_scenario_B_start_discovery_witness :
    (sampleWorld .STATE_INIT true false).currentState = .STATE_INIT ∧
    bluez_read_property_boolean (sampleWorld .STATE_INIT true false) (some .adapter)
      (some "Powered") (some false) = (0, some true) ∧
    bluez_read_property_boolean (sampleWorld .STATE_INIT true false) (some .device)
      (some "Connected") (some false) = (0, some false) ∧
    (sampleWorld .STATE_INIT true false).cachedOnlyIfBound = true ∧
    ∃ w1, bleState (0 + 3) Bus.reliable (sampleWorld .STATE_INIT true false) .CLIENT_READY
        = some w1 ∧
      w1.currentState = .STATE_SCAN ∧
      w1.requests = (sampleWorld .STATE_INIT true false).requests ++
        (if (sampleWorld .STATE_INIT true false).filterSet = true then []
         else [methodCallMsg (sampleWorld .STATE_INIT true false).adapter "SetDiscoveryFilter"
                 bluez_discovery_filter_setup (some .bluez_discovery_filter_reply)]) ++
        [methodCallMsg (sampleWorld .STATE_INIT true false).adapter "StartDiscovery" [] none] ∧
      countMember "StartDiscovery" w1.requests =
        countMember "StartDiscovery" (sampleWorld .STATE_INIT true false).requests + 1 ∧
      countMember "Set" w1.requests =
        countMember "Set" (sampleWorld .STATE_INIT true false).requests ∧
      countMember "StopDiscovery" w1.requests =
        countMember "StopDiscovery" (sampleWorld .STATE_INIT true false).requests ∧
      countMember "Connect" w1.requests =
        countMember "Connect" (sampleWorld .STATE_INIT true false).requests ∧
      countMember "AcquireNotify" w1.requests =
        countMember "AcquireNotify" (sampleWorld .STATE_INIT true false).requests :=
  ⟨by decide, by decide, by decide, by decide,
   C5_scenario_B_start_discovery Bus.reliable (sampleWorld .STATE_INIT true false) 0
     (by decide) (by decide) (by decide) (by decide)⟩

/-- C6 (as amended; Scenario C, first step): in `STATE_SCAN` with the
controller proxy bound, a property-changed notification for the peripheral's
`RSSI`, whatever its tri-state value, hands the bus exactly one message, a
`StopDiscovery` call on the controller, and moves the state to
`STATE_SCAN_STOPPED`. -/
theorem C6_scenario_C_stop_discovery (bus : Bus) (w : World) (fuel : Nat) (value : Int)
    (hs : w.currentState = .STATE_SCAN)
    (hb : w.adapter.client = true) :
    ∃ w1, propertyChanged (fuel + 1) bus w "org.bluez.Device1" "RSSI" value = some w1 ∧
      w1.currentState = .STATE_SCAN_STOPPED ∧
      w1.requests = w.requests ++ [methodCallMsg w.adapter "StopDiscovery" [] none] := by
  refine ⟨{ bluez_scan bus w false with currentState := .STATE_SCAN_STOPPED }, ?_, rfl, ?_⟩
  · simp +decide [propertyChanged, bleState, bleStateIter_other, hs]
  · exact scan_off_requests bus w hb

/-- C6, witness: a scanning session and the tri-state value -1 that an `RSSI`
change carries. -/
theorem C6_scenario_C_stop_discovery_witness :
    (sampleWorld .STATE_SCAN true false).currentState = .STATE_SCAN ∧
    (sampleWorld .STATE_SCAN true false).adapter.client = true ∧
    ∃ w1, propertyChanged (0 + 1) Bus.reliable (sampleWorld .STATE_SCAN true false)
        "org.bluez.Device1" "RSSI" (-1) = some w1 ∧
      w1.currentState = .STATE_SCAN_STOPPED ∧
      w1.requests = (sampleWorld .STATE_SCAN true false).requests ++
        [methodCallMsg (sampleWorld .STATE_SCAN true false).adapter "StopDiscovery" [] none] :=
  ⟨by decide, by decide,
   C6_scenario_C_stop_discovery Bus.reliable (sampleWorld .STATE_SCAN true false) 0 (-1)
     (by decide) (by decide)⟩

/-- C6, counterexample to the claim as stated: in `STATE_SCAN` with the
peripheral bound but no controller object seen (controller proxy without
client), the `RSSI` notification moves the state to `STATE_SCAN_STOPPED` but
hands the bus nothing, on a bus that would take every message: no
stop-discovery request is issued. -/
theorem C6_counterexample :
    (propertyChanged 1 Bus.reliable (sampleWorldNoAdapter .STATE_SCAN) "org.bluez.Device1"
        "RSSI" (-1)).map
        (fun w => (w.currentState, w.calls.length, countMember "StopDiscovery" w.requests))
      = some (.STATE_SCAN_STOPPED, 0, 0) := by
  decide

/-- C7 (as amended): in `STATE_SCAN_STOPPED`, a property-changed notification
that the controller's `Discovering` is no longer true (event `SCAN_STOPPED`)
makes one `Connect` call on the peripheral proxy.  When that proxy is bound
exactly one `Connect` request is handed to the bus, and none when it is not.
The state moves to `STATE_CONNECTING` exactly when the call succeeds (proxy
bound and message taken by the bus); when the call fails the state stays
`STATE_SCAN_STOPPED`. -/
theorem C7_scenario_C_connect (bus : Bus) (w : World) (fuel : Nat) (value : Int)
    (hs : w.currentState = .STATE_SCAN_STOPPED)
    (hv : value ≠ 1) :
    ∃ w1, propertyChanged (fuel + 1) bus w "org.bluez.Adapter1" "Discovering" value
        = some w1 ∧
      w1.requests = w.requests ++
        (if w.device.client = true then [methodCallMsg w.device "Connect" [] none]
         else []) ∧
      w1.currentState =
        (if w.device.client = true ∧
            bus w.calls.length (methodCallMsg w.device "Connect" [] none) = true
         then .STATE_CONNECTING else .STATE_SCAN_STOPPED) := by
  by_cases hb : w.device.client = true
  · by_cases hbus : bus w.calls.length (methodCallMsg w.device "Connect" [] none) = true
    · refine ⟨{ (bluez_connect bus w).2 with currentState := .STATE_CONNECTING }, ?_, ?_, ?_⟩
      · simp +decide [propertyChanged, hv, bleState, bleStateIter_other, hs, bluez_connect,
          g_dbus_proxy_method_call, World.proxy, hb, transmit, hbus]
      · simp [bluez_connect, g_dbus_proxy_method_call, World.proxy, hb, transmit,
          World.requests]
      · simp [hb, hbus]
    · refine ⟨(bluez_connect bus w).2, ?_, ?_, ?_⟩
      · simp +decide [propertyChanged, hv, bleState, bleStateIter_other, hs, bluez_connect,
          g_dbus_proxy_method_call, World.proxy, hb, transmit, hbus]
      · simp [bluez_connect, g_dbus_proxy_method_call, World.proxy, hb, transmit,
          World.requests]
      · simp [hb, hbus, bluez_connect, g_dbus_proxy_method_call, World.proxy, transmit, hs]
  · refine ⟨w, ?_, ?_, ?_⟩
    · simp +decide [propertyChanged, hv, bleState, bleStateIter_other, hs, bluez_connect,
        g_dbus_proxy_method_call, World.proxy, hb]
    · simp [hb]
    · simp [hb, hs]

/-- C7, witness: a session in `STATE_SCAN_STOPPED` that is told `Discovering`
became false. -/
theorem C7_scenario_C_connect_witness :
    (sampleWorld .STATE_SCAN_STOPPED true false).currentState = .STATE_SCAN_STOPPED ∧
    (0 : Int) ≠ 1 ∧
    ∃ w1, propertyChanged (0 + 1) Bus.reliable (sampleWorld .STATE_SCAN_STOPPED true false)
        "org.bluez.Adapter1" "Discovering" 0 = some w1 ∧
      w1.requests = (sampleWorld .STATE_SCAN_STOPPED true false).requests ++
        (if (sampleWorld .STATE_SCAN_STOPPED true false).device.client = true
         then [methodCallMsg (sampleWorld .STATE_SCAN_STOPPED true false).device "Connect" []
                 none]
         else []) ∧
      w1.currentState =
        (if (sampleWorld .STATE_SCAN_STOPPED true false).device.client = true ∧
            Bus.reliable (sampleWorld .STATE_SCAN_STOPPED true false).calls.length
              (methodCallMsg (sampleWorld .STATE_SCAN_STOPPED true false).device "Connect" []
                none) = true
         then .STATE_CONNECTING else .STATE_SCAN_STOPPED) :=
  ⟨by decide, by decide,
   C7_scenario_C_connect Bus.reliable (sampleWorld .STATE_SCAN_STOPPED true false) 0 0
     (by decide) (by decide)⟩

/-- C7, counterexample to the claim as stated: in `STATE_SCAN_STOPPED` with
all proxies bound, when the bus connection does not take the `Connect`
message (`bluez_connect` returns FALSE), the notification that `Discovering`
became false leaves the state at `STATE_SCAN_STOPPED`, not
`STATE_CONNECTING`. -/
theorem C7_counterexample :
    (propertyChanged 1 Bus.down (sampleWorld .STATE_SCAN_STOPPED true false)
        "org.bluez.Adapter1" "Discovering" 0).map (fun w => w.currentState)
      = some .STATE_SCAN_STOPPED ∧
    (propertyChanged 1 Bus.down (sampleWorld .STATE_SCAN_STOPPED true false)
        "org.bluez.Adapter1" "Discovering" 0).map (fun w => w.currentState)
      ≠ some .STATE_CONNECTING := by
  decide

/-- C8 (as amended): from every state, with the controller proxy bound,
delivering `DEVICE_DISCONNECTED` while the peripheral's cached `Connected`
does not read as true (cached false, or not readable) hands the bus exactly
one `StartDiscovery` call on the controller in that same call (preceded by
the `SetDiscoveryFilter` call when the filter has not been set yet) and
returns with the machine in `STATE_SCAN`. -/
theorem C8_disconnect_restarts_scan (bus : Bus) (w : World) (fuel : Nat)
    (hc : (bluez_read_property_boolean w (some .device) (some "Connected") (some false)).2
        ≠ some true)
    (hb : w.adapter.client = true) :
    ∃ w1, bleState (fuel + 1) bus w .DEVICE_DISCONNECTED = some w1 ∧
      w1.currentState = .STATE_SCAN ∧
      w1.requests = w.requests ++
        (if w.filterSet = true then []
         else [methodCallMsg w.adapter "SetDiscoveryFilter" bluez_discovery_filter_setup
                 (some .bluez_discovery_filter_reply)]) ++
        [methodCallMsg w.adapter "StartDiscovery" [] none] ∧
      countMember "StartDiscovery" w1.requests =
        countMember "StartDiscovery" w.requests + 1 := by
  have hreq := scan_on_requests bus { w with currentState := .STATE_SCAN } hb
  refine ⟨_, disconnected_scans bus w fuel hc, ?_, hreq, ?_⟩
  · simp [scan_state]
  · rw [hreq]
    by_cases hf : w.filterSet = true <;>
      simp +decide [hf, countMember, World.requests, methodCallMsg, List.countP_append,
        List.countP_cons, List.countP_nil]

/-- C8, witness: an active session whose peripheral's `Connected` has just
been cached as false. -/
theorem C8_disconnect_restarts_scan_witness :
    (bluez_read_property_boolean (sampleWorld .STATE_ROCK_N_ROLL true false) (some .device)
        (some "Connected") (some false)).2 ≠ some true ∧
    (sampleWorld .STATE_ROCK_N_ROLL true false).adapter.client = true ∧
    ∃ w1, bleState (0 + 1) Bus.reliable (sampleWorld .STATE_ROCK_N_ROLL true false)
        .DEVICE_DISCONNECTED = some w1 ∧
      w1.currentState = .STATE_SCAN ∧
      w1.requests = (sampleWorld .STATE_ROCK_N_ROLL true false).requests ++
        (if (sampleWorld .STATE_ROCK_N_ROLL true false).filterSet = true then []
         else [methodCallMsg (sampleWorld .STATE_ROCK_N_ROLL true false).adapter
                 "SetDiscoveryFilter" bluez_discovery_filter_setup
                 (some .bluez_discovery_filter_reply)]) ++
        [methodCallMsg (sampleWorld .STATE_ROCK_N_ROLL true false).adapter "StartDiscovery" []
           none] ∧
      countMember "StartDiscovery" w1.requests =
        countMember "StartDiscovery" (sampleWorld .STATE_ROCK_N_ROLL true false).requests + 1 :=
  ⟨by decide, by decide,
   C8_disconnect_restarts_scan Bus.reliable (sampleWorld .STATE_ROCK_N_ROLL true false) 0
     (by decide) (by decide)⟩

/-- C8, counterexample to the claim as stated: with the peripheral bound and
`Connected` cached false but no controller object seen (controller proxy
without client), `DEVICE_DISCONNECTED` delivered in `STATE_CONTROLLER_OFF`
returns in `STATE_SCAN` having handed the bus nothing, on a bus that would
take every message: no start-discovery request is issued. -/
theorem C8_counterexample :
    (bleState 1 Bus.reliable (sampleWorldNoAdapter .STATE_CONTROLLER_OFF)
        .DEVICE_DISCONNECTED).map
        (fun w => (w.currentState, w.calls.length, countMember "StartDiscovery" w.requests))
      = some (.STATE_SCAN, 0, 0) ∧
    (bluez_read_property_boolean (sampleWorldNoAdapter .STATE_CONTROLLER_OFF) (some .device)
        (some "Connected") (some false)) = (0, some false) := by
  decide

/-- C9 (as amended): from `STATE_INIT`, a single `CLIENT_READY` with the
controller's `Powered` and the peripheral's `Connected` both cached true and
the notify-characteristic proxy bound with interface
`org.bluez.GattCharacteristic1` passes through `STATE_CONTROLLER_OFF`,
`STATE_CONTROLLER_ON` and `STATE_CONNECTED` within the one call, hands the bus
exactly one message, the `AcquireNotify` call on that characteristic (so no
power-on, discovery or connect request), and returns in
`STATE_ACQUIRE_NOTIFY`. -/
theorem C9_fall_through_to_acquire_notify (bus : Bus) (w : World) (fuel : Nat)
    (hs : w.currentState = .STATE_INIT)
    (hp : bluez_read_property_boolean w (some .adapter) (some "Powered") (some false)
        = (0, some true))
    (hc : bluez_read_property_boolean w (some .device) (some "Connected") (some false)
        = (0, some true))
    (hi : w.characteristicRd.interface = "org.bluez.GattCharacteristic1")
    (hb : w.characteristicRd.client = true) :
    ∃ w1, bleState (fuel + 4) bus w .CLIENT_READY = some w1 ∧
      w1.currentState = .STATE_ACQUIRE_NOTIFY ∧
      bleStateVisited (fuel + 4) bus w .CLIENT_READY =
        [.STATE_CONTROLLER_OFF, .STATE_CONTROLLER_ON, .STATE_CONNECTED,
         .STATE_ACQUIRE_NOTIFY] ∧
      w1.requests = w.requests ++
        [methodCallMsg w.characteristicRd "AcquireNotify" acquire_setup
           (some .acquire_notify_reply)] := by
  have hp1 : bluez_read_property_boolean { w with currentState := .STATE_CONTROLLER_OFF }
      (some .adapter) (some "Powered") (some false) = (0, some true) := by
    rw [read_property_setState]; exact hp
  have hc1 : bluez_read_property_boolean { w with currentState := .STATE_CONTROLLER_ON }
      (some .device) (some "Connected") (some false) = (0, some true) := by
    rw [read_property_setState]; exact hc
  refine ⟨{ bluez_acquire_notify bus { w with currentState := .STATE_CONNECTED }
              (some .notification) with currentState := .STATE_ACQUIRE_NOTIFY }, ?_, rfl, ?_, ?_⟩
  · simp [bleState, bleStateIter_other, hs, hp1, hc1]
  · simp [bleStateVisited, bleStateIter_other, hs, hp1, hc1]
  · by_cases hbus : bus w.calls.length (methodCallMsg w.characteristicRd "AcquireNotify"
        acquire_setup (some .acquire_notify_reply)) = true
    · simp [bluez_acquire_notify, hi, g_dbus_proxy_method_call, World.proxy, hb, transmit,
        World.requests, hbus]
    · simp [bluez_acquire_notify, hi, g_dbus_proxy_method_call, World.proxy, hb, transmit,
        World.requests, hbus]

/-- C9, witness: a fresh session with all four proxies bound, the controller
powered and the peripheral connected. -/
theorem C9_fall_through_to_acquire_notify_witness :
    (sampleWorld .STATE_INIT true true).currentState = .STATE_INIT ∧
    bluez_read_property_boolean (sampleWorld .STATE_INIT true true) (some .adapter)
      (some "Powered") (some false) = (0, some true) ∧
    bluez_read_property_boolean (sampleWorld .STATE_INIT true true) (some .device)
      (some "Connected") (some false) = (0, some true) ∧
    (sampleWorld .STATE_INIT true true).characteristicRd.interface
      = "org.bluez.GattCharacteristic1" ∧
    (sampleWorld .STATE_INIT true true).characteristicRd.client = true ∧
    ∃ w1, bleState (0 + 4) Bus.reliable (sampleWorld .STATE_INIT true true) .CLIENT_READY
        = some w1 ∧
      w1.currentState = .STATE_ACQUIRE_NOTIFY ∧
      bleStateVisited (0 + 4) Bus.reliable (sampleWorld .STATE_INIT true true) .CLIENT_READY =
        [.STATE_CONTROLLER_OFF, .STATE_CONTROLLER_ON, .STATE_CONNECTED,
         .STATE_ACQUIRE_NOTIFY] ∧
      w1.requests = (sampleWorld .STATE_INIT true true).requests ++
        [methodCallMsg (sampleWorld .STATE_INIT true true).characteristicRd "AcquireNotify"
           acquire_setup (some .acquire_notify_reply)] :=
  ⟨by decide, by decide, by decide, by decide, by decide,
   C9_fall_through_to_acquire_notify Bus.reliable (sampleWorld .STATE_INIT true true) 0
     (by decide) (by decide) (by decide) (by decide) (by decide)⟩

/-- C9, counterexample to the claim as stated: with the controller powered
and the peripheral cached as connected but the notify characteristic not
bound (its object has not been seen), a single `CLIENT_READY` from
`STATE_INIT` on a bus that takes every message returns in
`STATE_ACQUIRE_NOTIFY` having handed the bus no message at all, so no
acquire-notify request was issued. -/
theorem C9_counterexample :
    (bleState 4 Bus.reliable (sampleWorldNoCharacteristics .STATE_INIT) .CLIENT_READY).map
        (fun w => (w.currentState, w.calls.length, countMember "AcquireNotify" w.requests))
      = some (.STATE_ACQUIRE_NOTIFY, 0, 0) ∧
    bluez_read_property_boolean (sampleWorldNoCharacteristics .STATE_INIT) (some .adapter)
      (some "Powered") (some false) = (0, some true) ∧
    bluez_read_property_boolean (sampleWorldNoCharacteristics .STATE_INIT) (some .device)
      (some "Connected") (some false) = (0, some true) := by
  decide

/-! ## The notification handler -/

/-- One notification while fewer than six have been handled and the write
characteristic is bound: the handler returns, counts the call, leaves the
write proxy and the main loop alone, hands the bus one write command with the
colour `led[called / 2]` exactly when the value is 0, and stops the main loop
exactly when this was the sixth call. -/
theorem notification_step (bus : Bus) (w : World) (value : Int)
    (hb : w.characteristicWr.client = true) (hlt : w.called < 6) :
    ∃ w1, notification bus w value = some w1 ∧
      w1.called = w.called + 1 ∧
      w1.characteristicWr = w.characteristicWr ∧
      w1.mainLoop = w.mainLoop ∧
      w1.requests = w.requests ++
        (if value = 0 then [writeCommand w.characteristicWr (led.getD (w.called / 2) 0)]
         else []) ∧
      w1.quitCalls =
        (if w.called + 1 < 6 then w.quitCalls
         else if w.mainLoop = false then w.quitCalls else w.quitCalls + 1) := by
  have hidx : w.called / 2 < 3 := by omega
  obtain ⟨c, hcol⟩ : ∃ c, led[w.called / 2]? = some c := by
    have : w.called / 2 = 0 ∨ w.called / 2 = 1 ∨ w.called / 2 = 2 := by omega
    rcases this with h | h | h <;> rw [h] <;> simp [led]
  have hget : led.getD (w.called / 2) 0 = c := by
    simp [List.getD, hcol]
  by_cases hv : value = 0
  · by_cases hq : w.called + 1 < 6
    · by_cases hm : w.mainLoop = false <;>
        simp [notification, hv, hcol, hget, hq, hm, quit, bluez_write_attribute,
          g_dbus_proxy_method_call, World.proxy, hb, transmit, World.requests, writeCommand]
    · by_cases hm : w.mainLoop = false <;>
        simp [notification, hv, hcol, hget, hq, hm, quit, bluez_write_attribute,
          g_dbus_proxy_method_call, World.proxy, hb, transmit, World.requests, writeCommand]
  · by_cases hq : w.called + 1 < 6
    · by_cases hm : w.mainLoop = false <;>
        simp [notification, hv, hq, hm, quit, World.requests]
    · by_cases hm : w.mainLoop = false <;>
        simp [notification, hv, hq, hm, quit, World.requests]

/-- C10 (as amended; Scenario E, generalised): starting with `called = 0`,
the write-characteristic proxy bound and the main loop created, for every six
notification values the handler hands the bus a write command for exactly those
notifications whose value is 0, the `k`-th notification (from 0) writing
entry `k / 2` of the colour table `0xFF000080, 0x00FF0080, 0x0000FF80`, in
order and with no other message; the main loop is stopped once, by the sixth
notification, and by none of the first five. -/
theorem C10_scenario_E_notifications (bus : Bus) (w : World) (v0 v1 v2 v3 v4 v5 : Int)
    (hcalled : w.called = 0)
    (hb : w.characteristicWr.client = true)
    (hm : w.mainLoop = true) :
    ∃ w6, notifications bus w [v0, v1, v2, v3, v4, v5] = some w6 ∧
      w6.requests = w.requests ++
        (if v0 = 0 then [writeCommand w.characteristicWr 0xFF000080] else []) ++
        (if v1 = 0 then [writeCommand w.characteristicWr 0xFF000080] else []) ++
        (if v2 = 0 then [writeCommand w.characteristicWr 0x00FF0080] else []) ++
        (if v3 = 0 then [writeCommand w.characteristicWr 0x00FF0080] else []) ++
        (if v4 = 0 then [writeCommand w.characteristicWr 0x0000FF80] else []) ++
        (if v5 = 0 then [writeCommand w.characteristicWr 0x0000FF80] else []) ∧
      w6.quitCalls = w.quitCalls + 1 ∧
      ∀ k, k < 6 → ∃ wk, notifications bus w ([v0, v1, v2, v3, v4, v5].take k) = some wk ∧
        wk.quitCalls = w.quitCalls := by
  obtain ⟨w1, h1, c1, b1, m1, r1, q1⟩ := notification_step bus w v0 hb (by omega)
  simp [hcalled, hm, led] at c1 r1 q1
  have hb1 : w1.characteristicWr.client = true := by rw [b1]; exact hb
  obtain ⟨w2, h2, c2, b2, m2, r2, q2⟩ := notification_step bus w1 v1 hb1 (by omega)
  rw [b1] at b2
  rw [m1] at m2
  simp [c1, b1, m1, hm, led] at c2 r2 q2
  have hb2 : w2.characteristicWr.client = true := by rw [b2]; exact hb
  obtain ⟨w3, h3, c3, b3, m3, r3, q3⟩ := notification_step bus w2 v2 hb2 (by omega)
  rw [b2] at b3
  rw [m2] at m3
  simp [c2, b2, m2, hm, led] at c3 r3 q3
  have hb3 : w3.characteristicWr.client = true := by rw [b3]; exact hb
  obtain ⟨w4, h4, c4, b4, m4, r4, q4⟩ := notification_step bus w3 v3 hb3 (by omega)
  rw [b3] at b4
  rw [m3] at m4
  simp [c3, b3, m3, hm, led] at c4 r4 q4
  have hb4 : w4.characteristicWr.client = true := by rw [b4]; exact hb
  obtain ⟨w5, h5, c5, b5, m5, r5, q5⟩ := notification_step bus w4 v4 hb4 (by omega)
  rw [b4] at b5
  rw [m4] at m5
  simp [c4, b4, m4, hm, led] at c5 r5 q5
  have hb5 : w5.characteristicWr.client = true := by rw [b5]; exact hb
  obtain ⟨w6, h6, c6, b6, m6, r6, q6⟩ := notification_step bus w5 v5 hb5 (by omega)
  rw [b5] at b6
  rw [m5] at m6
  simp [c5, b5, m5, hm, led] at c6 r6 q6
  refine ⟨w6, ?_, ?_, ?_, ?_⟩
  · simp [notifications, h1, h2, h3, h4, h5, h6]
  · rw [r6, r5, r4, r3, r2, r1]
  · rw [q6, q5, q4, q3, q2, q1]
  · intro k hk
    interval_cases k
    · exact ⟨w, by simp [notifications], rfl⟩
    · exact ⟨w1, by simp [notifications, h1], q1⟩
    · exact ⟨w2, by simp [notifications, h1, h2], by rw [q2, q1]⟩
    · exact ⟨w3, by simp [notifications, h1, h2, h3], by rw [q3, q2, q1]⟩
    · exact ⟨w4, by simp [notifications, h1, h2, h3, h4], by rw [q4, q3, q2, q1]⟩
    · exact ⟨w5, by simp [notifications, h1, h2, h3, h4, h5], by rw [q5, q4, q3, q2, q1]⟩

/-- C10, witness: the values of Scenario E, `[0, 1, 0, 1, 0, 1]`, in an active
session: three write commands go out, one per colour in table order, and the
main loop is stopped by the sixth notification. -/
theorem C10_scenario_E_notifications_witness :
    (sampleWorld .STATE_ROCK_N_ROLL true true).called = 0 ∧
    (sampleWorld .STATE_ROCK_N_ROLL true true).characteristicWr.client = true ∧
    (sampleWorld .STATE_ROCK_N_ROLL true true).mainLoop = true ∧
    ∃ w6, notifications Bus.reliable (sampleWorld .STATE_ROCK_N_ROLL true true)
        [0, 1, 0, 1, 0, 1] = some w6 ∧
      w6.requests = (sampleWorld .STATE_ROCK_N_ROLL true true).requests ++
        (if (0 : Int) = 0
         then [writeCommand (sampleWorld .STATE_ROCK_N_ROLL true true).characteristicWr
                 0xFF000080] else []) ++
        (if (1 : Int) = 0
         then [writeCommand (sampleWorld .STATE_ROCK_N_ROLL true true).characteristicWr
                 0xFF000080] else []) ++
        (if (0 : Int) = 0
         then [writeCommand (sampleWorld .STATE_ROCK_N_ROLL true true).characteristicWr
                 0x00FF0080] else []) ++
        (if (1 : Int) = 0
         then [writeCommand (sampleWorld .STATE_ROCK_N_ROLL true true).characteristicWr
                 0x00FF0080] else []) ++
        (if (0 : Int) = 0
         then [writeCommand (sampleWorld .STATE_ROCK_N_ROLL true true).characteristicWr
                 0x0000FF80] else []) ++
        (if (1 : Int) = 0
         then [writeCommand (sampleWorld .STATE_ROCK_N_ROLL true true).characteristicWr
                 0x0000FF80] else []) ∧
      w6.quitCalls = (sampleWorld .STATE_ROCK_N_ROLL true true).quitCalls + 1 ∧
      ∀ k, k < 6 → ∃ wk, notifications Bus.reliable (sampleWorld .STATE_ROCK_N_ROLL true true)
          (([0, 1, 0, 1, 0, 1] : List Int).take k) = some wk ∧
        wk.quitCalls = (sampleWorld .STATE_ROCK_N_ROLL true true).quitCalls :=
  ⟨by decide, by decide, by decide,
   C10_scenario_E_notifications Bus.reliable (sampleWorld .STATE_ROCK_N_ROLL true true)
     0 1 0 1 0 1 (by decide) (by decide) (by decide)⟩

/-- C10, counterexample to the claim as stated: (a) in a running session
where no write characteristic has been seen (write proxy without client), the
notifications `[0, 1, 0, 1, 0, 1]` on a bus that would take every message
produce no write command at all, although three of them have value 0; (b)
with no main loop (`mainLoop` null) the sixth notification stops nothing. -/
theorem C10_counterexample :
    (notifications Bus.reliable (sampleWorldNoWriteCharacteristic .STATE_ROCK_N_ROLL)
        [0, 1, 0, 1, 0, 1]).map
        (fun w => (w.calls.length, countMember "WriteValue" w.requests, w.quitCalls))
      = some (0, 0, 1) ∧
    (notifications Bus.reliable
        { sampleWorld .STATE_ROCK_N_ROLL true true with mainLoop := false }
        [0, 1, 0, 1, 0, 1]).map
        (fun w => (countMember "WriteValue" w.requests, w.quitCalls))
      = some (3, 0) := by
  decide

/-! ## The write encoding -/

/-- C11: `bluez_write_attribute` encodes every 32-bit unsigned value as
exactly four bytes, most significant first: byte `i` is
`(value >> (8 * (3 - i))) mod 256`, so reading the four bytes back as a
big-endian integer gives the value again; and these four bytes, followed by
an empty options dictionary, are the body of the `WriteValue` call handed to
the bus whenever the write proxy has a client. -/
theorem C11_write_attribute_big_endian (bus : Bus) (w : World) (value : Nat)
    (h : value < 2 ^ 32) :
    writeBytesLoop 4 (value % 2 ^ 32) [] =
      [value / 2 ^ 24 % 256, value / 2 ^ 16 % 256, value / 2 ^ 8 % 256, value % 256] ∧
    readBigEndian (writeBytesLoop 4 (value % 2 ^ 32) []) = value ∧
    (bluez_write_attribute bus w value).requests = w.requests ++
      (if w.characteristicWr.client = true then
        [methodCallMsg w.characteristicWr "WriteValue"
          [.array "y" [.byte (value / 2 ^ 24 % 256), .byte (value / 2 ^ 16 % 256),
                       .byte (value / 2 ^ 8 % 256), .byte (value % 256)],
           .array "{sv}" []]
          (some .write_reply)]
       else []) := by
  have hbytes : writeBytesLoop 4 (value % 2 ^ 32) [] =
      [value / 2 ^ 24 % 256, value / 2 ^ 16 % 256, value / 2 ^ 8 % 256, value % 256] := by
    simp only [writeBytesLoop]
    norm_num
    refine ⟨?_, ?_, ?_⟩ <;> omega
  refine ⟨hbytes, ?_, ?_⟩
  · rw [hbytes]
    simp only [readBigEndian, List.foldl]
    norm_num at h ⊢
    omega
  · by_cases hb : w.characteristicWr.client = true
    · simp only [bluez_write_attribute, hbytes]
      simp [g_dbus_proxy_method_call, World.proxy, hb, transmit, World.requests, write_setup]
    · simp only [bluez_write_attribute, hbytes]
      simp [g_dbus_proxy_method_call, World.proxy, hb, World.requests]

/-- C11, witness: the first colour of the table, `0xFF000080`. -/
theorem C11_write_attribute_big_endian_witness :
    (0xFF000080 : Nat) < 2 ^ 32 ∧
    (writeBytesLoop 4 (0xFF000080 % 2 ^ 32) [] =
      [0xFF000080 / 2 ^ 24 % 256, 0xFF000080 / 2 ^ 16 % 256, 0xFF000080 / 2 ^ 8 % 256,
       0xFF000080 % 256] ∧
    readBigEndian (writeBytesLoop 4 (0xFF000080 % 2 ^ 32) []) = 0xFF000080 ∧
    (bluez_write_attribute Bus.reliable (sampleWorld .STATE_ROCK_N_ROLL true true)
        0xFF000080).requests =
      (sampleWorld .STATE_ROCK_N_ROLL true true).requests ++
      (if (sampleWorld .STATE_ROCK_N_ROLL true true).characteristicWr.client = true then
        [methodCallMsg (sampleWorld .STATE_ROCK_N_ROLL true true).characteristicWr "WriteValue"
          [.array "y" [.byte (0xFF000080 / 2 ^ 24 % 256), .byte (0xFF000080 / 2 ^ 16 % 256),
                       .byte (0xFF000080 / 2 ^ 8 % 256), .byte (0xFF000080 % 256)],
           .array "{sv}" []]
          (some .write_reply)]
       else [])) :=
  ⟨by decide,
   C11_write_attribute_big_endian Bus.reliable (sampleWorld .STATE_ROCK_N_ROLL true true)
     0xFF000080 (by decide)⟩

/-! ## Reading the property cache -/

/-- The slot `findProperty` returns carries the name asked for, and that
name stands among the slot names before the empty-name terminator. -/
theorem findProperty_declared (name : String) :
    ∀ (ps : List prop_entry) (e : prop_entry), findProperty ps name = some e →
      e.name = name ∧ name ∈ (ps.map prop_entry.name).takeWhile fun n => n ≠ "" := by
  intro ps
  induction ps with
  | nil => intro e h; simp [findProperty] at h
  | cons q qs ih =>
    intro e h
    simp only [findProperty] at h
    by_cases hq : q.name = ""
    · simp [hq] at h
    · simp only [hq, if_false] at h
      by_cases hn : q.name = name
      · simp only [hn, if_true, Option.some.injEq] at h
        subst h
        refine ⟨hn, ?_⟩
        have hne : ¬name = "" := by rw [← hn]; exact hq
        rw [List.map_cons, List.takeWhile_cons, hn]
        simp [hne]
      · simp only [hn, if_false] at h
        obtain ⟨h1, h2⟩ := ih e h
        refine ⟨h1, ?_⟩
        rw [List.map_cons, List.takeWhile_cons]
        simp only [ne_eq, hq, not_false_eq_true, decide_True, if_true]
        exact List.mem_cons_of_mem _ h2

/-- C12: `bluez_read_property_boolean` returns 0 or 1; it returns 0
(success) exactly when proxy, name and out-pointer are non-null, the name is
one of the proxy's declared names, the slot of that name holds a cached value
and that value is a boolean, and it then stores exactly the cached boolean.
In every other case (null argument, name not declared, nothing cached, cached
value of another type) it returns 1: a failure, never a successful `false`. -/
theorem C12_read_property_boolean (w : World) (proxy : Option Role) (name : Option String)
    (yes : Option Bool) :
    ((bluez_read_property_boolean w proxy name yes).1 = 0 ∨
      (bluez_read_property_boolean w proxy name yes).1 = 1) ∧
    ((bluez_read_property_boolean w proxy name yes).1 = 0 ↔
      ∃ (r : Role) (n : String) (e : prop_entry) (b : Bool),
        proxy = some r ∧ name = some n ∧ yes.isSome = true ∧
        n ∈ declaredNames (w.proxy r) ∧
        findProperty ((w.proxy r).property.take MAX_PROPERTIES) n = some e ∧
        e.name = n ∧ e.msg = some (.boolean b) ∧
        bluez_read_property_boolean w proxy name yes = (0, some b)) := by
  cases yes with
  | none =>
    simp [bluez_read_property_boolean]
  | some y =>
    cases proxy with
    | none => simp [bluez_read_property_boolean, bluez_proxy_get_property]
    | some r =>
      cases name with
      | none => simp [bluez_read_property_boolean, bluez_proxy_get_property]
      | some n =>
        cases hfind : findProperty ((w.proxy r).property.take MAX_PROPERTIES) n with
        | none => simp [bluez_read_property_boolean, bluez_proxy_get_property, hfind]
        | some e =>
          obtain ⟨hname, hmem⟩ := findProperty_declared n _ e hfind
          have hdecl : n ∈ declaredNames (w.proxy r) := by
            simpa [declaredNames] using hmem
          cases hmsg : e.msg with
          | none => simp [bluez_read_property_boolean, bluez_proxy_get_property, hfind, hmsg]
          | some v =>
            cases v <;>
              simp [bluez_read_property_boolean, bluez_proxy_get_property, hfind, hmsg,
                hname, hdecl]

/-! ## Forward progress of the state machine -/

/-- On an event other than `DEVICE_DISCONNECTED`, a pass that breaks out of
the switch has moved the state forward and closer to a returning state. -/
theorem iter_again_progress (bus : Bus) (w w1 : World) (event : Event)
    (hd : event ≠ .DEVICE_DISCONNECTED) (h : bleStateIter bus w event = .again w1) :
    w.currentState.toNat ≤ w1.currentState.toNat ∧
      passesNeeded w1.currentState < passesNeeded w.currentState := by
  rw [bleStateIter_other bus w event hd] at h
  cases hs : w.currentState <;> rw [hs] at h <;> simp only at h <;>
    (try split at h) <;> (try split at h) <;>
    (cases h <;> simp [State.toNat, passesNeeded])

/-- On an event other than `DEVICE_DISCONNECTED`, a pass that returns leaves
the state where it was or later in the order of the states. -/
theorem iter_ret_forward (bus : Bus) (w w1 : World) (event : Event)
    (hd : event ≠ .DEVICE_DISCONNECTED) (h : bleStateIter bus w event = .ret w1) :
    w.currentState.toNat ≤ w1.currentState.toNat := by
  rw [bleStateIter_other bus w event hd] at h
  cases hs : w.currentState <;> rw [hs] at h <;> simp only at h <;>
    (try split at h) <;> (try split at h) <;>
    (cases h <;>
      simp [State.toNat, hs, power_on_state, scan_state, connect_state,
        acquire_notify_state])

/-- On an event other than `DEVICE_DISCONNECTED`, `bleState` returns within
`passesNeeded` passes, in the state it started in or a later one. -/
theorem bleState_forward (bus : Bus) (event : Event) (hd : event ≠ .DEVICE_DISCONNECTED) :
    ∀ (fuel : Nat) (w : World), passesNeeded w.currentState ≤ fuel →
      ∃ w1, bleState fuel bus w event = some w1 ∧
        w.currentState.toNat ≤ w1.currentState.toNat := by
  intro fuel
  induction fuel with
  | zero =>
    intro w h
    cases hs : w.currentState <;> rw [hs] at h <;> simp [passesNeeded] at h
  | succ n ih =>
    intro w h
    simp only [bleState]
    cases hstep : bleStateIter bus w event with
    | ret w1 => exact ⟨w1, rfl, iter_ret_forward bus w w1 event hd hstep⟩
    | again w1 =>
      obtain ⟨hle, hlt⟩ := iter_again_progress bus w w1 event hd hstep
      obtain ⟨w2, hrun, hle2⟩ := ih w1 (by omega)
      exact ⟨w2, hrun, by omega⟩

theorem passesNeeded_le_four (s : State) : passesNeeded s ≤ 4 := by
  cases s <;> simp [passesNeeded]

/-- C18: for every state, every event other than `DEVICE_DISCONNECTED` and
every content of the property cache (and whatever the bus does), a call of
`bleState` returns, within four passes of its loop, and the state after it is
the same as or later than the state before it in the order
`STATE_INIT < STATE_CONTROLLER_OFF < STATE_CONTROLLER_ON < STATE_SCAN <
STATE_SCAN_STOPPED < STATE_CONNECTING < STATE_CONNECTED <
STATE_ACQUIRE_NOTIFY < STATE_ROCK_N_ROLL`, the order of `State.toNat`. -/
theorem C18_transitions_monotonic (bus : Bus) (w : World) (event : Event) (fuel : Nat)
    (hd : event ≠ .DEVICE_DISCONNECTED) :
    ∃ w1, bleState (fuel + 4) bus w event = some w1 ∧
      w.currentState.toNat ≤ w1.currentState.toNat :=
  bleState_forward bus event hd (fuel + 4) w (by
    have := passesNeeded_le_four w.currentState
    omega)

/-- C18, witness: `CLIENT_READY` in a fresh session with controller powered
and peripheral connected. -/
theorem C18_transitions_monotonic_witness :
    Event.CLIENT_READY ≠ .DEVICE_DISCONNECTED ∧
    ∃ w1, bleState (0 + 4) Bus.reliable (sampleWorld .STATE_INIT true true) .CLIENT_READY
        = some w1 ∧
      (sampleWorld .STATE_INIT true true).currentState.toNat ≤ w1.currentState.toNat :=
  ⟨by decide,
   C18_transitions_monotonic Bus.reliable (sampleWorld .STATE_INIT true true) .CLIENT_READY 0
     (by decide)⟩

/-- C19: in each state that waits for a trigger (`STATE_INIT` for
`CLIENT_READY`, `STATE_SCAN` for `DEVICE_DETECTED`, `STATE_SCAN_STOPPED` for
`SCAN_STOPPED`, `STATE_CONNECTING` for `DEVICE_READY`, `STATE_ACQUIRE_NOTIFY`
for `NOTIFY_ACQUIRED`) and in `STATE_ROCK_N_ROLL`, every event other than
that trigger and other than `DEVICE_DISCONNECTED` makes `bleState` return at
once with the whole program state as it was: the state variable is unchanged
and nothing is handed to the bus. -/
theorem C19_unhandled_events_ignored (bus : Bus) (w : World) (event : Event) (fuel : Nat)
    (hd : event ≠ .DEVICE_DISCONNECTED)
    (hwait :
      (w.currentState = .STATE_INIT ∧ event ≠ .CLIENT_READY) ∨
      (w.currentState = .STATE_SCAN ∧ event ≠ .DEVICE_DETECTED) ∨
      (w.currentState = .STATE_SCAN_STOPPED ∧ event ≠ .SCAN_STOPPED) ∨
      (w.currentState = .STATE_CONNECTING ∧ event ≠ .DEVICE_READY) ∨
      (w.currentState = .STATE_ACQUIRE_NOTIFY ∧ event ≠ .NOTIFY_ACQUIRED) ∨
      w.currentState = .STATE_ROCK_N_ROLL) :
    bleState (fuel + 1) bus w event = some w ∧
    ∀ w1, bleState (fuel + 1) bus w event = some w1 →
      w1.currentState = w.currentState ∧ w1.requests = w.requests := by
  have hrun : bleState (fuel + 1) bus w event = some w := by
    simp only [bleState, bleStateIter_other bus w event hd]
    rcases hwait with ⟨hs, he⟩ | ⟨hs, he⟩ | ⟨hs, he⟩ | ⟨hs, he⟩ | ⟨hs, he⟩ | hs
    · simp [hs, he]
    · simp [hs, he]
    · simp [hs, he]
    · simp [hs, he]
    · simp [hs, he]
    · simp [hs]
  refine ⟨hrun, ?_⟩
  intro w1 h1
  rw [hrun] at h1
  cases h1
  exact ⟨rfl, rfl⟩

/-- C19, witness: `POWER_ON` delivered while scanning. -/
theorem C19_unhandled_events_ignored_witness :
    Event.POWER_ON ≠ .DEVICE_DISCONNECTED ∧
    (((sampleWorld .STATE_SCAN true false).currentState = .STATE_INIT ∧
        Event.POWER_ON ≠ .CLIENT_READY) ∨
      ((sampleWorld .STATE_SCAN true false).currentState = .STATE_SCAN ∧
        Event.POWER_ON ≠ .DEVICE_DETECTED) ∨
      ((sampleWorld .STATE_SCAN true false).currentState = .STATE_SCAN_STOPPED ∧
        Event.POWER_ON ≠ .SCAN_STOPPED) ∨
      ((sampleWorld .STATE_SCAN true false).currentState = .STATE_CONNECTING ∧
        Event.POWER_ON ≠ .DEVICE_READY) ∨
      ((sampleWorld .STATE_SCAN true false).currentState = .STATE_ACQUIRE_NOTIFY ∧
        Event.POWER_ON ≠ .NOTIFY_ACQUIRED) ∨
      (sampleWorld .STATE_SCAN true false).currentState = .STATE_ROCK_N_ROLL) ∧
    (bleState (0 + 1) Bus.reliable (sampleWorld .STATE_SCAN true false) .POWER_ON
        = some (sampleWorld .STATE_SCAN true false) ∧
    ∀ w1, bleState (0 + 1) Bus.reliable (sampleWorld .STATE_SCAN true false) .POWER_ON
        = some w1 →
      w1.currentState = (sampleWorld .STATE_SCAN true false).currentState ∧
        w1.requests = (sampleWorld .STATE_SCAN true false).requests) :=
  ⟨by decide, by decide,
   C19_unhandled_events_ignored Bus.reliable (sampleWorld .STATE_SCAN true false) .POWER_ON 0
     (by decide) (by decide)⟩

/-! ## The notification reader -/

/-- A negative read result on the notification pipe: no callback, the reader
reports closure. -/
theorem pipe_read_negative (bus : Bus) (w : World) (io : Int) (user_data : Option chrc)
    (n : Int) (buf0 : Nat) (hio : w.notify_io.fd = some io) (hn : n < 0) :
    pipe_read bus w io user_data n buf0 = some (false, w) := by
  simp [pipe_read, hio, hn]

/-- A read result that is not negative, zero included, on the notification
pipe with a callback registered: the callback is run on byte 0 of the buffer
and the reader stays open. -/
theorem pipe_read_not_negative (bus : Bus) (w : World) (io : Int) (user_data : Option chrc)
    (n : Int) (buf0 : Nat) (hio : w.notify_io.fd = some io) (hn : 0 ≤ n)
    (hcb : w.notify_io.cb = some .notification) :
    pipe_read bus w io user_data n buf0 =
      (notification bus w (buf0 : Int)).map fun w1 => (true, w1) := by
  have hn' : ¬ n < 0 := by omega
  simp [pipe_read, hio, hn', hcb]

/-- C20 (the code at the failing input): on the open notification pipe with
`notification` registered, a read result of 0 makes `pipe_read` run the
callback on byte 0 of the buffer, which `read` has not written, and return
true (reader kept): the call is counted by `notification`, and nothing is
reported closed.  Only a negative result returns false without a callback. -/
theorem C20_zero_read_runs_callback (bus : Bus) (buf0 : Nat) :
    ∃ w1, pipe_read bus sampleActive 7 none 0 buf0 = some (true, w1) ∧
      notification bus sampleActive (buf0 : Int) = some w1 ∧
      w1.called = sampleActive.called + 1 := by
  obtain ⟨w1, hrun, hcalled, _⟩ :=
    notification_step bus sampleActive (buf0 : Int) (by decide) (by decide)
  refine ⟨w1, ?_, hrun, hcalled⟩
  rw [pipe_read_not_negative bus sampleActive 7 none 0 buf0 (by decide) (by decide)
    (by decide), hrun]
  rfl

/-! ## Updating one proxy -/

theorem proxy_setProxy_same (w : World) (r : Role) (p : GDBusProxy) :
    (w.setProxy r p).proxy r = p := by
  cases r <;> rfl

theorem proxy_setProxy_other (w : World) (r r1 : Role) (p : GDBusProxy) (h : r1 ≠ r) :
    (w.setProxy r p).proxy r1 = w.proxy r1 := by
  cases r <;> cases r1 <;> first | rfl | exact absurd rfl h

theorem setProxy_self (w : World) (r : Role) : w.setProxy r (w.proxy r) = w := by
  cases r <;> rfl

theorem setProxy_setProxy (w : World) (r : Role) (p q : GDBusProxy) :
    (w.setProxy r p).setProxy r q = w.setProxy r q := by
  cases r <;> rfl

/-- Replacing a proxy touches nothing but that proxy. -/
theorem setProxy_fields (w : World) (r : Role) (p : GDBusProxy) :
    (w.setProxy r p).currentState = w.currentState ∧
    (w.setProxy r p).calls = w.calls ∧
    (w.setProxy r p).propertyCallback = w.propertyCallback ∧
    (w.setProxy r p).propertyCallbackCalls = w.propertyCallbackCalls ∧
    (w.setProxy r p).watches = w.watches ∧
    (w.setProxy r p).filterSet = w.filterSet ∧
    (w.setProxy r p).notify_io = w.notify_io ∧
    (w.setProxy r p).called = w.called ∧
    (w.setProxy r p).mainLoop = w.mainLoop ∧
    (w.setProxy r p).quitCalls = w.quitCalls := by
  cases r <;> exact ⟨rfl, rfl, rfl, rfl, rfl, rfl, rfl, rfl, rfl, rfl⟩

theorem withCache_self (w : World) (r : Role) :
    w.withCache r (w.proxy r).property = w := by
  cases r <;> rfl

theorem withCache_withCache (w : World) (r : Role) (a b : List prop_entry) :
    (w.withCache r a).withCache r b = w.withCache r b := by
  cases r <;> rfl

theorem proxy_withCache_same (w : World) (r : Role) (a : List prop_entry) :
    (w.withCache r a).proxy r = { w.proxy r with property := a } := by
  cases r <;> rfl

theorem proxy_withCache_other (w : World) (r r1 : Role) (a : List prop_entry) (h : r1 ≠ r) :
    (w.withCache r a).proxy r1 = w.proxy r1 :=
  proxy_setProxy_other w r r1 _ h

/-! ## The store loop -/

theorem storeLoop_names (name : String) (v : DBusValue) :
    ∀ (ps slots : List prop_entry), storeLoop ps name v = some slots →
      slots.map prop_entry.name = ps.map prop_entry.name := by
  intro ps
  induction ps with
  | nil => intro slots h; simp [storeLoop] at h; subst h; rfl
  | cons q qs ih =>
    intro slots h
    simp only [storeLoop] at h
    by_cases hq : q.name = ""
    · simp [hq] at h
    · simp only [hq, if_false] at h
      by_cases hn : q.name = name
      · simp only [hn, if_true, Option.some.injEq] at h
        subst h
        simp [hn]
      · simp only [hn, if_false] at h
        cases hrec : storeLoop qs name v with
        | none => rw [hrec] at h; simp at h
        | some rest =>
          rw [hrec] at h
          simp only [Option.map_some', Option.some.injEq] at h
          subst h
          simp [ih rest hrec]

/-- When the terminator stands among the slots examined, a name that is not
declared before it makes the store loop return at the terminator. -/
theorem storeLoop_undeclared (name : String) (v : DBusValue) :
    ∀ (ps : List prop_entry), "" ∈ ps.map prop_entry.name →
      name ∉ (ps.map prop_entry.name).takeWhile (fun n => n ≠ "") →
      storeLoop ps name v = none := by
  intro ps
  induction ps with
  | nil => intro h _; simp at h
  | cons q qs ih =>
    intro hterm hnot
    simp only [storeLoop]
    by_cases hq : q.name = ""
    · simp [hq]
    · simp only [hq, if_false]
      rw [List.map_cons, List.takeWhile_cons] at hnot
      simp only [ne_eq, hq, not_false_eq_true, decide_True, if_true, List.mem_cons,
        not_or] at hnot
      have hn : ¬ q.name = name := fun h => hnot.1 h.symm
      simp only [hn, if_false]
      have hterm' : "" ∈ qs.map prop_entry.name := by
        simp only [List.map_cons, List.mem_cons] at hterm
        rcases hterm with h | h
        · exact absurd h.symm hq
        · exact h
      rw [ih hterm' hnot.2]
      rfl

/-- A declared name is stored: the loop ends with the slot of that name
holding the new type code and value, and every slot name as before. -/
theorem storeLoop_declared (name : String) (v : DBusValue) :
    ∀ (ps : List prop_entry),
      name ∈ (ps.map prop_entry.name).takeWhile (fun n => n ≠ "") →
      ∃ slots e, storeLoop ps name v = some slots ∧
        findProperty slots name = some e ∧ e.msg = some v ∧ e.type = v.argType ∧
        slots.length = ps.length := by
  intro ps
  induction ps with
  | nil => intro h; simp at h
  | cons q qs ih =>
    intro hmem
    rw [List.map_cons, List.takeWhile_cons] at hmem
    by_cases hq : q.name = ""
    · simp [hq] at hmem
    · simp only [ne_eq, hq, not_false_eq_true, decide_True, if_true, List.mem_cons] at hmem
      by_cases hn : q.name = name
      · have hne : ¬ name = "" := by rw [← hn]; exact hq
        refine ⟨{ q with type := v.argType, msg := some v } :: qs,
          { q with type := v.argType, msg := some v }, ?_, ?_, rfl, rfl, ?_⟩
        · simp [storeLoop, hn, hne]
        · simp [findProperty, hn, hne]
        · simp
      · have hrest : name ∈ (qs.map prop_entry.name).takeWhile (fun n => n ≠ "") := by
          rcases hmem with h | h
          · exact absurd h.symm hn
          · exact h
        obtain ⟨slots, e, hs, hf, hm, ht, hl⟩ := ih hrest
        refine ⟨q :: slots, e, ?_, ?_, hm, ht, ?_⟩
        · simp [storeLoop, hq, hn, hs]
        · simp [findProperty, hq, hn, hf]
        · simp [hl]

/-! ## Bulk loading without change events -/

/-- With `send_changed` false, `bluez_add_property` returns, and changes at
most the slots of the proxy it is given, keeping every slot name. -/
theorem add_property_silent (fuel : Nat) (bus : Bus) (w : World) (r : Role) (name : String)
    (iter : DBusMessageIter) :
    ∃ slots, bluez_add_property fuel bus w r name iter false = some (w.withCache r slots) ∧
      slots.map prop_entry.name = (w.proxy r).property.map prop_entry.name := by
  have hself : bluez_add_property fuel bus w r name iter false = some w →
      ∃ slots, bluez_add_property fuel bus w r name iter false = some (w.withCache r slots) ∧
        slots.map prop_entry.name = (w.proxy r).property.map prop_entry.name := by
    intro h
    exact ⟨(w.proxy r).property, by rw [withCache_self]; exact h, rfl⟩
  cases iter with
  | nil => exact hself rfl
  | cons v rest =>
    cases v with
    | variant value =>
      cases hstore : storeLoop ((w.proxy r).property.take MAX_PROPERTIES) name value with
      | none => exact hself (by simp [bluez_add_property, hstore])
      | some slots =>
        refine ⟨slots ++ (w.proxy r).property.drop MAX_PROPERTIES, ?_, ?_⟩
        · simp [bluez_add_property, hstore, World.withCache]
        · rw [List.map_append, storeLoop_names name value _ slots hstore, ← List.map_append,
            List.take_append_drop]
    | _ => exact hself rfl

/-- With `send_changed` false, the entry loop of `update_properties` returns,
and changes at most the slots of the proxy, keeping every slot name. -/
theorem updateEntries_silent (fuel : Nat) (bus : Bus) (r : Role) :
    ∀ (entries : DBusMessageIter) (w : World),
      ∃ slots, updateEntries fuel bus r false w entries = some (w.withCache r slots) ∧
        slots.map prop_entry.name = (w.proxy r).property.map prop_entry.name := by
  intro entries
  induction entries with
  | nil =>
    intro w
    exact ⟨(w.proxy r).property, by rw [withCache_self]; rfl, rfl⟩
  | cons e rest ih =>
    intro w
    have hself : updateEntries fuel bus r false w (e :: rest) = some w →
        ∃ slots, updateEntries fuel bus r false w (e :: rest) = some (w.withCache r slots) ∧
          slots.map prop_entry.name = (w.proxy r).property.map prop_entry.name := by
      intro h
      exact ⟨(w.proxy r).property, by rw [withCache_self]; exact h, rfl⟩
    by_cases hty : e.argType ≠ DBUS_TYPE_DICT_ENTRY
    · exact hself (by simp only [updateEntries, if_pos hty])
    · by_cases hk : (bluez_dbus_msg_recurse (e :: rest) DBUS_TYPE_STRING).1 = false
      · exact hself (by simp only [updateEntries, if_neg hty, if_pos hk])
      · cases hval : (bluez_dbus_msg_recurse (e :: rest) DBUS_TYPE_STRING).2.1 with
        | none => exact hself (by simp only [updateEntries, if_neg hty, if_neg hk, hval])
        | some key =>
          cases key with
          | string name =>
            obtain ⟨s1, h1, n1⟩ := add_property_silent fuel bus w r name
              (bluez_dbus_msg_recurse (e :: rest) DBUS_TYPE_STRING).2.2
            obtain ⟨s2, h2, n2⟩ := ih (w.withCache r s1)
            refine ⟨s2, ?_, ?_⟩
            · simp only [updateEntries, if_neg hty, if_neg hk, hval, h1, Option.some_bind, h2,
                withCache_withCache]
            · rw [n2, proxy_withCache_same]
              exact n1
          | _ => exact hself (by simp only [updateEntries, if_neg hty, if_neg hk, hval])

/-- With `send_changed` false, `update_properties` returns, and changes at
most the slots of the proxy, keeping every slot name. -/
theorem update_properties_silent (fuel : Nat) (bus : Bus) (w : World) (r : Role)
    (iter : DBusMessageIter) :
    ∃ slots, update_properties fuel bus w r iter false = some (w.withCache r slots) ∧
      slots.map prop_entry.name = (w.proxy r).property.map prop_entry.name := by
  unfold update_properties
  split
  · exact ⟨(w.proxy r).property, by rw [withCache_self], rfl⟩
  · exact updateEntries_silent fuel bus r _ w

/-! ## Screening -/

theorem screen_interface_role (w : World) (path interface : String) (iter : DBusMessageIter)
    (watch : Nat) :
    (bluez_screen_interface w path interface iter watch).1 = screenRole interface iter := by
  unfold bluez_screen_interface
  cases screenRole interface iter <;> rfl

theorem screen_interface_none (w : World) (path interface : String) (iter : DBusMessageIter)
    (watch : Nat) (h : screenRole interface iter = none) :
    bluez_screen_interface w path interface iter watch = (none, w) := by
  simp [bluez_screen_interface, h]

/-- An interface name for which a proxy is selected is one of the three BlueZ
interface names, so it fits the proxy's interface array and is not one of the
two skipped interfaces. -/
theorem screenRole_interface (interface : String) (iter : DBusMessageIter) (r : Role)
    (h : screenRole interface iter = some r) :
    strncpy interface MAX_BLUEZ_INTERFACE = interface ∧
      interface ≠ DBUS_INTERFACE_INTROSPECTABLE ∧ interface ≠ DBUS_INTERFACE_PROPERTIES := by
  unfold screenRole at h
  by_cases h1 : interface = "org.bluez.Adapter1"
  · subst h1; decide
  · by_cases h2 : interface = "org.bluez.Device1"
    · subst h2; decide
    · by_cases h3 : interface = "org.bluez.GattCharacteristic1"
      · subst h3; decide
      · simp [h1, h2, h3] at h

/-- What `bluez_screen_interface` does to the proxy it selects and to the
others. -/
theorem screen_interface_some (w : World) (path interface : String) (iter : DBusMessageIter)
    (watch : Nat) (r : Role) (h : screenRole interface iter = some r) :
    (bluez_screen_interface w path interface iter watch).1 = some r ∧
    (bluez_screen_interface w path interface iter watch).2.proxy r =
      { w.proxy r with
        client := true, obj_path := strncpy path MAX_BLUEZ_PATH, interface := interface,
        watch := watch, pending := true } ∧
    (∀ r1, r1 ≠ r →
      (bluez_screen_interface w path interface iter watch).2.proxy r1 = w.proxy r1) ∧
    (bluez_screen_interface w path interface iter watch).2.watches = w.watches ++
      [{ path := boundPath path interface, interface := interface, proxy := r }] ∧
    (bluez_screen_interface w path interface iter watch).2.propertyCallbackCalls =
      w.propertyCallbackCalls ∧
    (bluez_screen_interface w path interface iter watch).2.propertyCallback =
      w.propertyCallback ∧
    (bluez_screen_interface w path interface iter watch).2.currentState = w.currentState ∧
    (bluez_screen_interface w path interface iter watch).2.calls = w.calls := by
  have hi := (screenRole_interface interface iter r h).1
  have hdef : bluez_screen_interface w path interface iter watch =
      (some r,
       { w.setProxy r
           { w.proxy r with
             client := true, obj_path := strncpy path MAX_BLUEZ_PATH, interface := interface,
             watch := watch, pending := true } with
         watches := w.watches ++
           [{ path := boundPath path interface, interface := interface, proxy := r }] }) := by
    simp only [bluez_screen_interface, h, hi]
    rfl
  rw [hdef]
  refine ⟨rfl, ?_, ?_, rfl, ?_, ?_, ?_, ?_⟩
  · cases r <;> rfl
  · intro r1 hr1
    cases r <;> cases r1 <;> first | rfl | exact absurd rfl hr1
  · cases r <;> rfl
  · cases r <;> rfl
  · cases r <;> rfl
  · cases r <;> rfl

theorem proxy_added_proxy (w : World) (r : Role) :
    (proxy_added w r).proxy r = { w.proxy r with pending := false } ∧
    (∀ r1, r1 ≠ r → (proxy_added w r).proxy r1 = w.proxy r1) ∧
    (proxy_added w r).propertyCallbackCalls = w.propertyCallbackCalls ∧
    (proxy_added w r).propertyCallback = w.propertyCallback ∧
    (proxy_added w r).currentState = w.currentState ∧
    (proxy_added w r).calls = w.calls ∧
    (proxy_added w r).watches = w.watches := by
  unfold proxy_added
  by_cases hp : (w.proxy r).pending = false
  · rw [if_pos hp]
    refine ⟨?_, fun _ _ => rfl, rfl, rfl, rfl, rfl, rfl⟩
    cases hw : w.proxy r
    rw [hw] at hp
    simp only at hp
    subst hp
    rfl
  · rw [if_neg hp]
    obtain ⟨f1, f2, f3, f4, f5, _⟩ := setProxy_fields w r { w.proxy r with pending := false }
    exact ⟨proxy_setProxy_same _ _ _, fun r1 h => proxy_setProxy_other _ _ _ _ h,
      f4, f3, f1, f2, f5⟩

/-- What `parse_properties` does when a proxy is selected: it returns with
that proxy bound, its pending flag lowered again and its slots loaded (slot
names kept); the other proxies, the callback trace, the state variable and
the bus trace are as before, and one property watch has been added. -/
theorem parse_properties_some (fuel : Nat) (bus : Bus) (w : World) (path interface : String)
    (iter : DBusMessageIter) (watch : Nat) (r : Role)
    (h : screenRole interface iter = some r) :
    ∃ w1 slots, parse_properties fuel bus w path interface iter watch = some w1 ∧
      w1.proxy r =
        { w.proxy r with
          client := true, obj_path := strncpy path MAX_BLUEZ_PATH, interface := interface,
          watch := watch, pending := false, property := slots } ∧
      slots.map prop_entry.name = (w.proxy r).property.map prop_entry.name ∧
      (∀ r1, r1 ≠ r → w1.proxy r1 = w.proxy r1) ∧
      w1.propertyCallbackCalls = w.propertyCallbackCalls ∧
      w1.propertyCallback = w.propertyCallback ∧
      w1.currentState = w.currentState ∧
      w1.calls = w.calls ∧
      w1.watches = w.watches ++
        [{ path := boundPath path interface, interface := interface, proxy := r }] := by
  obtain ⟨hi, hn1, hn2⟩ := screenRole_interface interface iter r h
  obtain ⟨s1, s2, s3, s4, s5, s6, s7, s8⟩ := screen_interface_some w path interface iter watch r h
  obtain ⟨slots, hup, hnames⟩ := update_properties_silent fuel bus
    (bluez_screen_interface w path interface iter watch).2 r iter
  obtain ⟨a1, a2, a3, a4, a5, a6, a7⟩ := proxy_added_proxy
    ((bluez_screen_interface w path interface iter watch).2.withCache r slots) r
  obtain ⟨f1, f2, f3, f4, f5, _⟩ := setProxy_fields
    (bluez_screen_interface w path interface iter watch).2 r
    { (bluez_screen_interface w path interface iter watch).2.proxy r with property := slots }
  refine ⟨proxy_added ((bluez_screen_interface w path interface iter watch).2.withCache r slots) r,
    slots, ?_, ?_, ?_, ?_, ?_, ?_, ?_, ?_, ?_⟩
  · unfold parse_properties
    rw [if_neg hn1, if_neg hn2]
    have hpair : bluez_screen_interface w path interface iter watch =
        (some r, (bluez_screen_interface w path interface iter watch).2) := by
      rw [← s1]
    rw [hpair]
    simp only [hup, Option.map_some']
  · rw [a1, proxy_withCache_same, s2]
  · rw [hnames, s2]
  · intro r1 hr1
    rw [a2 r1 hr1, proxy_withCache_other _ _ _ _ hr1, s3 r1 hr1]
  · rw [a3]; exact f4.trans s5
  · rw [a4]; exact f3.trans s6
  · rw [a5]; exact f1.trans s7
  · rw [a6]; exact f2.trans s8
  · rw [a7]; exact f5.trans s4

/-- What `parse_properties` does when no proxy is selected or the interface
is one of the two skipped ones: nothing. -/
theorem parse_properties_none (fuel : Nat) (bus : Bus) (w : World) (path interface : String)
    (iter : DBusMessageIter) (watch : Nat)
    (h : interface = DBUS_INTERFACE_INTROSPECTABLE ∨ interface = DBUS_INTERFACE_PROPERTIES ∨
      screenRole interface iter = none) :
    parse_properties fuel bus w path interface iter watch = some w := by
  unfold parse_properties
  by_cases h1 : interface = DBUS_INTERFACE_INTROSPECTABLE
  · rw [if_pos h1]
  · rw [if_neg h1]
    by_cases h2 : interface = DBUS_INTERFACE_PROPERTIES
    · rw [if_pos h2]
    · rw [if_neg h2]
      rcases h with h | h | h
      · exact absurd h h1
      · exact absurd h h2
      · rw [screen_interface_none w path interface iter watch h]

/-- When the object path is shorter than the proxy's path array, `strncpy`
stores it whole. -/
theorem strncpy_short (path : String) (n : Nat) (h : path.length < n) :
    strncpy path n = path := by
  simp [strncpy, h]

/-- C16: for every role and all object paths `p1`, `p2` shorter than 64
characters, screening a tuple that selects the role with path `p2` after one
that selected it with `p1` leaves the role's proxy holding `p2` (and the
second tuple's interface) where it held `p1` after the first, and leaves the
path and interface of each of the other three proxies as they were at the
start. -/
theorem C16_rebinding_replaces (fuel : Nat) (bus : Bus) (w : World) (r : Role)
    (p1 p2 i1 i2 : String) (iter1 iter2 : DBusMessageIter) (watch1 watch2 : Nat)
    (h1 : p1.length < 64) (h2 : p2.length < 64)
    (hm1 : screenRole i1 iter1 = some r) (hm2 : screenRole i2 iter2 = some r) :
    ∃ w1 w2, parse_properties fuel bus w p1 i1 iter1 watch1 = some w1 ∧
      parse_properties fuel bus w1 p2 i2 iter2 watch2 = some w2 ∧
      (w1.proxy r).obj_path = p1 ∧
      (w2.proxy r).obj_path = p2 ∧ (w2.proxy r).interface = i2 ∧
      (w2.proxy r).client = true ∧
      ∀ r1, r1 ≠ r →
        (w2.proxy r1).obj_path = (w.proxy r1).obj_path ∧
        (w2.proxy r1).interface = (w.proxy r1).interface := by
  obtain ⟨w1, s1, hrun1, hp1, _, ho1, _⟩ :=
    parse_properties_some fuel bus w p1 i1 iter1 watch1 r hm1
  obtain ⟨w2, s2, hrun2, hp2, _, ho2, _⟩ :=
    parse_properties_some fuel bus w1 p2 i2 iter2 watch2 r hm2
  refine ⟨w1, w2, hrun1, hrun2, ?_, ?_, ?_, ?_, ?_⟩
  · rw [hp1]; exact strncpy_short p1 _ h1
  · rw [hp2]; exact strncpy_short p2 _ h2
  · rw [hp2]
  · rw [hp2]
  · intro r1 hr1
    rw [ho2 r1 hr1, ho1 r1 hr1]
    exact ⟨rfl, rfl⟩

/-- C16, witness: the peripheral object seen at one device path and then,
with the same service UUID, at another. -/
theorem C16_rebinding_replaces_witness :
    ("/org/bluez/hci0/dev_00_A0_50_3E_47_9D" : String).length < 64 ∧
    ("/org/bluez/hci0/dev_11_22_33_44_55_66" : String).length < 64 ∧
    screenRole "org.bluez.Device1"
      [.array "{sv}" [.dictEntry (.string "UUIDs")
        (.variant (.array "s" [.string UUID_DEVICE]))]] = some .device ∧
    screenRole "org.bluez.Device1"
      [.array "{sv}" [.dictEntry (.string "UUIDs")
        (.variant (.array "s" [.string UUID_DEVICE]))]] = some .device ∧
    ∃ w1 w2, parse_properties 0 Bus.reliable World.init
        "/org/bluez/hci0/dev_00_A0_50_3E_47_9D" "org.bluez.Device1"
        [.array "{sv}" [.dictEntry (.string "UUIDs")
          (.variant (.array "s" [.string UUID_DEVICE]))]] 1 = some w1 ∧
      parse_properties 0 Bus.reliable w1
        "/org/bluez/hci0/dev_11_22_33_44_55_66" "org.bluez.Device1"
        [.array "{sv}" [.dictEntry (.string "UUIDs")
          (.variant (.array "s" [.string UUID_DEVICE]))]] 2 = some w2 ∧
      (w1.proxy .device).obj_path = "/org/bluez/hci0/dev_00_A0_50_3E_47_9D" ∧
      (w2.proxy .device).obj_path = "/org/bluez/hci0/dev_11_22_33_44_55_66" ∧
      (w2.proxy .device).interface = "org.bluez.Device1" ∧
      (w2.proxy .device).client = true ∧
      ∀ r1, r1 ≠ .device →
        (w2.proxy r1).obj_path = (World.init.proxy r1).obj_path ∧
        (w2.proxy r1).interface = (World.init.proxy r1).interface :=
  ⟨by decide, by decide, by decide, by decide,
   C16_rebinding_replaces 0 Bus.reliable World.init .device
     "/org/bluez/hci0/dev_00_A0_50_3E_47_9D" "/org/bluez/hci0/dev_11_22_33_44_55_66"
     "org.bluez.Device1" "org.bluez.Device1"
     [.array "{sv}" [.dictEntry (.string "UUIDs")
        (.variant (.array "s" [.string UUID_DEVICE]))]]
     [.array "{sv}" [.dictEntry (.string "UUIDs")
        (.variant (.array "s" [.string UUID_DEVICE]))]]
     1 2 (by decide) (by decide) (by decide) (by decide)⟩

/-- After a rebinding both property watches are registered: the one on the
first path is not removed. -/
theorem rebinding_keeps_first_watch (fuel : Nat) (bus : Bus) (w : World) (r : Role)
    (p1 p2 i1 i2 : String) (iter1 iter2 : DBusMessageIter) (watch1 watch2 : Nat)
    (hm1 : screenRole i1 iter1 = some r) (hm2 : screenRole i2 iter2 = some r) :
    ∃ w1 w2, parse_properties fuel bus w p1 i1 iter1 watch1 = some w1 ∧
      parse_properties fuel bus w1 p2 i2 iter2 watch2 = some w2 ∧
      w2.watches = w.watches ++
        [{ path := boundPath p1 i1, interface := i1, proxy := r },
         { path := boundPath p2 i2, interface := i2, proxy := r }] := by
  obtain ⟨w1, s1, hrun1, _, _, _, _, _, _, _, hw1⟩ :=
    parse_properties_some fuel bus w p1 i1 iter1 watch1 r hm1
  obtain ⟨w2, s2, hrun2, _, _, _, _, _, _, _, hw2⟩ :=
    parse_properties_some fuel bus w1 p2 i2 iter2 watch2 r hm2
  exact ⟨w1, w2, hrun1, hrun2, by rw [hw2, hw1]; simp⟩

/-- C17: `parse_properties` returns for every tuple, whatever names, types
and values the dictionary holds, whether or not a property-change callback is
registered and for any bound on the state machine's passes, and the callback
has been invoked zero times during it: the trace of callback invocations is
as before, and so are the state variable and the bus trace, which only the
callback could have changed. -/
theorem C17_bulk_load_raises_no_event (fuel : Nat) (bus : Bus) (w : World)
    (path interface : String) (iter : DBusMessageIter) (watch : Nat) :
    ∃ w1, parse_properties fuel bus w path interface iter watch = some w1 ∧
      w1.propertyCallbackCalls = w.propertyCallbackCalls ∧
      w1.currentState = w.currentState ∧
      w1.calls = w.calls := by
  cases hrole : screenRole interface iter with
  | none =>
    exact ⟨w, parse_properties_none fuel bus w path interface iter watch
      (Or.inr (Or.inr hrole)), rfl, rfl, rfl⟩
  | some r =>
    obtain ⟨w1, slots, hrun, _, _, _, hcalls, _, hstate, hbus, _⟩ :=
      parse_properties_some fuel bus w path interface iter watch r hrole
    exact ⟨w1, hrun, hcalls, hstate, hbus⟩

/-! ## What the state machine leaves alone -/

theorem sameTables_refl (w : World) : w.sameTables w :=
  ⟨rfl, rfl, rfl, rfl, rfl, rfl, rfl, rfl, rfl, rfl⟩

theorem sameTables_trans (w w1 w2 : World) (h1 : w.sameTables w1) (h2 : w1.sameTables w2) :
    w.sameTables w2 := by
  obtain ⟨a1, a2, a3, a4, a5, a6, a7, a8, a9, a10⟩ := h1
  obtain ⟨b1, b2, b3, b4, b5, b6, b7, b8, b9, b10⟩ := h2
  exact ⟨b1.trans a1, b2.trans a2, b3.trans a3, b4.trans a4, b5.trans a5, b6.trans a6,
    b7.trans a7, b8.trans a8, b9.trans a9, b10.trans a10⟩

theorem proxy_call_sameTables (bus : Bus) (w : World) (p : Option Role) (m : Option String)
    (a : List DBusValue) (f : Option ReplyFn) :
    w.sameTables (g_dbus_proxy_method_call bus w p m a f).2 := by
  unfold g_dbus_proxy_method_call transmit
  cases p <;> cases m <;> simp only <;> (try split) <;> exact sameTables_refl w

theorem power_on_sameTables (bus : Bus) (w : World) : w.sameTables (bluez_power_on bus w) := by
  simp only [bluez_power_on, bluez_set_property, transmit]
  split <;> exact sameTables_refl w

theorem discovery_filter_sameTables (bus : Bus) (w : World) :
    w.sameTables (bluez_discovery_filter bus w) := by
  have hc := proxy_call_sameTables bus w (some .adapter) (some "SetDiscoveryFilter")
    bluez_discovery_filter_setup (some .bluez_discovery_filter_reply)
  unfold bluez_discovery_filter
  by_cases hf : w.filterSet = true
  · rw [if_pos hf]; exact sameTables_refl w
  · rw [if_neg hf]
    by_cases hr : (g_dbus_proxy_method_call bus w (some .adapter)
        (some "SetDiscoveryFilter") bluez_discovery_filter_setup
        (some .bluez_discovery_filter_reply)).1 = false
    · simp only [hr, if_true]; exact hc
    · simp only [hr, if_false]; exact hc

theorem scan_sameTables (bus : Bus) (w : World) (b : Bool) :
    w.sameTables (bluez_scan bus w b) := by
  unfold bluez_scan
  cases b
  · exact proxy_call_sameTables bus w _ _ _ _
  · exact sameTables_trans w _ _ (discovery_filter_sameTables bus w)
      (proxy_call_sameTables bus _ _ _ _ _)

theorem connect_sameTables (bus : Bus) (w : World) : w.sameTables (bluez_connect bus w).2 :=
  proxy_call_sameTables bus w _ _ _ _

theorem acquire_notify_sameTables (bus : Bus) (w : World) (cb : Option NotificationCallback) :
    w.sameTables (bluez_acquire_notify bus w cb) := by
  have hc := proxy_call_sameTables bus w (some .characteristicRd) (some "AcquireNotify")
    acquire_setup (some .acquire_notify_reply)
  unfold bluez_acquire_notify
  by_cases hi : w.characteristicRd.interface ≠ "org.bluez.GattCharacteristic1"
  · rw [if_pos hi]; exact sameTables_refl w
  · rw [if_neg hi]
    by_cases hr : (g_dbus_proxy_method_call bus w (some .characteristicRd)
        (some "AcquireNotify") acquire_setup (some .acquire_notify_reply)).1 = false
    · simp only [hr, if_true]; exact hc
    · simp only [hr, if_false]; exact hc

/-- One pass of the loop of `bleState` writes only what the state machine
owns. -/
theorem iter_sameTables (bus : Bus) (w : World) (event : Event) :
    (∀ w1, bleStateIter bus w event = .ret w1 → w.sameTables w1) ∧
    (∀ w1, bleStateIter bus w event = .again w1 → w.sameTables w1) := by
  by_cases hd : event = .DEVICE_DISCONNECTED
  · subst hd
    rw [bleStateIter_disconnected]
    constructor <;> intro w1 h <;> split at h <;> cases h
    · exact scan_sameTables bus { w with currentState := .STATE_SCAN } true
    · exact sameTables_refl w
  · rw [bleStateIter_other bus w event hd]
    constructor <;> intro w1 h <;>
      (cases hs : w.currentState <;> rw [hs] at h <;> simp only at h <;>
        (try split at h) <;> (try split at h) <;>
        (cases h <;>
          first
          | exact sameTables_refl w
          | exact power_on_sameTables bus w
          | exact scan_sameTables bus { w with currentState := .STATE_SCAN } true
          | exact scan_sameTables bus w false
          | exact connect_sameTables bus w
          | exact acquire_notify_sameTables bus w (some .notification)))

/-- A call of `bleState` writes only what the state machine owns. -/
theorem bleState_sameTables (bus : Bus) (event : Event) :
    ∀ (fuel : Nat) (w w1 : World), bleState fuel bus w event = some w1 → w.sameTables w1 := by
  intro fuel
  induction fuel with
  | zero => intro w w1 h; simp [bleState] at h
  | succ n ih =>
    intro w w1 h
    simp only [bleState] at h
    cases hstep : bleStateIter bus w event with
    | ret w2 =>
      rw [hstep] at h
      cases h
      exact (iter_sameTables bus w event).1 _ hstep
    | again w2 =>
      rw [hstep] at h
      exact sameTables_trans w w2 w1 ((iter_sameTables bus w event).2 _ hstep) (ih w2 w1 h)

/-- Unless the event is `DEVICE_DISCONNECTED` with the peripheral's
`Connected` cached true, a call of `bleState` returns within four passes. -/
theorem bleState_returns (bus : Bus) (w : World) (event : Event) (fuel : Nat)
    (hsafe : event = .DEVICE_DISCONNECTED →
      (bluez_read_property_boolean w (some .device) (some "Connected") (some false)).2
        ≠ some true) :
    ∃ w1, bleState (fuel + 4) bus w event = some w1 := by
  by_cases hd : event = .DEVICE_DISCONNECTED
  · subst hd
    exact ⟨_, disconnected_scans bus w (fuel + 3) (hsafe rfl)⟩
  · obtain ⟨w1, h, _⟩ := bleState_forward bus event hd (fuel + 4) w (by
      have := passesNeeded_le_four w.currentState
      omega)
    exact ⟨w1, h⟩

theorem bleState_returns_same (bus : Bus) (w : World) (event : Event) (fuel : Nat)
    (hsafe : event = .DEVICE_DISCONNECTED →
      (bluez_read_property_boolean w (some .device) (some "Connected") (some false)).2
        ≠ some true) :
    ∃ w1, bleState (fuel + 4) bus w event = some w1 ∧ w.sameTables w1 := by
  obtain ⟨w1, h⟩ := bleState_returns bus w event fuel hsafe
  exact ⟨w1, h, bleState_sameTables bus event _ w w1 h⟩

/-- The callback `propertyChanged` returns, having written only what the
state machine owns, unless it is told that the peripheral's `Connected`
ceased to be true while the cache still holds it as true. -/
theorem propertyChanged_returns (bus : Bus) (w : World) (interface name : String)
    (value : Int) (fuel : Nat)
    (hsafe : interface = "org.bluez.Device1" → name = "Connected" → value ≠ 1 →
      (bluez_read_property_boolean w (some .device) (some "Connected") (some false)).2
        ≠ some true) :
    ∃ w1, propertyChanged (fuel + 4) bus w interface name value = some w1 ∧
      w.sameTables w1 := by
  have hself : ∃ w1, some w = some w1 ∧ w.sameTables w1 := ⟨w, rfl, sameTables_refl w⟩
  by_cases hdev : interface = "org.bluez.Device1"
  · subst hdev
    by_cases h1 : name = "ServicesResolved"
    · subst h1
      by_cases hv : value = 1
      · simpa +decide [propertyChanged, hv] using
          bleState_returns_same bus w .DEVICE_READY fuel (by intro h; cases h)
      · simpa +decide [propertyChanged, hv] using hself
    · by_cases h2 : name = "RSSI"
      · subst h2
        simpa +decide [propertyChanged] using
          bleState_returns_same bus w .DEVICE_DETECTED fuel (by intro h; cases h)
      · by_cases h3 : name = "Connected"
        · subst h3
          by_cases hv : value = 1
          · simpa +decide [propertyChanged, hv] using hself
          · simpa +decide [propertyChanged, hv] using
              bleState_returns_same bus w .DEVICE_DISCONNECTED fuel
                (fun _ => hsafe rfl rfl hv)
        · simpa +decide [propertyChanged, h1, h2, h3] using hself
  · by_cases hada : interface = "org.bluez.Adapter1"
    · subst hada
      by_cases h1 : name = "Powered"
      · subst h1
        by_cases hv : value = 1
        · simpa +decide [propertyChanged, hv] using
            bleState_returns_same bus w .POWER_ON fuel (by intro h; cases h)
        · simpa +decide [propertyChanged, hv] using hself
      · by_cases h2 : name = "Discovering"
        · subst h2
          by_cases hv : value = 1
          · simpa +decide [propertyChanged, hv] using hself
          · simpa +decide [propertyChanged, hv] using
              bleState_returns_same bus w .SCAN_STOPPED fuel (by intro h; cases h)
        · simpa +decide [propertyChanged, h1, h2] using hself
    · by_cases hchr : interface = "org.bluez.GattCharacteristic1"
      · subst hchr
        by_cases h1 : name = "NotifyAcquired"
        · subst h1
          by_cases hv : value = 1
          · simpa +decide [propertyChanged, hv] using
              bleState_returns_same bus w .NOTIFY_ACQUIRED fuel (by intro h; cases h)
          · simpa +decide [propertyChanged, hv] using hself
        · simpa +decide [propertyChanged, h1] using hself
      · simpa +decide [propertyChanged, hdev, hada, hchr] using hself

/-- Whenever the callback `propertyChanged` returns, it has written only what
the state machine owns. -/
theorem propertyChanged_sameTables (bus : Bus) (w w1 : World) (interface name : String)
    (value : Int) (fuel : Nat)
    (h : propertyChanged fuel bus w interface name value = some w1) : w.sameTables w1 := by
  have hstep : ∀ (c : Prop) [Decidable c] (e : Event) (x y : World),
      (if c then bleState fuel bus x e else some x) = some y → x.sameTables y := by
    intro c _ e x y hxy
    by_cases hc : c
    · rw [if_pos hc] at hxy
      exact bleState_sameTables bus e fuel x y hxy
    · rw [if_neg hc] at hxy
      cases hxy
      exact sameTables_refl x
  unfold propertyChanged at h
  simp only at h
  split at h
  · obtain ⟨w2, h2, h3⟩ := Option.bind_eq_some.mp h
    obtain ⟨w3, h4, h5⟩ := Option.bind_eq_some.mp h2
    exact sameTables_trans w w2 w1
      (sameTables_trans w w3 w2 (hstep _ _ _ _ h4) (hstep _ _ _ _ h5)) (hstep _ _ _ _ h3)
  · split at h
    · split at h
      · exact bleState_sameTables bus _ fuel w w1 h
      · exact hstep _ _ _ _ h
    · split at h
      · exact hstep _ _ _ _ h
      · cases h
        exact sameTables_refl w

theorem sameTables_proxy (w w1 : World) (h : w.sameTables w1) (r : Role) :
    w1.proxy r = w.proxy r := by
  obtain ⟨a1, a2, a3, a4, _⟩ := h
  cases r
  · exact a1
  · exact a2
  · exact a3
  · exact a4

/-- The shape of every result of `bluez_add_property`: either nothing was
touched, or the slots of the given proxy were rewritten by the store loop,
after which the callback, if it ran, wrote only what the state machine
owns. -/
theorem add_property_shape (fuel : Nat) (bus : Bus) (w w1 : World) (r : Role) (name : String)
    (iter : DBusMessageIter) (send_changed : Bool)
    (h : bluez_add_property fuel bus w r name iter send_changed = some w1) :
    w1 = w ∨
    ∃ value slots, iter.head? = some (.variant value) ∧
      storeLoop ((w.proxy r).property.take MAX_PROPERTIES) name value = some slots ∧
      (w1.proxy r).property = slots ++ (w.proxy r).property.drop MAX_PROPERTIES ∧
      ∀ r1, r1 ≠ r → w1.proxy r1 = w.proxy r1 := by
  cases iter with
  | nil => left; simp [bluez_add_property] at h; exact h.symm
  | cons v rest =>
    cases v with
    | variant value =>
      cases hstore : storeLoop ((w.proxy r).property.take MAX_PROPERTIES) name value with
      | none => left; simp [bluez_add_property, hstore] at h; exact h.symm
      | some slots =>
        right
        refine ⟨value, slots, rfl, hstore, ?_⟩
        simp only [bluez_add_property, hstore] at h
        have hbase : ∀ x : World,
            x = w.setProxy r { w.proxy r with
              property := slots ++ (w.proxy r).property.drop MAX_PROPERTIES } →
            (x.proxy r).property = slots ++ (w.proxy r).property.drop MAX_PROPERTIES ∧
              ∀ r1, r1 ≠ r → x.proxy r1 = w.proxy r1 := by
          intro x hx
          subst hx
          exact ⟨by rw [proxy_setProxy_same], fun r1 hr1 => proxy_setProxy_other _ _ _ _ hr1⟩
        split at h
        · cases h
          exact hbase _ rfl
        · split at h
          · cases h
            exact hbase _ rfl
          · have hsame := propertyChanged_sameTables bus _ w1 _ _ _ fuel h
            obtain ⟨b1, b2⟩ := hbase _ rfl
            constructor
            · rw [sameTables_proxy _ w1 hsame r]
              exact b1
            · intro r1 hr1
              rw [sameTables_proxy _ w1 hsame r1]
              exact b2 r1 hr1
    | _ => left; simp [bluez_add_property] at h; exact h.symm

/-- With the slot names of the static initialisers, the declared names of a
proxy are those of its role and the terminator is among the slots
examined. -/
theorem declaredNames_static (w : World) (r : Role)
    (hnames : (w.proxy r).property.map prop_entry.name =
      (World.init.proxy r).property.map prop_entry.name) :
    declaredNames (w.proxy r) = staticNames r ∧
      "" ∈ ((w.proxy r).property.take MAX_PROPERTIES).map prop_entry.name := by
  unfold declaredNames
  rw [List.map_take, hnames]
  cases r <;> decide

/-- C13: with the property slots named as in the static initialisers
(controller: `Powered`, `Discovering`; peripheral: `RSSI`, `Connected`,
`ServicesResolved`; notify characteristic: `NotifyAcquired`; write
characteristic: none), for every proxy and every name and value given to
`bluez_add_property`, with or without `send_changed`: a name that is not
declared for the proxy makes the function return with the whole program
state as it was, so no cache has changed and the change callback has not been
invoked; and whenever some proxy's cache differs after the call, it is the
cache of the proxy given and the name is one of its declared names. -/
theorem C13_property_whitelist (fuel : Nat) (bus : Bus) (w : World) (r : Role)
    (name : String) (iter : DBusMessageIter) (send_changed : Bool)
    (hnames : (w.proxy r).property.map prop_entry.name =
      (World.init.proxy r).property.map prop_entry.name) :
    declaredNames (w.proxy r) = staticNames r ∧
    (name ∉ staticNames r →
      bluez_add_property fuel bus w r name iter send_changed = some w) ∧
    (∀ w1, bluez_add_property fuel bus w r name iter send_changed = some w1 →
      (∀ r1, (w1.proxy r1).cache ≠ (w.proxy r1).cache → r1 = r ∧ name ∈ staticNames r) ∧
      (name ∉ staticNames r → w1.propertyCallbackCalls = w.propertyCallbackCalls)) := by
  obtain ⟨hdecl, hterm⟩ := declaredNames_static w r hnames
  have hnone : name ∉ staticNames r → ∀ value,
      storeLoop ((w.proxy r).property.take MAX_PROPERTIES) name value = none := by
    intro hnot value
    apply storeLoop_undeclared name value _ hterm
    rw [← hdecl] at hnot
    exact hnot
  have hskip : name ∉ staticNames r →
      bluez_add_property fuel bus w r name iter send_changed = some w := by
    intro hnot
    cases iter with
    | nil => rfl
    | cons v rest =>
      cases v with
      | variant value => simp [bluez_add_property, hnone hnot value]
      | _ => rfl
  refine ⟨hdecl, hskip, ?_⟩
  intro w1 h
  constructor
  · intro r1 hdiff
    rcases add_property_shape fuel bus w w1 r name iter send_changed h with heq | hshape
    · subst heq
      exact absurd rfl hdiff
    · obtain ⟨value, slots, _, hstore, _, hothers⟩ := hshape
      constructor
      · by_contra hr1
        exact hdiff (by rw [hothers r1 hr1])
      · by_contra hnot
        rw [hnone hnot value] at hstore
        cases hstore
  · intro hnot
    rw [hskip hnot] at h
    cases h
    rfl

/-- C13, witness: the controller proxy of a running session is told a
property `Name`, which it does not declare. -/
theorem C13_property_whitelist_witness :
    ((sampleSession .STATE_SCAN true false).proxy .adapter).property.map prop_entry.name =
      (World.init.proxy .adapter).property.map prop_entry.name ∧
    (declaredNames ((sampleSession .STATE_SCAN true false).proxy .adapter)
        = staticNames .adapter ∧
    ("Name" ∉ staticNames .adapter →
      bluez_add_property 4 Bus.reliable (sampleSession .STATE_SCAN true false) .adapter "Name"
        [.variant (.string "hci0")] true = some (sampleSession .STATE_SCAN true false)) ∧
    (∀ w1, bluez_add_property 4 Bus.reliable (sampleSession .STATE_SCAN true false) .adapter
        "Name" [.variant (.string "hci0")] true = some w1 →
      (∀ r1, (w1.proxy r1).cache ≠ ((sampleSession .STATE_SCAN true false).proxy r1).cache →
        r1 = .adapter ∧ "Name" ∈ staticNames .adapter) ∧
      ("Name" ∉ staticNames .adapter →
        w1.propertyCallbackCalls =
          (sampleSession .STATE_SCAN true false).propertyCallbackCalls))) :=
  ⟨by decide,
   C13_property_whitelist 4 Bus.reliable (sampleSession .STATE_SCAN true false) .adapter
     "Name" [.variant (.string "hci0")] true (by decide)⟩

/-! ## Live updates -/

theorem take_stored (props slots : List prop_entry) (n : Nat)
    (hl : slots.length = (props.take n).length) :
    (slots ++ props.drop n).take n = slots := by
  rw [List.length_take] at hl
  by_cases hn : n ≤ props.length
  · have : slots.length = n := by omega
    exact List.take_left' this
  · have hdrop : props.drop n = [] := List.drop_eq_nil_of_le (by omega)
    rw [hdrop, List.append_nil]
    exact List.take_of_length_le (by omega)

theorem triState_not_one (value : DBusValue) (h : triState value ≠ 1) :
    value ≠ .boolean true := by
  intro hv
  subst hv
  exact h rfl

/-- C14: for a live update (`send_changed` true, `propertyChanged`
registered as change callback) of a declared property on a bound proxy,
`bluez_add_property` returns, the proxy's cache then yields the new value
under that name, and the change callback has been invoked exactly once, with
the proxy's interface, the property name and the tri-state value: 1 for
boolean true, 0 for boolean false, -1 for a value of any other type. -/
theorem C14_live_update_raises_change (fuel : Nat) (bus : Bus) (w : World) (r : Role)
    (name : String) (value : DBusValue) (rest : DBusMessageIter)
    (hnames : (w.proxy r).property.map prop_entry.name =
      (World.init.proxy r).property.map prop_entry.name)
    (hdecl : name ∈ staticNames r)
    (hclient : (w.proxy r).client = true)
    (hcb : w.propertyCallback = some .propertyChanged) :
    ∃ w1, bluez_add_property (fuel + 4) bus w r name (.variant value :: rest) true = some w1 ∧
      bluez_proxy_get_property w1 (some r) (some name) = some value ∧
      w1.propertyCallbackCalls = w.propertyCallbackCalls ++
        [{ interface := (w.proxy r).interface, name := name, value := triState value }] ∧
      (value = .boolean true → triState value = 1) ∧
      (value = .boolean false → triState value = 0) ∧
      (value.argType ≠ DBUS_TYPE_BOOLEAN → triState value = -1) := by
  obtain ⟨hdn, -⟩ := declaredNames_static w r hnames
  have hmem : name ∈ (((w.proxy r).property.take MAX_PROPERTIES).map prop_entry.name).takeWhile
      (fun n => n ≠ "") := by
    have : name ∈ declaredNames (w.proxy r) := by rw [hdn]; exact hdecl
    exact this
  obtain ⟨slots, e, hstore, hfind, hmsg, -, hlen⟩ :=
    storeLoop_declared name value _ hmem
  have htake : (slots ++ (w.proxy r).property.drop MAX_PROPERTIES).take MAX_PROPERTIES = slots :=
    take_stored _ _ _ hlen
  -- the state after the value has been stored
  obtain ⟨W, hW⟩ : ∃ W : World, W = w.setProxy r { w.proxy r with
      property := slots ++ (w.proxy r).property.drop MAX_PROPERTIES } := ⟨_, rfl⟩
  have hWp : (W.proxy r).property = slots ++ (w.proxy r).property.drop MAX_PROPERTIES := by
    rw [hW, proxy_setProxy_same]
  have hWi : (W.proxy r).interface = (w.proxy r).interface := by
    rw [hW, proxy_setProxy_same]
  have hWcb : W.propertyCallback = some .propertyChanged := by
    rw [hW, (setProxy_fields w r _).2.2.1]
    exact hcb
  have hWcc : W.propertyCallbackCalls = w.propertyCallbackCalls := by
    rw [hW, (setProxy_fields w r _).2.2.2.1]
  have hdef : bluez_add_property (fuel + 4) bus w r name (.variant value :: rest) true =
      propertyChanged (fuel + 4) bus
        { W with propertyCallbackCalls := W.propertyCallbackCalls ++
            [{ interface := (W.proxy r).interface, name := name, value := triState value }] }
        (W.proxy r).interface name (triState value) := by
    subst hW
    simp only [bluez_add_property, hstore]
    split
    · rename_i h
      rcases h with h | h
      · rw [hclient] at h
        cases h
      · cases h
    · split
      · rename_i h
        rw [hWcb] at h
        cases h
      · rfl
  have hget : ∀ x : World, (x.proxy r).property = (W.proxy r).property →
      bluez_proxy_get_property x (some r) (some name) = some value := by
    intro x hx
    simp only [bluez_proxy_get_property, hx, hWp, htake, hfind, hmsg]
  have hsafe : (W.proxy r).interface = "org.bluez.Device1" → name = "Connected" →
      triState value ≠ 1 →
      (bluez_read_property_boolean
        { W with propertyCallbackCalls := W.propertyCallbackCalls ++
            [{ interface := (W.proxy r).interface, name := name, value := triState value }] }
        (some .device) (some "Connected") (some false)).2 ≠ some true := by
    intro _ hname htri
    have hr : r = .device := by
      rw [hname] at hdecl
      cases r
      · simp [staticNames] at hdecl
      · rfl
      · simp [staticNames] at hdecl
      · simp [staticNames] at hdecl
    have hg := hget
      { W with propertyCallbackCalls := W.propertyCallbackCalls ++
          [{ interface := (W.proxy r).interface, name := name, value := triState value }] }
      (by cases r <;> rfl)
    have hne := triState_not_one value htri
    rw [← hr, ← hname]
    simp only [bluez_read_property_boolean, hg]
    cases value with
    | boolean b =>
      cases b
      · intro h
        cases h
      · exact absurd rfl hne
    | _ =>
      intro h
      cases h
  obtain ⟨w1, hrun, hsame⟩ := propertyChanged_returns bus
    { W with propertyCallbackCalls := W.propertyCallbackCalls ++
        [{ interface := (W.proxy r).interface, name := name, value := triState value }] }
    (W.proxy r).interface name (triState value) fuel hsafe
  refine ⟨w1, ?_, ?_, ?_, ?_, ?_, ?_⟩
  · rw [hdef]
    exact hrun
  · apply hget
    rw [sameTables_proxy _ w1 hsame r]
    cases r <;> rfl
  · rw [hsame.2.2.2.2.2.2.2.2.1]
    show W.propertyCallbackCalls ++ _ = _
    rw [hWcc, hWi]
  · intro hv; subst hv; rfl
  · intro hv; subst hv; rfl
  · intro hv
    cases value <;> first | rfl | exact absurd rfl hv

/-- C14, witness: while the session is in `STATE_ROCK_N_ROLL` with the peripheral
cached as connected, the bus reports `Connected` false on the peripheral. -/
theorem C14_live_update_raises_change_witness :
    ((sampleSession .STATE_ROCK_N_ROLL true true).proxy .device).property.map prop_entry.name =
      (World.init.proxy .device).property.map prop_entry.name ∧
    "Connected" ∈ staticNames .device ∧
    ((sampleSession .STATE_ROCK_N_ROLL true true).proxy .device).client = true ∧
    (sampleSession .STATE_ROCK_N_ROLL true true).propertyCallback = some .propertyChanged ∧
    ∃ w1, bluez_add_property (0 + 4) Bus.reliable (sampleSession .STATE_ROCK_N_ROLL true true) .device
        "Connected" (.variant (.boolean false) :: []) true = some w1 ∧
      bluez_proxy_get_property w1 (some .device) (some "Connected") = some (.boolean false) ∧
      w1.propertyCallbackCalls = (sampleSession .STATE_ROCK_N_ROLL true true).propertyCallbackCalls ++
        [{ interface := ((sampleSession .STATE_ROCK_N_ROLL true true).proxy .device).interface,
           name := "Connected", value := triState (.boolean false) }] ∧
      (DBusValue.boolean false = .boolean true → triState (.boolean false) = 1) ∧
      (DBusValue.boolean false = .boolean false → triState (.boolean false) = 0) ∧
      ((DBusValue.boolean false).argType ≠ DBUS_TYPE_BOOLEAN → triState (.boolean false) = -1) :=
  ⟨by decide, by decide, by decide, by decide,
   C14_live_update_raises_change 0 Bus.reliable (sampleSession .STATE_ROCK_N_ROLL true true) .device
     "Connected" (.boolean false) [] (by decide) (by decide) (by decide) (by decide)⟩

/-! ## The proxy-table invariant under binding -/

theorem cachedOnlyIfBound_iff (w : World) :
    w.cachedOnlyIfBound = true ↔
      ∀ r, (w.proxy r).client = true ∨ (w.proxy r).cacheEmpty = true := by
  constructor
  · intro h r
    simp only [World.cachedOnlyIfBound, List.all_cons, List.all_nil, Bool.and_true,
      Bool.and_eq_true, Bool.or_eq_true] at h
    obtain ⟨h1, h2, h3, h4⟩ := h
    cases r
    · exact h1
    · exact h2
    · exact h3
    · exact h4
  · intro h
    simp only [World.cachedOnlyIfBound, List.all_cons, List.all_nil, Bool.and_true,
      Bool.and_eq_true, Bool.or_eq_true]
    exact ⟨h .adapter, h .device, h .characteristicRd, h .characteristicWr⟩

/-- Screening and bulk load preserve the proxy-table invariant: the proxy
they load is the one they have just given a client. -/
theorem parse_properties_cachedOnlyIfBound (fuel : Nat) (bus : Bus) (w w1 : World)
    (path interface : String) (iter : DBusMessageIter) (watch : Nat)
    (hinv : w.cachedOnlyIfBound = true)
    (h : parse_properties fuel bus w path interface iter watch = some w1) :
    w1.cachedOnlyIfBound = true := by
  cases hrole : screenRole interface iter with
  | none =>
    rw [parse_properties_none fuel bus w path interface iter watch
      (Or.inr (Or.inr hrole))] at h
    cases h
    exact hinv
  | some r =>
    obtain ⟨w2, slots, hrun, hp, _, hothers, _⟩ :=
      parse_properties_some fuel bus w path interface iter watch r hrole
    rw [hrun] at h
    cases h
    rw [cachedOnlyIfBound_iff] at hinv ⊢
    intro r1
    by_cases hr1 : r1 = r
    · subst hr1
      left
      rw [hp]
    · rw [hothers r1 hr1]
      exact hinv r1

/-- The function `bluez_add_property` never writes the client of a proxy. -/
theorem add_property_client (fuel : Nat) (bus : Bus) (w w1 : World) (r : Role) (name : String)
    (iter : DBusMessageIter) (send_changed : Bool)
    (h : bluez_add_property fuel bus w r name iter send_changed = some w1) :
    (w1.proxy r).client = (w.proxy r).client := by
  rcases add_property_shape fuel bus w w1 r name iter send_changed h with heq | hshape
  · rw [heq]
  · obtain ⟨value, slots, hhead, hstore, _, _⟩ := hshape
    cases iter with
    | nil => cases hhead
    | cons v rest =>
      cases hhead
      simp only [bluez_add_property, hstore] at h
      have hbase : ∀ x : World,
          x = w.setProxy r { w.proxy r with
            property := slots ++ (w.proxy r).property.drop MAX_PROPERTIES } →
          (x.proxy r).client = (w.proxy r).client := by
        intro x hx
        subst hx
        rw [proxy_setProxy_same]
      split at h
      · cases h
        exact hbase _ rfl
      · split at h
        · cases h
          exact hbase _ rfl
        · have hsame := propertyChanged_sameTables bus _ w1 _ _ _ fuel h
          have b := hbase _ rfl
          rw [sameTables_proxy _ w1 hsame r]
          exact b

/-- The loop of `update_properties` writes only the proxy given, and never
its client. -/
theorem updateEntries_frame (fuel : Nat) (bus : Bus) (r : Role) (send_changed : Bool)
    (iter : DBusMessageIter) :
    ∀ w w1 : World, updateEntries fuel bus r send_changed w iter = some w1 →
      (w1.proxy r).client = (w.proxy r).client ∧
      ∀ r1, r1 ≠ r → w1.proxy r1 = w.proxy r1 := by
  induction iter with
  | nil =>
    intro w w1 h
    simp only [updateEntries] at h
    cases h
    exact ⟨rfl, fun _ _ => rfl⟩
  | cons e rest ih =>
    intro w w1 h
    simp only [updateEntries] at h
    split at h
    · cases h
      exact ⟨rfl, fun _ _ => rfl⟩
    · split at h
      · cases h
        exact ⟨rfl, fun _ _ => rfl⟩
      · split at h
        · cases hadd : bluez_add_property fuel bus w r _
            (bluez_dbus_msg_recurse (e :: rest) DBUS_TYPE_STRING).2.2 send_changed with
          | none =>
            rw [hadd] at h
            cases h
          | some w2 =>
            rw [hadd] at h
            obtain ⟨c1, o1⟩ := ih w2 w1 h
            have c2 := add_property_client fuel bus w w2 r _ _ send_changed hadd
            refine ⟨by rw [c1, c2], ?_⟩
            intro r1 hr1
            rw [o1 r1 hr1]
            rcases add_property_shape fuel bus w w2 r _ _ send_changed hadd with heq | hshape
            · rw [heq]
            · exact hshape.choose_spec.choose_spec.2.2.2 r1 hr1
        · cases h
          exact ⟨rfl, fun _ _ => rfl⟩

/-- A live update on a proxy that has a client preserves the proxy-table
invariant. -/
theorem properties_changed_cachedOnlyIfBound (fuel : Nat) (bus : Bus) (w w1 : World)
    (r : Role) (args : DBusMessageIter)
    (hinv : w.cachedOnlyIfBound = true) (hclient : (w.proxy r).client = true)
    (h : properties_changed fuel bus w r args = some w1) :
    w1.cachedOnlyIfBound = true := by
  have hframe : (w1.proxy r).client = (w.proxy r).client ∧
      ∀ r1, r1 ≠ r → w1.proxy r1 = w.proxy r1 := by
    simp only [properties_changed] at h
    split at h
    · cases h
      exact ⟨rfl, fun _ _ => rfl⟩
    · simp only [update_properties] at h
      split at h
      · cases h
        exact ⟨rfl, fun _ _ => rfl⟩
      · exact updateEntries_frame fuel bus r true _ w w1 h
  rw [cachedOnlyIfBound_iff] at hinv ⊢
  intro r1
  by_cases hr1 : r1 = r
  · subst hr1
    left
    rw [hframe.1]
    exact hclient
  · rw [hframe.2 r1 hr1]
    exact hinv r1

/-! ## The reply to `AcquireNotify` -/

theorem argType_unixFd (v : DBusValue) :
    v.argType = DBUS_TYPE_UNIX_FD ↔ ∃ fd, v = .unixFd fd := by
  cases v <;>
    simp [DBusValue.argType, DBUS_TYPE_INVALID, DBUS_TYPE_BYTE, DBUS_TYPE_BOOLEAN,
      DBUS_TYPE_INT16, DBUS_TYPE_UINT16, DBUS_TYPE_INT32, DBUS_TYPE_UINT32, DBUS_TYPE_INT64,
      DBUS_TYPE_UINT64, DBUS_TYPE_DOUBLE, DBUS_TYPE_STRING, DBUS_TYPE_OBJECT_PATH,
      DBUS_TYPE_SIGNATURE, DBUS_TYPE_UNIX_FD, DBUS_TYPE_ARRAY, DBUS_TYPE_VARIANT,
      DBUS_TYPE_STRUCT, DBUS_TYPE_DICT_ENTRY]

theorem argType_uint16 (v : DBusValue) :
    v.argType = DBUS_TYPE_UINT16 ↔ ∃ n, v = .uint16 n := by
  cases v <;>
    simp [DBusValue.argType, DBUS_TYPE_INVALID, DBUS_TYPE_BYTE, DBUS_TYPE_BOOLEAN,
      DBUS_TYPE_INT16, DBUS_TYPE_UINT16, DBUS_TYPE_INT32, DBUS_TYPE_UINT32, DBUS_TYPE_INT64,
      DBUS_TYPE_UINT64, DBUS_TYPE_DOUBLE, DBUS_TYPE_STRING, DBUS_TYPE_OBJECT_PATH,
      DBUS_TYPE_SIGNATURE, DBUS_TYPE_UNIX_FD, DBUS_TYPE_ARRAY, DBUS_TYPE_VARIANT,
      DBUS_TYPE_STRUCT, DBUS_TYPE_DICT_ENTRY]

/-- What `dbus_message_get_args` gives for the two types `acquire_notify_reply`
asks for: the descriptor and the MTU when the message starts with them, and a
failure for every other argument list. -/
theorem get_args_fd_mtu (args : List DBusValue) :
    (∃ fd mtu rest, args = .unixFd fd :: .uint16 mtu :: rest ∧
      dbus_message_get_args args [DBUS_TYPE_UNIX_FD, DBUS_TYPE_UINT16] =
        some [.unixFd fd, .uint16 mtu]) ∨
    ((¬ ∃ fd mtu rest, args = .unixFd fd :: .uint16 mtu :: rest) ∧
      dbus_message_get_args args [DBUS_TYPE_UNIX_FD, DBUS_TYPE_UINT16] = none) := by
  cases args with
  | nil => right; exact ⟨by simp, rfl⟩
  | cons a as =>
    by_cases ha : a.argType = DBUS_TYPE_UNIX_FD
    · obtain ⟨fd, rfl⟩ := (argType_unixFd a).1 ha
      cases as with
      | nil =>
        right
        exact ⟨by simp, by simp [dbus_message_get_args, ha]⟩
      | cons b bs =>
        by_cases hb : b.argType = DBUS_TYPE_UINT16
        · obtain ⟨n, rfl⟩ := (argType_uint16 b).1 hb
          left
          exact ⟨fd, n, bs, rfl, by simp [dbus_message_get_args, ha, hb]⟩
        · right
          constructor
          · rintro ⟨fd1, m, rest, h⟩
            simp only [List.cons.injEq] at h
            exact hb ((argType_uint16 b).2 ⟨m, h.2.1⟩)
          · simp [dbus_message_get_args, ha, hb]
    · right
      constructor
      · rintro ⟨fd1, m, rest, h⟩
        simp only [List.cons.injEq] at h
        exact ha ((argType_unixFd a).2 ⟨fd1, h.1⟩)
      · simp [dbus_message_get_args, ha]

/-- A reply that is not an error and starts with a descriptor and a 16-bit
MTU replaces the reader by one on the new descriptor and records the MTU. -/
theorem acquire_notify_reply_success (w : World) (message : DBusMessage) (fd : Int) (mtu : Nat)
    (rest : List DBusValue) (herr : dbus_set_error_from_message message = false)
    (hargs : message.args = .unixFd fd :: .uint16 mtu :: rest) :
    (acquire_notify_reply w message).notify_io =
      { w.notify_io with fd := pipe_io_new fd, mtu := mtu % 2 ^ 16 } := by
  rcases get_args_fd_mtu message.args with ⟨fd1, mtu1, rest1, h1, h2⟩ | ⟨h1, _⟩
  · rw [hargs] at h1
    simp only [List.cons.injEq, DBusValue.unixFd.injEq, DBusValue.uint16.injEq] at h1
    obtain ⟨rfl, rfl, _⟩ := h1
    simp only [acquire_notify_reply, herr, h2]
    rfl
  · exact absurd ⟨fd, mtu, rest, hargs⟩ h1

/-- C21 (as amended): a bus error reply leaves the whole program state, the
notification channel included, as it was before the reply, so the reply opens
no channel and none is open after it if none was open before it; a reply that
is not an error and whose arguments do not start with a descriptor followed
by a 16-bit MTU leaves the channel without open reader (`notify_io.io` null)
and with MTU 0, whatever the channel state was before the reply. -/
theorem C21_failed_acquire_opens_no_channel (w : World) (message : DBusMessage) :
    (dbus_set_error_from_message message = true →
      acquire_notify_reply w message = w ∧
      (w.notify_io.fd = none → (acquire_notify_reply w message).notify_io.fd = none)) ∧
    (dbus_set_error_from_message message = false →
      (¬ ∃ fd mtu rest, message.args = .unixFd fd :: .uint16 mtu :: rest) →
      (acquire_notify_reply w message).notify_io.fd = none ∧
      (acquire_notify_reply w message).notify_io.mtu = 0 ∧
      (acquire_notify_reply w message).notify_io.cb = w.notify_io.cb ∧
      (acquire_notify_reply w message).notify_io.proxy = w.notify_io.proxy) := by
  constructor
  · intro herr
    have h : acquire_notify_reply w message = w := by
      simp only [acquire_notify_reply, herr, if_true]
    exact ⟨h, fun hnone => by rw [h]; exact hnone⟩
  · intro herr hargs
    rcases get_args_fd_mtu message.args with ⟨fd, mtu, rest, h1, _⟩ | ⟨_, h2⟩
    · exact absurd ⟨fd, mtu, rest, h1⟩ hargs
    · simp only [acquire_notify_reply, herr, h2]
      exact ⟨rfl, rfl, rfl, rfl⟩

/-- C21, counterexample to the claim as stated: a successful reply opens the
reader on descriptor 7; a bus error reply handled after it (a second
`AcquireNotify` refused by the peripheral's daemon) leaves that reader open,
so after a failed acquire `notify_io.io` is not null.  A malformed reply in
the same place does close it. -/
theorem C21_counterexample :
    dbus_set_error_from_message sampleAcquireError = true ∧
    (acquire_notify_reply World.init sampleAcquireReturn).notify_io.fd = some 7 ∧
    (acquire_notify_reply (acquire_notify_reply World.init sampleAcquireReturn)
        sampleAcquireError).notify_io.fd = some 7 ∧
    (acquire_notify_reply (acquire_notify_reply World.init sampleAcquireReturn)
        sampleAcquireError).notify_io.fd ≠ none ∧
    (acquire_notify_reply (acquire_notify_reply World.init sampleAcquireReturn)
        sampleAcquireMalformed).notify_io.fd = none := by
  decide

/-! ## Termination of the loop of `bleState` -/

/-- On an event other than `DEVICE_DISCONNECTED`, a pass that goes round
again has moved the machine to a strictly later state. -/
theorem iter_again_later (bus : Bus) (w w1 : World) (event : Event)
    (hd : event ≠ .DEVICE_DISCONNECTED) (h : bleStateIter bus w event = .again w1) :
    w.currentState.toNat < w1.currentState.toNat := by
  rw [bleStateIter_other bus w event hd] at h
  cases hs : w.currentState <;> rw [hs] at h <;> simp only at h <;>
    (try split at h) <;> (try split at h) <;>
    (cases h <;> simp [State.toNat])

/-- On an event other than `DEVICE_DISCONNECTED`, every state a call enters
is the starting state or a later one. -/
theorem entered_from (bus : Bus) (event : Event) (hd : event ≠ .DEVICE_DISCONNECTED) :
    ∀ (fuel : Nat) (w : World) (s : State), s ∈ bleStateEntered fuel bus w event →
      w.currentState.toNat ≤ s.toNat := by
  intro fuel
  induction fuel with
  | zero => intro w s h; simp [bleStateEntered] at h
  | succ n ih =>
    intro w s h
    simp only [bleStateEntered, if_neg hd] at h
    cases hstep : bleStateIter bus w event with
    | ret w1 =>
      rw [hstep] at h
      simp only [List.mem_singleton] at h
      rw [h]
    | again w1 =>
      rw [hstep] at h
      simp only [List.mem_cons] at h
      rcases h with h | h
      · rw [h]
      · have h1 := ih w1 s h
        have h2 := iter_again_later bus w w1 event hd hstep
        omega

/-- On an event other than `DEVICE_DISCONNECTED`, no state is entered twice
in one call. -/
theorem entered_nodup (bus : Bus) (event : Event) (hd : event ≠ .DEVICE_DISCONNECTED) :
    ∀ (fuel : Nat) (w : World), (bleStateEntered fuel bus w event).Nodup := by
  intro fuel
  induction fuel with
  | zero => intro w; simp [bleStateEntered]
  | succ n ih =>
    intro w
    simp only [bleStateEntered, if_neg hd]
    cases hstep : bleStateIter bus w event with
    | ret w1 => simp
    | again w1 =>
      simp only [List.nodup_cons]
      refine ⟨?_, ih w1⟩
      intro hmem
      have h1 := entered_from bus event hd n w1 _ hmem
      have h2 := iter_again_later bus w w1 event hd hstep
      omega

/-- C22: for every starting state, every event, every outcome of the requests
and every outcome of the property reads the call can meet (on
`DEVICE_DISCONNECTED` the peripheral's `Connected` does not read as true,
because the event is raised only after the new value has been stored),
`bleState` returns within four passes of its loop, and no state is entered
twice on the way: the switch runs the case of each state at most once. -/
theorem C22_loop_terminates (bus : Bus) (w : World) (event : Event) (fuel : Nat)
    (hread : event = .DEVICE_DISCONNECTED →
      (bluez_read_property_boolean w (some .device) (some "Connected") (some false)).2
        ≠ some true) :
    ∃ w1, bleState (fuel + 4) bus w event = some w1 ∧
      bleState 4 bus w event = some w1 ∧
      (bleStateEntered (fuel + 4) bus w event).Nodup ∧
      (bleStateEntered (fuel + 4) bus w event).length ≤ 4 ∧
      bleStateEntered (fuel + 4) bus w event = bleStateEntered 4 bus w event := by
  have hlen : ∀ (n : Nat) (w0 : World), passesNeeded w0.currentState ≤ n →
      event ≠ .DEVICE_DISCONNECTED →
      (bleStateEntered n bus w0 event).length ≤ passesNeeded w0.currentState ∧
      ∀ k, bleStateEntered (n + k) bus w0 event = bleStateEntered n bus w0 event := by
    intro n
    induction n with
    | zero =>
      intro w0 h _
      cases hs : w0.currentState <;> rw [hs] at h <;> simp [passesNeeded] at h
    | succ n ih =>
      intro w0 h hd
      cases hstep : bleStateIter bus w0 event with
      | ret w2 =>
        refine ⟨?_, fun k => ?_⟩
        · simp only [bleStateEntered, hstep, List.length_singleton]
          cases hs : w0.currentState <;> simp [passesNeeded]
        · have hk : n + 1 + k = (n + k) + 1 := by omega
          rw [hk]
          simp only [bleStateEntered, hstep]
      | again w2 =>
        obtain ⟨_, hp⟩ := iter_again_progress bus w0 w2 event hd hstep
        obtain ⟨l1, l2⟩ := ih w2 (by omega) hd
        refine ⟨?_, fun k => ?_⟩
        · simp only [bleStateEntered, hstep, List.length_cons]
          omega
        · have hk : n + 1 + k = (n + k) + 1 := by omega
          rw [hk]
          simp only [bleStateEntered, hstep, l2 k]
  by_cases hd : event = .DEVICE_DISCONNECTED
  · subst hd
    have hr := hread rfl
    have hiter : bleStateIter bus w .DEVICE_DISCONNECTED =
        .ret (bluez_scan bus { w with currentState := .STATE_SCAN } true) := by
      rw [bleStateIter_disconnected, if_pos hr]
    refine ⟨_, disconnected_scans bus w (fuel + 3) hr, disconnected_scans bus w 3 hr, ?_, ?_, ?_⟩
    · simp [bleStateEntered, hiter]
    · simp [bleStateEntered, hiter]
    · simp [bleStateEntered, hiter]
  · have h4 := passesNeeded_le_four w.currentState
    obtain ⟨w1, h, _⟩ := bleState_forward bus event hd 4 w h4
    have hfull := bleState_fuel_mono bus event 4 w w1 h fuel
    obtain ⟨l1, l2⟩ := hlen 4 w h4 hd
    refine ⟨w1, ?_, h, entered_nodup bus event hd _ w, ?_, ?_⟩
    · rw [Nat.add_comm]
      exact hfull
    · rw [Nat.add_comm, l2 fuel]
      omega
    · rw [Nat.add_comm]
      exact l2 fuel

/-- C22, witness: `DEVICE_DISCONNECTED` in the active session once `Connected`
has been stored as false; the call returns after the one pass through
`STATE_CONTROLLER_ON`. -/
theorem C22_loop_terminates_witness :
    (Event.DEVICE_DISCONNECTED = .DEVICE_DISCONNECTED →
      (bluez_read_property_boolean (sampleWorld .STATE_ROCK_N_ROLL true false) (some .device)
        (some "Connected") (some false)).2 ≠ some true) ∧
    ∃ w1, bleState (0 + 4) Bus.reliable (sampleWorld .STATE_ROCK_N_ROLL true false)
        .DEVICE_DISCONNECTED = some w1 ∧
      bleState 4 Bus.reliable (sampleWorld .STATE_ROCK_N_ROLL true false)
        .DEVICE_DISCONNECTED = some w1 ∧
      (bleStateEntered (0 + 4) Bus.reliable (sampleWorld .STATE_ROCK_N_ROLL true false)
        .DEVICE_DISCONNECTED).Nodup ∧
      (bleStateEntered (0 + 4) Bus.reliable (sampleWorld .STATE_ROCK_N_ROLL true false)
        .DEVICE_DISCONNECTED).length ≤ 4 ∧
      bleStateEntered (0 + 4) Bus.reliable (sampleWorld .STATE_ROCK_N_ROLL true false)
          .DEVICE_DISCONNECTED =
        bleStateEntered 4 Bus.reliable (sampleWorld .STATE_ROCK_N_ROLL true false)
          .DEVICE_DISCONNECTED :=
  ⟨by decide,
   C22_loop_terminates Bus.reliable (sampleWorld .STATE_ROCK_N_ROLL true false)
     .DEVICE_DISCONNECTED 0 (by decide)⟩

/-- The passes of two calls on the sample session: `CLIENT_READY` from
`STATE_INIT` enters four states, `DEVICE_DISCONNECTED` in the active session
with `Connected` cached false enters `STATE_CONTROLLER_ON` alone. -/
theorem entered_samples :
    bleStateEntered 4 Bus.reliable (sampleWorld .STATE_INIT true true) .CLIENT_READY =
      [.STATE_INIT, .STATE_CONTROLLER_OFF, .STATE_CONTROLLER_ON, .STATE_CONNECTED] ∧
    bleStateEntered 4 Bus.reliable (sampleWorld .STATE_ROCK_N_ROLL true false)
      .DEVICE_DISCONNECTED = [.STATE_CONTROLLER_ON] := by
  decide

/-! ## Property changes as events -/

/-- The callback `propertyChanged` makes at most one call of `bleState`, with
the event its conditions select, and does nothing else. -/
theorem propertyChanged_event (fuel : Nat) (bus : Bus) (w : World) (interface name : String)
    (value : Int) :
    propertyChanged fuel bus w interface name value =
      match propertyChangedEvent interface name value with
      | some e => bleState fuel bus w e
      | none => some w := by
  by_cases hd : interface = "org.bluez.Device1"
  · by_cases h1 : name = "ServicesResolved"
    · subst hd h1
      by_cases hv : value = 1
      · simp +decide [propertyChanged, propertyChangedEvent, hv]
      · simp +decide [propertyChanged, propertyChangedEvent, hv]
    · by_cases h2 : name = "RSSI"
      · subst hd h2
        simp +decide [propertyChanged, propertyChangedEvent]
      · by_cases h3 : name = "Connected"
        · subst hd h3
          by_cases hv : value = 1
          · simp +decide [propertyChanged, propertyChangedEvent, hv]
          · simp +decide [propertyChanged, propertyChangedEvent, hv]
        · simp [propertyChanged, propertyChangedEvent, hd, h1, h2, h3]
  · by_cases ha : interface = "org.bluez.Adapter1"
    · by_cases h1 : name = "Powered"
      · subst ha h1
        by_cases hv : value = 1
        · simp +decide [propertyChanged, propertyChangedEvent, hv]
        · simp +decide [propertyChanged, propertyChangedEvent, hv]
      · by_cases h2 : name = "Discovering"
        · subst ha h2
          by_cases hv : value = 1
          · simp +decide [propertyChanged, propertyChangedEvent, hv]
          · simp +decide [propertyChanged, propertyChangedEvent, hv]
        · simp [propertyChanged, propertyChangedEvent, hd, ha, h1, h2]
    · by_cases hg : interface = "org.bluez.GattCharacteristic1"
      · by_cases h1 : name = "NotifyAcquired"
        · subst hg h1
          by_cases hv : value = 1
          · simp +decide [propertyChanged, propertyChangedEvent, hv]
          · simp +decide [propertyChanged, propertyChangedEvent, hv]
        · simp [propertyChanged, propertyChangedEvent, hd, ha, hg, h1]
      · simp [propertyChanged, propertyChangedEvent, hd, ha, hg]

/-- On boolean changes (tri-state 0 or 1) and on `RSSI` of the peripheral the
conditions of `propertyChanged` select the event of the specification's
table. -/
theorem event_table_agrees (interface name : String) (value : Int)
    (hv : value = 0 ∨ value = 1 ∨ (interface = "org.bluez.Device1" ∧ name = "RSSI")) :
    propertyChangedEvent interface name value = specEventTable interface name value := by
  by_cases hd : interface = "org.bluez.Device1"
  · subst hd
    by_cases h2 : name = "RSSI"
    · subst h2
      simp +decide [propertyChangedEvent, specEventTable]
    · have hv1 : value = 0 ∨ value = 1 := by
        rcases hv with h | h | h
        · exact Or.inl h
        · exact Or.inr h
        · exact absurd h.2 h2
      by_cases h1 : name = "ServicesResolved"
      · subst h1
        rcases hv1 with rfl | rfl <;> simp +decide [propertyChangedEvent, specEventTable]
      · by_cases h3 : name = "Connected"
        · subst h3
          rcases hv1 with rfl | rfl <;> simp +decide [propertyChangedEvent, specEventTable]
        · simp +decide [propertyChangedEvent, specEventTable, h1, h2, h3]
  · have hv1 : value = 0 ∨ value = 1 := by
      rcases hv with h | h | h
      · exact Or.inl h
      · exact Or.inr h
      · exact absurd h.1 hd
    by_cases ha : interface = "org.bluez.Adapter1"
    · subst ha
      by_cases h1 : name = "Powered"
      · subst h1
        rcases hv1 with rfl | rfl <;> simp +decide [propertyChangedEvent, specEventTable]
      · by_cases h2 : name = "Discovering"
        · subst h2
          rcases hv1 with rfl | rfl <;> simp +decide [propertyChangedEvent, specEventTable]
        · simp +decide [propertyChangedEvent, specEventTable, h1, h2]
    · by_cases hg : interface = "org.bluez.GattCharacteristic1"
      · subst hg
        by_cases h1 : name = "NotifyAcquired"
        · subst h1
          rcases hv1 with rfl | rfl <;> simp +decide [propertyChangedEvent, specEventTable]
        · simp +decide [propertyChangedEvent, specEventTable, h1]
      · simp [propertyChangedEvent, specEventTable, hd, ha, hg]

/-- A change to a value that is not a boolean (tri-state -1) counts as "not
yes": on `Connected` of the peripheral it raises `DEVICE_DISCONNECTED` and on
`Discovering` of the controller `SCAN_STOPPED`. -/
theorem propertyChanged_not_boolean (fuel : Nat) (bus : Bus) (w : World) :
    propertyChanged fuel bus w "org.bluez.Device1" "Connected" (-1) =
      bleState fuel bus w .DEVICE_DISCONNECTED ∧
    propertyChanged fuel bus w "org.bluez.Adapter1" "Discovering" (-1) =
      bleState fuel bus w .SCAN_STOPPED := by
  constructor <;> rw [propertyChanged_event] <;> rfl

/-- C23: for a boolean property change (tri-state 0 or 1), and for `RSSI` of
the peripheral with any value, `propertyChanged` does exactly what the table
says: it makes one call of `bleState` with the event of the row that applies
(`org.bluez.Device1` `ServicesResolved` = 1: `DEVICE_READY`; `RSSI`:
`DEVICE_DETECTED`; `Connected` = 0: `DEVICE_DISCONNECTED`;
`org.bluez.Adapter1` `Powered` = 1: `POWER_ON`; `Discovering` = 0:
`SCAN_STOPPED`; `org.bluez.GattCharacteristic1` `NotifyAcquired` = 1:
`NOTIFY_ACQUIRED`) and returns with the program state untouched, raising no
event, when no row applies; in particular `ServicesResolved` = 0,
`Connected` = 1, `Powered` = 0, `Discovering` = 1 and `NotifyAcquired` = 0
raise nothing. -/
theorem C23_property_change_events (fuel : Nat) (bus : Bus) (w : World)
    (interface name : String) (value : Int)
    (hv : value = 0 ∨ value = 1 ∨ (interface = "org.bluez.Device1" ∧ name = "RSSI")) :
    (propertyChanged fuel bus w interface name value =
      match specEventTable interface name value with
      | some e => bleState fuel bus w e
      | none => some w) ∧
    propertyChanged fuel bus w "org.bluez.Device1" "ServicesResolved" 0 = some w ∧
    propertyChanged fuel bus w "org.bluez.Device1" "Connected" 1 = some w ∧
    propertyChanged fuel bus w "org.bluez.Adapter1" "Powered" 0 = some w ∧
    propertyChanged fuel bus w "org.bluez.Adapter1" "Discovering" 1 = some w ∧
    propertyChanged fuel bus w "org.bluez.GattCharacteristic1" "NotifyAcquired" 0 = some w := by
  refine ⟨?_, ?_, ?_, ?_, ?_, ?_⟩
  · rw [propertyChanged_event, event_table_agrees interface name value hv]
  all_goals rw [propertyChanged_event]; rfl

/-- C23, witness: the peripheral reports `Connected` true while the session
is connecting; no row of the table applies and nothing is raised. -/
theorem C23_property_change_events_witness :
    ((1 : Int) = 0 ∨ (1 : Int) = 1 ∨
      (("org.bluez.Device1" : String) = "org.bluez.Device1" ∧
        ("Connected" : String) = "RSSI")) ∧
    ((propertyChanged 4 Bus.reliable (sampleSession .STATE_CONNECTING true false)
        "org.bluez.Device1" "Connected" 1 =
      match specEventTable "org.bluez.Device1" "Connected" 1 with
      | some e => bleState 4 Bus.reliable (sampleSession .STATE_CONNECTING true false) e
      | none => some (sampleSession .STATE_CONNECTING true false)) ∧
    propertyChanged 4 Bus.reliable (sampleSession .STATE_CONNECTING true false)
      "org.bluez.Device1" "ServicesResolved" 0 =
        some (sampleSession .STATE_CONNECTING true false) ∧
    propertyChanged 4 Bus.reliable (sampleSession .STATE_CONNECTING true false)
      "org.bluez.Device1" "Connected" 1 = some (sampleSession .STATE_CONNECTING true false) ∧
    propertyChanged 4 Bus.reliable (sampleSession .STATE_CONNECTING true false)
      "org.bluez.Adapter1" "Powered" 0 = some (sampleSession .STATE_CONNECTING true false) ∧
    propertyChanged 4 Bus.reliable (sampleSession .STATE_CONNECTING true false)
      "org.bluez.Adapter1" "Discovering" 1 =
        some (sampleSession .STATE_CONNECTING true false) ∧
    propertyChanged 4 Bus.reliable (sampleSession .STATE_CONNECTING true false)
      "org.bluez.GattCharacteristic1" "NotifyAcquired" 0 =
        some (sampleSession .STATE_CONNECTING true false)) :=
  ⟨by decide,
   C23_property_change_events 4 Bus.reliable (sampleSession .STATE_CONNECTING true false)
     "org.bluez.Device1" "Connected" 1 (by decide)⟩

/-! ## UUID screening -/

/-- The array loop of `bluez_screen_uuid` on strings: it compares the string
read first and then every string of the iterator but the one it stands on. -/
theorem screenUuidArray_strings (uuidWanted : String) :
    ∀ (ss : List String) (uuid : String),
      screenUuidArray uuidWanted uuid (ss.map .string) =
        decide (uuid = uuidWanted ∨ uuidWanted ∈ ss.tail) := by
  intro ss
  induction ss with
  | nil => intro uuid; simp [screenUuidArray]
  | cons a rest ih =>
    intro uuid
    simp only [List.map_cons, screenUuidArray]
    by_cases hu : uuid = uuidWanted
    · simp [hu]
    · rw [if_neg hu]
      cases rest with
      | nil => simp [hu]
      | cons b rest1 =>
        simp only [List.map_cons, List.tail_cons]
        have := ih b
        simp only [List.map_cons, List.tail_cons] at this
        rw [this]
        simp [hu, eq_comm]

/-- What `bluez_screen_uuid` does with a `UUID`/`UUIDs` value that is an array
of strings: the element at index 1 is never compared. -/
theorem screenUuidValue_strings (uuidWanted esig : String) (ss : List String)
    (rest : DBusMessageIter) :
    screenUuidValue uuidWanted (.variant (.array esig (ss.map .string)) :: rest) =
      decide (uuidWanted ∈ ss.eraseIdx 1) := by
  cases ss with
  | nil =>
    simp +decide [screenUuidValue, bluez_dbus_msg_recurse, dbus_message_iter_recurse,
      dbus_message_iter_get_arg_type, DBusValue.argType]
  | cons s0 t =>
    have harr := screenUuidArray_strings uuidWanted t s0
    have hmem : (uuidWanted ∈ (s0 :: t).eraseIdx 1) ↔ (s0 = uuidWanted ∨ uuidWanted ∈ t.tail) := by
      cases t with
      | nil => simp [eq_comm]
      | cons t0 t1 => simp [List.eraseIdx, eq_comm]
    simp +decide [screenUuidValue, bluez_dbus_msg_recurse, dbus_message_iter_recurse,
      dbus_message_iter_get_arg_type, DBusValue.argType, dbus_message_iter_next, harr, hmem]
    rw [eq_comm]
    simp [eq_comm]

theorem any_tail (f : DBusValue → Bool) (xs : List DBusValue) (h : xs.tail.any f = true) :
    xs.any f = true := by
  cases xs with
  | nil => exact h
  | cons x rest =>
    simp only [List.tail_cons] at h
    simp [h]

/-- When the array loop of `bluez_screen_uuid` answers yes, the string read
first or a string further on in the array is the wanted one. -/
theorem screenUuidArray_sound (uuidWanted : String) :
    ∀ (child : DBusMessageIter) (uuid : String),
      screenUuidArray uuidWanted uuid child = true →
      uuid = uuidWanted ∨ child.tail.any (isWantedString uuidWanted) = true := by
  intro child
  induction child with
  | nil =>
    intro uuid h
    left
    simpa [screenUuidArray] using h
  | cons c rest ih =>
    intro uuid h
    simp only [screenUuidArray] at h
    by_cases hu : uuid = uuidWanted
    · exact Or.inl hu
    · rw [if_neg hu] at h
      right
      cases rest with
      | nil => simp at h
      | cons b rest1 =>
        cases b <;> simp only [reduceCtorEq] at h
        rename_i next
        rcases ih next h with h1 | h1
        · simp [List.any, isWantedString, h1]
        · simp only [List.tail_cons] at h1 ⊢
          simp [List.any, h1]

/-- When `bluez_screen_uuid` accepts the value of a `UUID`/`UUIDs` entry, the
value matches in the sense of the specification. -/
theorem screenUuidValue_sound (uuidWanted : String) (v : DBusValue) (rest : DBusMessageIter)
    (h : screenUuidValue uuidWanted (v :: rest) = true) :
    specUuidValueMatches uuidWanted v = true := by
  cases v with
  | variant inner =>
    cases inner with
    | string s =>
      simpa +decide [screenUuidValue, bluez_dbus_msg_recurse, dbus_message_iter_recurse,
        dbus_message_iter_get_arg_type, DBusValue.argType, specUuidValueMatches] using h
    | array esig xs =>
      cases xs with
      | nil =>
        simp +decide [screenUuidValue, bluez_dbus_msg_recurse, dbus_message_iter_recurse,
          dbus_message_iter_get_arg_type, DBusValue.argType] at h
      | cons x xs1 =>
        cases x with
        | string uuid =>
          have h1 : screenUuidArray uuidWanted uuid xs1 = true := by
            simpa +decide [screenUuidValue, bluez_dbus_msg_recurse, dbus_message_iter_recurse,
              dbus_message_iter_get_arg_type, DBusValue.argType, dbus_message_iter_next]
              using h
          rcases screenUuidArray_sound uuidWanted xs1 uuid h1 with h2 | h2
          · simp [specUuidValueMatches, isWantedString, h2]
          · simp [specUuidValueMatches, any_tail _ _ h2]
        | _ =>
          simp +decide [screenUuidValue, bluez_dbus_msg_recurse, dbus_message_iter_recurse,
            dbus_message_iter_get_arg_type, DBusValue.argType] at h
    | _ =>
      simp +decide [screenUuidValue, bluez_dbus_msg_recurse, dbus_message_iter_recurse,
        dbus_message_iter_get_arg_type, DBusValue.argType] at h
  | _ =>
    simp +decide [screenUuidValue, dbus_message_iter_get_arg_type, DBusValue.argType] at h

/-- When the entry loop of `bluez_screen_uuid` answers yes, the dictionary
matches in the sense of the specification. -/
theorem screenUuidEntries_sound (uuidWanted : String) :
    ∀ entries : DBusMessageIter, screenUuidEntries uuidWanted entries = true →
      specScreenEntries uuidWanted entries = true := by
  intro entries
  induction entries with
  | nil => intro h; simp [screenUuidEntries] at h
  | cons e rest ih =>
    intro h
    cases e with
    | dictEntry k v =>
      cases k with
      | string name =>
        have h1 : (if name = "UUID" ∨ name = "UUIDs" then screenUuidValue uuidWanted [v]
            else screenUuidEntries uuidWanted rest) = true := by
          simpa +decide [screenUuidEntries, bluez_dbus_msg_recurse, dbus_message_iter_recurse,
            dbus_message_iter_get_arg_type, DBusValue.argType, dbus_message_iter_next]
            using h
        simp only [specScreenEntries]
        by_cases hn : name = "UUID" ∨ name = "UUIDs"
        · rw [if_pos hn] at h1 ⊢
          exact screenUuidValue_sound uuidWanted v [] h1
        · rw [if_neg hn] at h1 ⊢
          exact ih h1
      | _ =>
        simp +decide [screenUuidEntries, bluez_dbus_msg_recurse, dbus_message_iter_recurse,
          dbus_message_iter_get_arg_type, DBusValue.argType] at h
    | _ =>
      simp +decide [screenUuidEntries, DBusValue.argType] at h

/-- Whenever `bluez_screen_uuid` returns TRUE, the dictionary matches in the
sense of the specification. -/
theorem bluez_screen_uuid_sound (iter : DBusMessageIter) (uuidWanted : String)
    (h : bluez_screen_uuid iter uuidWanted = true) :
    specScreenUuid iter uuidWanted = true := by
  cases iter with
  | nil => simp +decide [bluez_screen_uuid, dbus_message_iter_get_arg_type] at h
  | cons a rest =>
    cases a with
    | array sig entries =>
      have h1 : screenUuidEntries uuidWanted entries = true := by
        simpa +decide [bluez_screen_uuid, dbus_message_iter_get_arg_type, DBusValue.argType,
          dbus_message_iter_recurse] using h
      exact screenUuidEntries_sound uuidWanted entries h1
    | _ =>
      simp +decide [bluez_screen_uuid, dbus_message_iter_get_arg_type, DBusValue.argType] at h

theorem any_wanted_strings (uuidWanted : String) (ss : List String) :
    (ss.map DBusValue.string).any (isWantedString uuidWanted) = decide (uuidWanted ∈ ss) := by
  induction ss with
  | nil => simp
  | cons s rest ih =>
    simp only [List.map_cons, List.any_cons, ih, isWantedString, List.mem_cons]
    by_cases h : s = uuidWanted
    · simp [h]
    · have h1 : ¬ uuidWanted = s := fun e => h e.symm
      simp [h, h1]

/-- C24 (the code at the failing input): on a dictionary whose `UUIDs` entry
is an array of strings, `bluez_screen_uuid` returns TRUE exactly when the
wanted string is among the elements other than the one at index 1, where the
claim has it return TRUE whenever the array contains the wanted string; so
for the array of a generic service UUID followed by `UUID_DEVICE` the code
returns FALSE and the claim TRUE.  In the other direction the claim holds:
whenever the code returns TRUE the first `UUID`/`UUIDs` entry carries the
wanted string or an array containing it. -/
theorem C24_screen_uuid_skips_second_element (uuidWanted : String) (uuids : List String) :
    bluez_screen_uuid (uuidsDictionary uuids) uuidWanted =
      decide (uuidWanted ∈ uuids.eraseIdx 1) ∧
    specScreenUuid (uuidsDictionary uuids) uuidWanted = decide (uuidWanted ∈ uuids) ∧
    bluez_screen_uuid
      (uuidsDictionary ["00001800-0000-1000-8000-00805f9b34fb", UUID_DEVICE]) UUID_DEVICE
        = false ∧
    specScreenUuid
      (uuidsDictionary ["00001800-0000-1000-8000-00805f9b34fb", UUID_DEVICE]) UUID_DEVICE
        = true ∧
    (∀ iter, bluez_screen_uuid iter uuidWanted = true →
      specScreenUuid iter uuidWanted = true) := by
  have hcode : ∀ (wanted : String) (ss : List String),
      bluez_screen_uuid (uuidsDictionary ss) wanted = decide (wanted ∈ ss.eraseIdx 1) := by
    intro wanted ss
    have hv := screenUuidValue_strings wanted "s" ss []
    have : bluez_screen_uuid (uuidsDictionary ss) wanted =
        screenUuidValue wanted [.variant (.array "s" (ss.map .string))] := by
      simp +decide [bluez_screen_uuid, uuidsDictionary, dbus_message_iter_get_arg_type,
        DBusValue.argType, dbus_message_iter_recurse, screenUuidEntries,
        bluez_dbus_msg_recurse, dbus_message_iter_next]
    rw [this, hv]
  have hspec : ∀ (wanted : String) (ss : List String),
      specScreenUuid (uuidsDictionary ss) wanted = decide (wanted ∈ ss) := by
    intro wanted ss
    simp only [specScreenUuid, uuidsDictionary, specScreenEntries, specUuidValueMatches]
    simp [any_wanted_strings]
  refine ⟨hcode _ _, hspec _ _, ?_, ?_, fun iter h => bluez_screen_uuid_sound iter _ h⟩
  · rw [hcode]
    decide
  · rw [hspec]
    decide

/-! ## The colour-table index -/

/-- The handler by itself: the index `called / 2` lies within the three-entry
table exactly while fewer than six notifications have been handled, and a
notification of value 0 has a defined result exactly then. -/
theorem notification_index (bus : Bus) (w : World) :
    (w.called / 2 < led.length ↔ w.called < 6) ∧
    (notification bus w 0 = none ↔ 6 ≤ w.called) := by
  refine ⟨?_, ?_⟩
  · simp only [led, List.length_cons, List.length_nil]
    omega
  · by_cases h : w.called < 6
    · have hidx : w.called / 2 = 0 ∨ w.called / 2 = 1 ∨ w.called / 2 = 2 := by omega
      have hne : notification bus w 0 ≠ none := by
        rcases hidx with h1 | h1 | h1 <;>
          · simp only [notification, led, h1]
            simp only [if_true, List.getElem?_cons_zero, List.getElem?_cons_succ, Option.map_some']
            split <;> simp
      constructor
      · intro hn
        exact absurd hn hne
      · intro h6
        omega
    · have hidx : 3 ≤ w.called / 2 := by omega
      have hnone : led[w.called / 2]? = none := by
        apply List.getElem?_eq_none
        simp only [led, List.length_cons, List.length_nil]
        omega
      constructor
      · intro _
        omega
      · intro _
        simp only [notification, hnone, if_true, Option.map_none']

/-- A write command changes neither the notification counter nor the main
loop. -/
theorem write_attribute_counts (bus : Bus) (w : World) (value : Nat) :
    (bluez_write_attribute bus w value).called = w.called ∧
    (bluez_write_attribute bus w value).mainLoop = w.mainLoop ∧
    (bluez_write_attribute bus w value).quitCalls = w.quitCalls := by
  by_cases hb : w.characteristicWr.client = true
  · simp [bluez_write_attribute, g_dbus_proxy_method_call, World.proxy, hb, transmit]
  · simp [bluez_write_attribute, g_dbus_proxy_method_call, World.proxy, hb]

/-- One notification while fewer than six have been handled, whatever the
value and the write proxy: the handler returns, has counted the call, and has
asked the main loop to stop exactly when this was the sixth call. -/
theorem notification_counts (bus : Bus) (w : World) (value : Int) (hlt : w.called < 6) :
    ∃ w1, notification bus w value = some w1 ∧
      w1.called = w.called + 1 ∧
      w1.mainLoop = w.mainLoop ∧
      w1.quitCalls =
        (if w.called + 1 < 6 then w.quitCalls
         else if w.mainLoop = false then w.quitCalls else w.quitCalls + 1) := by
  obtain ⟨c, hcol⟩ : ∃ c, led[w.called / 2]? = some c := by
    have : w.called / 2 = 0 ∨ w.called / 2 = 1 ∨ w.called / 2 = 2 := by omega
    rcases this with h | h | h <;> rw [h] <;> simp [led]
  obtain ⟨a1, a2, a3⟩ := write_attribute_counts bus w c
  by_cases hv : value = 0
  · by_cases hq : w.called + 1 < 6
    · by_cases hm : w.mainLoop = false <;>
        simp [notification, hv, hcol, hq, hm, quit, a1, a2, a3]
    · by_cases hm : w.mainLoop = false <;>
        simp [notification, hv, hcol, hq, hm, quit, a1, a2, a3]
  · by_cases hq : w.called + 1 < 6
    · by_cases hm : w.mainLoop = false <;>
        simp [notification, hv, hq, hm, quit]
    · by_cases hm : w.mainLoop = false <;>
        simp [notification, hv, hq, hm, quit]

/-- C25: for every sequence of notification values of any length that the
notification pipe carries while the main loop of `main` runs, values after
the sixth included, every call of the handler `notification` finds the index
`called / 2` within the three-entry table `led`, so every write command takes
its colour from the table and every call has a defined result; the handler
is called at most six times, because the sixth call stops the main loop.
Stated for program states in which the loop is running only while fewer than
six notifications have been handled, as at start-up (`called` is 0). -/
theorem C25_index_within_table (bus : Bus) (values : List Int) :
    ∀ w : World, (mainLoopRunning w = true → w.called < 6) →
      ∃ w1, g_main_loop_run bus w values = some w1 ∧
        (∀ s ∈ handledNotifications bus w values,
          s.called / 2 < led.length ∧ s.called < 6) ∧
        (handledNotifications bus w values).length ≤ 6 - w.called ∧
        (mainLoopRunning w1 = true → w1.called < 6) := by
  induction values with
  | nil =>
    intro w hinv
    exact ⟨w, rfl, by simp [handledNotifications], by simp [handledNotifications], hinv⟩
  | cons v vs ih =>
    intro w hinv
    by_cases hrun : mainLoopRunning w = false
    · exact ⟨w, by simp [g_main_loop_run, hrun], by simp [handledNotifications, hrun],
        by simp [handledNotifications, hrun], hinv⟩
    · have hrun1 : mainLoopRunning w = true := by
        cases h : mainLoopRunning w
        · exact absurd h hrun
        · rfl
      have hlt := hinv hrun1
      obtain ⟨w1, hn, hc, hm, hq⟩ := notification_counts bus w v hlt
      have hmain : w.mainLoop = true := by
        simp only [mainLoopRunning, Bool.and_eq_true] at hrun1
        exact hrun1.1
      have hinv1 : mainLoopRunning w1 = true → w1.called < 6 := by
        intro h1
        simp only [mainLoopRunning, Bool.and_eq_true, beq_iff_eq] at h1
        by_cases hlast : w.called + 1 < 6
        · omega
        · rw [if_neg hlast, hmain] at hq
          simp only [Bool.true_eq_false, if_false] at hq
          omega
      obtain ⟨w2, hr, hidx, hlen, hfin⟩ := ih w1 hinv1
      refine ⟨w2, ?_, ?_, ?_, hfin⟩
      · simp only [g_main_loop_run, hrun1, Bool.true_eq_false, if_false, hn, Option.some_bind]
        exact hr
      · intro s hs
        simp only [handledNotifications, hrun1, Bool.true_eq_false, if_false, hn,
          List.mem_cons] at hs
        rcases hs with hs | hs
        · rw [hs]
          exact ⟨by simp only [led, List.length_cons, List.length_nil]; omega, hlt⟩
        · exact hidx s hs
      · simp only [handledNotifications, hrun1, Bool.true_eq_false, if_false, hn,
          List.length_cons]
        omega

/-- C25, witness: a running session whose pipe carries eight values, two of
them after the sixth. -/
theorem C25_index_within_table_witness :
    (mainLoopRunning (sampleWorld .STATE_ROCK_N_ROLL true true) = true →
      (sampleWorld .STATE_ROCK_N_ROLL true true).called < 6) ∧
    ∃ w1, g_main_loop_run Bus.reliable (sampleWorld .STATE_ROCK_N_ROLL true true)
        [0, 1, 0, 1, 0, 1, 0, 0] = some w1 ∧
      (∀ s ∈ handledNotifications Bus.reliable (sampleWorld .STATE_ROCK_N_ROLL true true)
          [0, 1, 0, 1, 0, 1, 0, 0],
        s.called / 2 < led.length ∧ s.called < 6) ∧
      (handledNotifications Bus.reliable (sampleWorld .STATE_ROCK_N_ROLL true true)
        [0, 1, 0, 1, 0, 1, 0, 0]).length ≤
          6 - (sampleWorld .STATE_ROCK_N_ROLL true true).called ∧
      (mainLoopRunning w1 = true → w1.called < 6) :=
  ⟨by decide,
   C25_index_within_table Bus.reliable [0, 1, 0, 1, 0, 1, 0, 0]
     (sampleWorld .STATE_ROCK_N_ROLL true true) (by decide)⟩

/-- The run of the witness: of eight values the handler sees six, writes the
three colours in order, stops the main loop once and leaves the last two
values undelivered. -/
theorem main_loop_sample :
    (g_main_loop_run Bus.reliable (sampleWorld .STATE_ROCK_N_ROLL true true)
        [0, 1, 0, 1, 0, 1, 0, 0]).map
      (fun w1 => (w1.called, w1.quitCalls, countMember "WriteValue" w1.requests))
      = some (6, 1, 3) ∧
    (handledNotifications Bus.reliable (sampleWorld .STATE_ROCK_N_ROLL true true)
        [0, 1, 0, 1, 0, 1, 0, 0]).map (fun s => s.called / 2)
      = [0, 0, 1, 1, 2, 2] := by
  decide

/-! ## `STATE_CONNECTED` -/

/-- What `bluez_acquire_notify` does, case by case: nothing at all when the
notify-characteristic proxy has another interface or no client; one message
handed to the bus otherwise, and the proxy and callback stored only when the
bus took it. -/
theorem acquire_notify_cases (bus : Bus) (w : World) (cb : Option NotificationCallback) :
    ((w.characteristicRd.interface ≠ "org.bluez.GattCharacteristic1" ∨
        w.characteristicRd.client = false) →
      bluez_acquire_notify bus w cb = w) ∧
    (w.characteristicRd.interface = "org.bluez.GattCharacteristic1" →
      w.characteristicRd.client = true →
      (bluez_acquire_notify bus w cb).calls = w.calls ++
        [{ msg := methodCallMsg w.characteristicRd "AcquireNotify" acquire_setup
             (some .acquire_notify_reply),
           accepted := bus w.calls.length
             (methodCallMsg w.characteristicRd "AcquireNotify" acquire_setup
               (some .acquire_notify_reply)) }] ∧
      (bluez_acquire_notify bus w cb).notify_io =
        (if bus w.calls.length
            (methodCallMsg w.characteristicRd "AcquireNotify" acquire_setup
              (some .acquire_notify_reply)) = true
         then { w.notify_io with proxy := some .characteristicRd, cb := cb }
         else w.notify_io)) := by
  constructor
  · intro h
    by_cases hi : w.characteristicRd.interface ≠ "org.bluez.GattCharacteristic1"
    · simp only [bluez_acquire_notify, if_pos hi]
    · have hb : w.characteristicRd.client = false := by
        rcases h with h | h
        · exact absurd h hi
        · exact h
      simp only [bluez_acquire_notify, if_neg hi]
      rw [proxy_call_unbound bus w .characteristicRd _ _ _ hb]
      rfl
  · intro hi hb
    have hi1 : ¬ w.characteristicRd.interface ≠ "org.bluez.GattCharacteristic1" :=
      fun h => h hi
    simp only [bluez_acquire_notify, if_neg hi1]
    rw [proxy_call_bound bus w .characteristicRd _ _ _ hb]
    by_cases hbus : bus w.calls.length
        (methodCallMsg w.characteristicRd "AcquireNotify" acquire_setup
          (some .acquire_notify_reply)) = true
    · simp [transmit, World.proxy, hbus]
    · simp [transmit, World.proxy, hbus]

/-- A pass of the loop never returns with the machine in `STATE_CONTROLLER_ON`
or `STATE_CONNECTED`: these two states are only passed through. -/
theorem iter_ret_resting (bus : Bus) (w w1 : World) (event : Event)
    (h : bleStateIter bus w event = .ret w1) :
    w1.currentState ≠ .STATE_CONTROLLER_ON ∧ w1.currentState ≠ .STATE_CONNECTED := by
  by_cases hd : event = .DEVICE_DISCONNECTED
  · subst hd
    rw [bleStateIter_disconnected] at h
    split at h
    · cases h
      simp [scan_state]
    · cases h
  · rw [bleStateIter_other bus w event hd] at h
    cases hs : w.currentState <;> rw [hs] at h <;> simp only at h <;>
      (try split at h) <;> (try split at h) <;>
      (cases h <;>
        simp [hs, power_on_state, scan_state, connect_state, acquire_notify_state])

/-- No call of `bleState` returns with the machine in `STATE_CONTROLLER_ON` or
`STATE_CONNECTED`; as the machine starts in `STATE_INIT`, no call starts in
one of them either. -/
theorem bleState_resting (bus : Bus) (event : Event) :
    ∀ (fuel : Nat) (w w1 : World), bleState fuel bus w event = some w1 →
      w1.currentState ≠ .STATE_CONTROLLER_ON ∧ w1.currentState ≠ .STATE_CONNECTED := by
  intro fuel
  induction fuel with
  | zero => intro w w1 h; simp [bleState] at h
  | succ n ih =>
    intro w w1 h
    simp only [bleState] at h
    cases hstep : bleStateIter bus w event with
    | ret w2 =>
      rw [hstep] at h
      simp only [Option.some.injEq] at h
      rw [← h]
      exact iter_ret_resting bus w w2 event hstep
    | again w2 =>
      rw [hstep] at h
      exact ih w2 w1 h

/-- In a sequence of deliveries that starts in a state other than
`STATE_CONTROLLER_ON` and `STATE_CONNECTED` (the machine starts in
`STATE_INIT`), no call starts in one of these two states, whatever the
proxies, caches and bus do in between. -/
theorem run_never_starts_connected (fuel : Nat) :
    ∀ (steps : List (Bus × World × Event)) (s last : State) (seen : List (State × Event)),
      runEvents fuel s steps = some (seen, last) →
      s ≠ .STATE_CONTROLLER_ON → s ≠ .STATE_CONNECTED →
      ∀ x ∈ seen, x.1 ≠ .STATE_CONTROLLER_ON ∧ x.1 ≠ .STATE_CONNECTED := by
  intro steps
  induction steps with
  | nil =>
    intro s last seen h _ _ x hx
    simp only [runEvents, Option.some.injEq, Prod.mk.injEq] at h
    rw [← h.1] at hx
    cases hx
  | cons step rest ih =>
    intro s last seen h hs1 hs2 x hx
    obtain ⟨bus, w, event⟩ := step
    simp only [runEvents] at h
    cases hcall : bleState fuel bus { w with currentState := s } event with
    | none => rw [hcall] at h; cases h
    | some w1 =>
      rw [hcall] at h
      simp only at h
      cases hrest : runEvents fuel w1.currentState rest with
      | none => rw [hrest] at h; cases h
      | some r =>
        obtain ⟨seen1, last1⟩ := r
        rw [hrest] at h
        simp only [Option.some.injEq, Prod.mk.injEq] at h
        obtain ⟨hseen, _⟩ := h
        rw [← hseen] at hx
        simp only [List.mem_cons] at hx
        obtain ⟨r1, r2⟩ := bleState_resting bus event fuel _ w1 hcall
        rcases hx with hx | hx
        · rw [hx]
          exact ⟨hs1, hs2⟩
        · exact ih w1.currentState last1 seen1 hrest r1 r2 x hx

/-- C26: whenever the switch of `bleState` dispatches on `STATE_CONNECTED`
(the state it sees after the reset a `DEVICE_DISCONNECTED` event causes at
the top of the loop), whatever the event, the call returns in that pass with
the machine in `STATE_ACQUIRE_NOTIFY`, whether or not an acquire-notify
request went out: when the notify-characteristic proxy is not bound to
`org.bluez.GattCharacteristic1` (another interface, or no client) nothing is
handed to the bus and `notify_io` is as before; when the bus does not take
the message, the one message handed over is recorded as refused and
`notify_io` is as before, so no callback is stored; only when the bus takes
it are the proxy and the callback `notification` stored. -/
theorem C26_connected_moves_on_regardless (bus : Bus) (w : World) (event : Event) (fuel : Nat)
    (hcase : (if event = .DEVICE_DISCONNECTED then State.STATE_CONTROLLER_ON
      else w.currentState) = .STATE_CONNECTED) :
    ∃ w1, bleStateIter bus w event = .ret w1 ∧
      bleState (fuel + 1) bus w event = some w1 ∧
      w1.currentState = .STATE_ACQUIRE_NOTIFY ∧
      ((w.characteristicRd.interface ≠ "org.bluez.GattCharacteristic1" ∨
          w.characteristicRd.client = false) →
        w1.calls = w.calls ∧ w1.notify_io = w.notify_io) ∧
      (w.characteristicRd.interface = "org.bluez.GattCharacteristic1" →
        w.characteristicRd.client = true →
        w1.calls = w.calls ++
          [{ msg := methodCallMsg w.characteristicRd "AcquireNotify" acquire_setup
               (some .acquire_notify_reply),
             accepted := bus w.calls.length
               (methodCallMsg w.characteristicRd "AcquireNotify" acquire_setup
                 (some .acquire_notify_reply)) }] ∧
        w1.notify_io =
          (if bus w.calls.length
              (methodCallMsg w.characteristicRd "AcquireNotify" acquire_setup
                (some .acquire_notify_reply)) = true
           then { w.notify_io with proxy := some .characteristicRd,
                                   cb := some .notification }
           else w.notify_io)) := by
  have hd : event ≠ .DEVICE_DISCONNECTED := by
    intro he
    rw [if_pos he] at hcase
    cases hcase
  have hs : w.currentState = .STATE_CONNECTED := by
    rw [if_neg hd] at hcase
    exact hcase
  obtain ⟨c1, c2⟩ := acquire_notify_cases bus w (some .notification)
  have hiter : bleStateIter bus w event =
      .ret { bluez_acquire_notify bus w (some .notification) with
             currentState := .STATE_ACQUIRE_NOTIFY } := by
    simp only [bleStateIter_other bus w event hd, hs]
  refine ⟨{ bluez_acquire_notify bus w (some .notification) with
            currentState := .STATE_ACQUIRE_NOTIFY }, hiter, ?_, rfl, ?_, ?_⟩
  · simp only [bleState, hiter]
  · intro h
    show (bluez_acquire_notify bus w (some .notification)).calls = w.calls ∧
      (bluez_acquire_notify bus w (some .notification)).notify_io = w.notify_io
    rw [c1 h]
    exact ⟨rfl, rfl⟩
  · intro hi hb
    exact c2 hi hb

/-- C26, witness: the loop at the `STATE_CONNECTED` case on the event
`DEVICE_DETECTED`, which no state waits for there, while the characteristic
objects have not been seen. -/
theorem C26_connected_moves_on_regardless_witness :
    (if Event.DEVICE_DETECTED = .DEVICE_DISCONNECTED then State.STATE_CONTROLLER_ON
      else (sampleWorldNoCharacteristics .STATE_CONNECTED).currentState)
        = .STATE_CONNECTED ∧
    ∃ w1, bleStateIter Bus.reliable (sampleWorldNoCharacteristics .STATE_CONNECTED)
        .DEVICE_DETECTED = .ret w1 ∧
      bleState (0 + 1) Bus.reliable (sampleWorldNoCharacteristics .STATE_CONNECTED)
        .DEVICE_DETECTED = some w1 ∧
      w1.currentState = .STATE_ACQUIRE_NOTIFY ∧
      (((sampleWorldNoCharacteristics .STATE_CONNECTED).characteristicRd.interface ≠
            "org.bluez.GattCharacteristic1" ∨
          (sampleWorldNoCharacteristics .STATE_CONNECTED).characteristicRd.client = false) →
        w1.calls = (sampleWorldNoCharacteristics .STATE_CONNECTED).calls ∧
        w1.notify_io = (sampleWorldNoCharacteristics .STATE_CONNECTED).notify_io) ∧
      ((sampleWorldNoCharacteristics .STATE_CONNECTED).characteristicRd.interface =
          "org.bluez.GattCharacteristic1" →
        (sampleWorldNoCharacteristics .STATE_CONNECTED).characteristicRd.client = true →
        w1.calls = (sampleWorldNoCharacteristics .STATE_CONNECTED).calls ++
          [{ msg := methodCallMsg
               (sampleWorldNoCharacteristics .STATE_CONNECTED).characteristicRd
               "AcquireNotify" acquire_setup (some .acquire_notify_reply),
             accepted := Bus.reliable (sampleWorldNoCharacteristics .STATE_CONNECTED).calls.length
               (methodCallMsg (sampleWorldNoCharacteristics .STATE_CONNECTED).characteristicRd
                 "AcquireNotify" acquire_setup (some .acquire_notify_reply)) }] ∧
        w1.notify_io =
          (if Bus.reliable (sampleWorldNoCharacteristics .STATE_CONNECTED).calls.length
              (methodCallMsg (sampleWorldNoCharacteristics .STATE_CONNECTED).characteristicRd
                "AcquireNotify" acquire_setup (some .acquire_notify_reply)) = true
           then { (sampleWorldNoCharacteristics .STATE_CONNECTED).notify_io with
                  proxy := some .characteristicRd, cb := some .notification }
           else (sampleWorldNoCharacteristics .STATE_CONNECTED).notify_io)) :=
  ⟨by decide,
   C26_connected_moves_on_regardless Bus.reliable
     (sampleWorldNoCharacteristics .STATE_CONNECTED) .DEVICE_DETECTED 0 (by decide)⟩

/-- A whole call that passes through `STATE_CONNECTED` on an event no state
waits for: in `STATE_CONTROLLER_OFF`, with the controller powered and the
peripheral cached as connected but no characteristic object seen,
`SCAN_STOPPED` runs the machine through `STATE_CONTROLLER_ON` and
`STATE_CONNECTED` into `STATE_ACQUIRE_NOTIFY` without a message to the bus. -/
theorem connected_reached_on_any_event :
    bleStateEntered 4 Bus.reliable (sampleWorldNoCharacteristics .STATE_CONTROLLER_OFF)
        .SCAN_STOPPED
      = [.STATE_CONTROLLER_OFF, .STATE_CONTROLLER_ON, .STATE_CONNECTED] ∧
    (bleState 4 Bus.reliable (sampleWorldNoCharacteristics .STATE_CONTROLLER_OFF)
        .SCAN_STOPPED).map (fun w1 => (w1.currentState, w1.calls.length))
      = some (.STATE_ACQUIRE_NOTIFY, 0) := by
  decide

/-! ## Rebinding and stale cache entries -/

theorem keptOutside_refl (names : List String) (l : List prop_entry) :
    keptOutside names l l := by
  unfold keptOutside
  induction l with
  | nil => exact List.Forall₂.nil
  | cons e rest ih => exact List.Forall₂.cons ⟨rfl, fun _ => rfl⟩ ih

theorem keptOutside_trans (names : List String) :
    ∀ (a b c : List prop_entry), keptOutside names a b → keptOutside names b c →
      keptOutside names a c := by
  unfold keptOutside
  intro a b c hab
  induction hab generalizing c with
  | nil => intro hbc; cases hbc; exact List.Forall₂.nil
  | cons h _ ih =>
    intro hbc
    cases hbc with
    | cons h2 t2 =>
      refine List.Forall₂.cons ⟨h2.1.trans h.1, fun hn => ?_⟩ (ih _ t2)
      have e1 := h.2 hn
      rw [e1] at h2
      exact h2.2 hn

theorem keptOutside_mono (names names1 : List String) (hsub : ∀ n, n ∈ names → n ∈ names1)
    (a b : List prop_entry) (h : keptOutside names a b) : keptOutside names1 a b := by
  unfold keptOutside at h ⊢
  induction h with
  | nil => exact List.Forall₂.nil
  | cons h _ ih => exact List.Forall₂.cons ⟨h.1, fun hn => h.2 fun hm => hn (hsub _ hm)⟩ ih

theorem keptOutside_append (names : List String) (a b c d : List prop_entry)
    (h1 : keptOutside names a b) (h2 : keptOutside names c d) :
    keptOutside names (a ++ c) (b ++ d) := by
  unfold keptOutside at h1 h2 ⊢
  induction h1 with
  | nil => exact h2
  | cons h _ ih => exact List.Forall₂.cons h ih

/-- The store loop writes no slot but one of the name it is given. -/
theorem storeLoop_kept (name : String) (v : DBusValue) :
    ∀ (ps slots : List prop_entry), storeLoop ps name v = some slots →
      keptOutside [name] ps slots := by
  intro ps
  induction ps with
  | nil =>
    intro slots h
    simp [storeLoop] at h
    subst h
    exact keptOutside_refl _ _
  | cons q qs ih =>
    intro slots h
    simp only [storeLoop] at h
    by_cases hq : q.name = ""
    · simp [hq] at h
    · simp only [hq, if_false] at h
      by_cases hn : q.name = name
      · simp only [hn, if_true, Option.some.injEq] at h
        subst h
        exact List.Forall₂.cons ⟨hn.symm, fun hnot => absurd (by simp [hn]) hnot⟩
          (keptOutside_refl _ _)
      · simp only [hn, if_false] at h
        cases hrec : storeLoop qs name v with
        | none => rw [hrec] at h; simp at h
        | some rest =>
          rw [hrec] at h
          simp only [Option.map_some', Option.some.injEq] at h
          subst h
          exact List.Forall₂.cons ⟨rfl, fun _ => rfl⟩ (ih rest hrec)

/-- With `send_changed` false, `bluez_add_property` returns, having written
at most the slot of the name it is given, in the proxy it is given. -/
theorem add_property_kept (fuel : Nat) (bus : Bus) (w : World) (r : Role) (name : String)
    (iter : DBusMessageIter) :
    ∃ slots, bluez_add_property fuel bus w r name iter false = some (w.withCache r slots) ∧
      keptOutside [name] (w.proxy r).property slots := by
  have hself : bluez_add_property fuel bus w r name iter false = some w →
      ∃ slots, bluez_add_property fuel bus w r name iter false = some (w.withCache r slots) ∧
        keptOutside [name] (w.proxy r).property slots := by
    intro h
    exact ⟨(w.proxy r).property, by rw [withCache_self]; exact h, keptOutside_refl _ _⟩
  cases iter with
  | nil => exact hself rfl
  | cons v rest =>
    cases v with
    | variant value =>
      cases hstore : storeLoop ((w.proxy r).property.take MAX_PROPERTIES) name value with
      | none => exact hself (by simp [bluez_add_property, hstore])
      | some slots =>
        refine ⟨slots ++ (w.proxy r).property.drop MAX_PROPERTIES, ?_, ?_⟩
        · simp [bluez_add_property, hstore, World.withCache]
        · have h := keptOutside_append [name] _ _ _ _
            (storeLoop_kept name value _ slots hstore)
            (keptOutside_refl [name] ((w.proxy r).property.drop MAX_PROPERTIES))
          rw [List.take_append_drop] at h
          exact h
    | _ => exact hself rfl

/-- With `send_changed` false, the entry loop of `update_properties` returns,
having written at most the slots named by the string keys of the entries. -/
theorem updateEntries_kept (fuel : Nat) (bus : Bus) (r : Role) :
    ∀ (entries : DBusMessageIter) (w : World),
      ∃ slots, updateEntries fuel bus r false w entries = some (w.withCache r slots) ∧
        keptOutside (entries.filterMap entryKey) (w.proxy r).property slots := by
  intro entries
  induction entries with
  | nil =>
    intro w
    exact ⟨(w.proxy r).property, by rw [withCache_self]; rfl, keptOutside_refl _ _⟩
  | cons e rest ih =>
    intro w
    have hself : updateEntries fuel bus r false w (e :: rest) = some w →
        ∃ slots, updateEntries fuel bus r false w (e :: rest) = some (w.withCache r slots) ∧
          keptOutside ((e :: rest).filterMap entryKey) (w.proxy r).property slots := by
      intro h
      exact ⟨(w.proxy r).property, by rw [withCache_self]; exact h, keptOutside_refl _ _⟩
    cases e with
    | dictEntry k v =>
      cases k with
      | string name =>
        have hstep : updateEntries fuel bus r false w (.dictEntry (.string name) v :: rest) =
            (bluez_add_property fuel bus w r name [v] false).bind fun w1 =>
              updateEntries fuel bus r false w1 rest := by
          simp +decide [updateEntries, bluez_dbus_msg_recurse, dbus_message_iter_recurse,
            dbus_message_iter_get_arg_type, DBusValue.argType, dbus_message_iter_next]
        obtain ⟨s1, h1, k1⟩ := add_property_kept fuel bus w r name [v]
        obtain ⟨s2, h2, k2⟩ := ih (w.withCache r s1)
        refine ⟨s2, ?_, ?_⟩
        · rw [hstep, h1, Option.some_bind, h2, withCache_withCache]
        · rw [proxy_withCache_same] at k2
          have hkeys : (DBusValue.dictEntry (.string name) v :: rest).filterMap entryKey =
              name :: rest.filterMap entryKey := by
            simp [List.filterMap_cons, entryKey]
          rw [hkeys]
          exact keptOutside_trans _ _ _ _
            (keptOutside_mono [name] _ (fun n hn => by
              simp only [List.mem_singleton] at hn
              simp [hn]) _ _ k1)
            (keptOutside_mono _ _ (fun n hn => List.mem_cons_of_mem _ hn) _ _ k2)
      | _ =>
        exact hself (by
          simp +decide [updateEntries, bluez_dbus_msg_recurse, dbus_message_iter_recurse,
            dbus_message_iter_get_arg_type, DBusValue.argType])
    | _ =>
      exact hself (by simp +decide [updateEntries, DBusValue.argType])

/-- With `send_changed` false, `update_properties` returns, having written at
most the slots the dictionary names. -/
theorem update_properties_kept (fuel : Nat) (bus : Bus) (w : World) (r : Role)
    (iter : DBusMessageIter) :
    ∃ slots, update_properties fuel bus w r iter false = some (w.withCache r slots) ∧
      keptOutside (dictionaryKeys iter) (w.proxy r).property slots := by
  have hself : update_properties fuel bus w r iter false = some w →
      ∃ slots, update_properties fuel bus w r iter false = some (w.withCache r slots) ∧
        keptOutside (dictionaryKeys iter) (w.proxy r).property slots := by
    intro h
    exact ⟨(w.proxy r).property, by rw [withCache_self]; exact h, keptOutside_refl _ _⟩
  cases iter with
  | nil => exact hself (by simp +decide [update_properties, dbus_message_iter_get_arg_type])
  | cons a rest =>
    cases a with
    | array sig entries =>
      obtain ⟨slots, h1, k1⟩ := updateEntries_kept fuel bus r entries w
      refine ⟨slots, ?_, k1⟩
      rw [← h1]
      simp +decide [update_properties, dbus_message_iter_get_arg_type, DBusValue.argType,
        dbus_message_iter_recurse]
    | _ =>
      exact hself (by
        simp +decide [update_properties, dbus_message_iter_get_arg_type, DBusValue.argType])

theorem keptOutside_names (names : List String) (a b : List prop_entry)
    (h : keptOutside names a b) : b.map prop_entry.name = a.map prop_entry.name := by
  unfold keptOutside at h
  induction h with
  | nil => rfl
  | cons h _ ih => simp [h.1, ih]

/-- The store loop writes no slot that stands behind the terminator: a slot
it changes carries one of the declared names. -/
theorem storeLoop_kept_declared (name : String) (v : DBusValue) :
    ∀ (ps slots : List prop_entry), storeLoop ps name v = some slots →
      keptOutside ((ps.map prop_entry.name).takeWhile (fun n => n ≠ "")) ps slots := by
  intro ps
  induction ps with
  | nil =>
    intro slots h
    simp [storeLoop] at h
    subst h
    exact keptOutside_refl _ _
  | cons q qs ih =>
    intro slots h
    simp only [storeLoop] at h
    by_cases hq : q.name = ""
    · simp [hq] at h
    · simp only [hq, if_false] at h
      have htw : ((q :: qs).map prop_entry.name).takeWhile (fun n => n ≠ "") =
          q.name :: (qs.map prop_entry.name).takeWhile (fun n => n ≠ "") := by
        rw [List.map_cons, List.takeWhile_cons]
        simp [hq]
      rw [htw]
      by_cases hn : q.name = name
      · simp only [hn, if_true, Option.some.injEq] at h
        subst h
        exact List.Forall₂.cons ⟨hn.symm, fun hnot => absurd (List.mem_cons_self _ _) hnot⟩
          (keptOutside_refl _ _)
      · simp only [hn, if_false] at h
        cases hrec : storeLoop qs name v with
        | none => rw [hrec] at h; simp at h
        | some rest =>
          rw [hrec] at h
          simp only [Option.map_some', Option.some.injEq] at h
          subst h
          exact List.Forall₂.cons ⟨rfl, fun _ => rfl⟩
            (keptOutside_mono _ _ (fun n hm => List.mem_cons_of_mem _ hm) _ _ (ih rest hrec))

/-- A lookup by a name outside the set gives the same slot in two slot arrays
that agree outside the set. -/
theorem findProperty_kept (names : List String) (name : String) (hn : name ∉ names)
    (a b : List prop_entry) (h : keptOutside names a b) :
    findProperty b name = findProperty a name := by
  unfold keptOutside at h
  induction h with
  | nil => rfl
  | @cons e e1 as bs h _ ih =>
    simp only [findProperty, h.1]
    by_cases he : e.name = ""
    · simp [he]
    · simp only [he, if_false]
      by_cases hm : e.name = name
      · have : e1 = e := h.2 (by rw [hm]; exact hn)
        simp [hm, this]
      · simp only [hm, if_false]
        exact ih

theorem keptOutside_take (names : List String) (n : Nat) (a b : List prop_entry)
    (h : keptOutside names a b) : keptOutside names (a.take n) (b.take n) := by
  unfold keptOutside at h ⊢
  exact List.forall₂_take n h

/-- The function `bluez_add_property` writes no slot behind the terminator:
a slot it changes carries one of the proxy's declared names. -/
theorem add_property_declared (fuel : Nat) (bus : Bus) (w w1 : World) (r : Role)
    (name : String) (iter : DBusMessageIter) (send_changed : Bool)
    (h : bluez_add_property fuel bus w r name iter send_changed = some w1) :
    keptOutside (declaredNames (w.proxy r)) (w.proxy r).property (w1.proxy r).property := by
  rcases add_property_shape fuel bus w w1 r name iter send_changed h with heq | hshape
  · rw [heq]
    exact keptOutside_refl _ _
  · obtain ⟨value, slots, _, hstore, hprop, _⟩ := hshape
    rw [hprop]
    have hk := keptOutside_append (declaredNames (w.proxy r)) _ _ _ _
      (storeLoop_kept_declared name value _ slots hstore)
      (keptOutside_refl (declaredNames (w.proxy r)) ((w.proxy r).property.drop MAX_PROPERTIES))
    rw [List.take_append_drop] at hk
    exact hk

theorem declaredNames_kept (names : List String) (p q : GDBusProxy)
    (h : keptOutside names p.property q.property) : declaredNames q = declaredNames p := by
  unfold declaredNames
  rw [List.map_take, List.map_take, keptOutside_names names _ _ h]

/-- The entry loop of `update_properties` changes only slots that carry a
declared name. -/
theorem updateEntries_declared (fuel : Nat) (bus : Bus) (r : Role) (send_changed : Bool)
    (iter : DBusMessageIter) :
    ∀ w w1 : World, updateEntries fuel bus r send_changed w iter = some w1 →
      keptOutside (declaredNames (w.proxy r)) (w.proxy r).property (w1.proxy r).property := by
  induction iter with
  | nil =>
    intro w w1 h
    simp only [updateEntries] at h
    cases h
    exact keptOutside_refl _ _
  | cons e rest ih =>
    intro w w1 h
    simp only [updateEntries] at h
    split at h
    · cases h
      exact keptOutside_refl _ _
    · split at h
      · cases h
        exact keptOutside_refl _ _
      · split at h
        · cases hadd : bluez_add_property fuel bus w r _
            (bluez_dbus_msg_recurse (e :: rest) DBUS_TYPE_STRING).2.2 send_changed with
          | none =>
            rw [hadd] at h
            cases h
          | some w2 =>
            rw [hadd] at h
            have k1 := add_property_declared fuel bus w w2 r _ _ send_changed hadd
            have k2 := ih w2 w1 h
            rw [declaredNames_kept _ _ _ k1] at k2
            exact keptOutside_trans _ _ _ _ k1 k2
        · cases h
          exact keptOutside_refl _ _

/-- The function `update_properties` changes only slots that carry a declared
name. -/
theorem update_properties_declared (fuel : Nat) (bus : Bus) (w w1 : World) (r : Role)
    (iter : DBusMessageIter) (send_changed : Bool)
    (h : update_properties fuel bus w r iter send_changed = some w1) :
    keptOutside (declaredNames (w.proxy r)) (w.proxy r).property (w1.proxy r).property := by
  simp only [update_properties] at h
  split at h
  · cases h
    exact keptOutside_refl _ _
  · exact updateEntries_declared fuel bus r send_changed _ w w1 h

/-- C27: when a tuple selects a proxy, `bluez_screen_interface` sets its
client, object path, interface, watch handle and pending flag and leaves its
property slots and the other three proxies as they were; `parse_properties`
then returns with the slots changed only where the slot carries a declared
name that is a string key of the new dictionary; so a lookup of any name the
dictionary does not hold finds exactly the slot (value and type code)
recorded under the previous binding. -/
theorem C27_rebinding_keeps_stale_cache (fuel : Nat) (bus : Bus) (w : World)
    (path interface : String) (iter : DBusMessageIter) (watch : Nat) (r : Role)
    (h : screenRole interface iter = some r) :
    (bluez_screen_interface w path interface iter watch).2.proxy r =
      { w.proxy r with
        client := true, obj_path := strncpy path MAX_BLUEZ_PATH, interface := interface,
        watch := watch, pending := true } ∧
    (∀ r1, r1 ≠ r →
      (bluez_screen_interface w path interface iter watch).2.proxy r1 = w.proxy r1) ∧
    ∃ w1 slots, parse_properties fuel bus w path interface iter watch = some w1 ∧
      w1.proxy r =
        { w.proxy r with
          client := true, obj_path := strncpy path MAX_BLUEZ_PATH, interface := interface,
          watch := watch, pending := false, property := slots } ∧
      keptOutside (dictionaryKeys iter) (w.proxy r).property slots ∧
      keptOutside (declaredNames (w.proxy r)) (w.proxy r).property slots ∧
      (∀ name, name ∉ dictionaryKeys iter →
        findProperty (slots.take MAX_PROPERTIES) name =
          findProperty ((w.proxy r).property.take MAX_PROPERTIES) name) ∧
      (∀ name, name ∉ dictionaryKeys iter →
        bluez_proxy_get_property w1 (some r) (some name) =
          bluez_proxy_get_property w (some r) (some name)) ∧
      (∀ r1, r1 ≠ r → w1.proxy r1 = w.proxy r1) := by
  obtain ⟨hi, hn1, hn2⟩ := screenRole_interface interface iter r h
  obtain ⟨s1, s2, s3, _⟩ := screen_interface_some w path interface iter watch r h
  have hsp : ((bluez_screen_interface w path interface iter watch).2.proxy r).property =
      (w.proxy r).property := by rw [s2]
  obtain ⟨slots, hup, hkeys⟩ := update_properties_kept fuel bus
    (bluez_screen_interface w path interface iter watch).2 r iter
  have hdecl := update_properties_declared fuel bus _ _ r iter false hup
  rw [proxy_withCache_same] at hdecl
  have hdn : declaredNames ((bluez_screen_interface w path interface iter watch).2.proxy r) =
      declaredNames (w.proxy r) := by
    unfold declaredNames
    rw [hsp]
  rw [hdn] at hdecl
  rw [hsp] at hkeys hdecl
  obtain ⟨a1, a2, _⟩ := proxy_added_proxy
    ((bluez_screen_interface w path interface iter watch).2.withCache r slots) r
  have hproxy : (proxy_added
      ((bluez_screen_interface w path interface iter watch).2.withCache r slots) r).proxy r =
      { w.proxy r with
        client := true, obj_path := strncpy path MAX_BLUEZ_PATH, interface := interface,
        watch := watch, pending := false, property := slots } := by
    rw [a1, proxy_withCache_same, s2]
  have hfind : ∀ name, name ∉ dictionaryKeys iter →
      findProperty (slots.take MAX_PROPERTIES) name =
        findProperty ((w.proxy r).property.take MAX_PROPERTIES) name := fun name hn =>
    findProperty_kept _ name hn _ _ (keptOutside_take _ MAX_PROPERTIES _ _ hkeys)
  refine ⟨s2, s3,
    proxy_added ((bluez_screen_interface w path interface iter watch).2.withCache r slots) r,
    slots, ?_, hproxy, hkeys, hdecl, hfind, ?_, ?_⟩
  · unfold parse_properties
    rw [if_neg hn1, if_neg hn2]
    have hpair : bluez_screen_interface w path interface iter watch =
        (some r, (bluez_screen_interface w path interface iter watch).2) := by
      rw [← s1]
    rw [hpair]
    simp only [hup, Option.map_some']
  · intro name hn
    simp only [bluez_proxy_get_property, hproxy, hfind name hn]
  · intro r1 hr1
    rw [a2 r1 hr1, proxy_withCache_other _ _ _ _ hr1, s3 r1 hr1]

/-- C27, witness: the peripheral reappears at another path with a dictionary
that holds its service UUID and `Connected` false but no `ServicesResolved`
or `RSSI`, while the proxy still caches them from the earlier binding. -/
theorem C27_rebinding_keeps_stale_cache_witness :
    screenRole "org.bluez.Device1" sampleReappeared = some .device ∧
    ((bluez_screen_interface sampleWorldResolved "/org/bluez/hci0/dev_11_22_33_44_55_66"
        "org.bluez.Device1" sampleReappeared 9).2.proxy .device =
      { sampleWorldResolved.proxy .device with
        client := true,
        obj_path := strncpy "/org/bluez/hci0/dev_11_22_33_44_55_66" MAX_BLUEZ_PATH,
        interface := "org.bluez.Device1", watch := 9, pending := true } ∧
    (∀ r1, r1 ≠ .device →
      (bluez_screen_interface sampleWorldResolved "/org/bluez/hci0/dev_11_22_33_44_55_66"
        "org.bluez.Device1" sampleReappeared 9).2.proxy r1 = sampleWorldResolved.proxy r1) ∧
    ∃ w1 slots, parse_properties 0 Bus.reliable sampleWorldResolved
        "/org/bluez/hci0/dev_11_22_33_44_55_66" "org.bluez.Device1" sampleReappeared 9
          = some w1 ∧
      w1.proxy .device =
        { sampleWorldResolved.proxy .device with
          client := true,
          obj_path := strncpy "/org/bluez/hci0/dev_11_22_33_44_55_66" MAX_BLUEZ_PATH,
          interface := "org.bluez.Device1", watch := 9, pending := false,
          property := slots } ∧
      keptOutside (dictionaryKeys sampleReappeared)
        (sampleWorldResolved.proxy .device).property slots ∧
      keptOutside (declaredNames (sampleWorldResolved.proxy .device))
        (sampleWorldResolved.proxy .device).property slots ∧
      (∀ name, name ∉ dictionaryKeys sampleReappeared →
        findProperty (slots.take MAX_PROPERTIES) name =
          findProperty ((sampleWorldResolved.proxy .device).property.take MAX_PROPERTIES)
            name) ∧
      (∀ name, name ∉ dictionaryKeys sampleReappeared →
        bluez_proxy_get_property w1 (some .device) (some name) =
          bluez_proxy_get_property sampleWorldResolved (some .device) (some name)) ∧
      (∀ r1, r1 ≠ .device → w1.proxy r1 = sampleWorldResolved.proxy r1)) :=
  ⟨by decide,
   C27_rebinding_keeps_stale_cache 0 Bus.reliable sampleWorldResolved
     "/org/bluez/hci0/dev_11_22_33_44_55_66" "org.bluez.Device1" sampleReappeared 9 .device
     (by decide)⟩

/-- The stale entry at work: after the peripheral of `sampleWorldResolved` has
been rebound from the dictionary `sampleReappeared`, `Connected` reads false
as the dictionary says, while `ServicesResolved`, which the dictionary does
not hold, still reads true from the earlier binding. -/
theorem rebinding_stale_example :
    (parse_properties 0 Bus.reliable sampleWorldResolved
        "/org/bluez/hci0/dev_11_22_33_44_55_66" "org.bluez.Device1" sampleReappeared 9).map
      (fun w1 =>
        (bluez_read_property_boolean w1 (some .device) (some "Connected") (some false),
         bluez_read_property_boolean w1 (some .device) (some "ServicesResolved")
           (some false),
         (w1.proxy .device).obj_path))
      = some ((0, some false), (0, some true), "/org/bluez/hci0/dev_11_22_33_44_55_66") := by
  decide

/-! ## The cache at a `DEVICE_DISCONNECTED` delivery -/

/-- The one place that raises `DEVICE_DISCONNECTED` is `propertyChanged`,
told of `Connected` on `org.bluez.Device1` with a tri-state other than 1. -/
theorem event_disconnected (interface name : String) (value : Int)
    (h : propertyChangedEvent interface name value = some .DEVICE_DISCONNECTED) :
    interface = "org.bluez.Device1" ∧ name = "Connected" ∧ value ≠ 1 := by
  unfold propertyChangedEvent at h
  by_cases hd : interface = "org.bluez.Device1"
  · rw [if_pos hd] at h
    split at h
    · cases h
    · split at h
      · cases h
      · split at h
        · rename_i h3
          exact ⟨hd, h3.1, h3.2⟩
        · cases h
  · rw [if_neg hd] at h
    split at h
    · split at h
      · cases h
      · split at h
        · cases h
        · cases h
    · split at h
      · split at h
        · cases h
        · cases h
      · cases h

/-- With the slot names of the static initialisers, `bluez_add_property` on a
live update either returns without running the change callback, or runs
`propertyChanged` on a state in which the new value is already stored: when
the callback is told of `Connected` on `org.bluez.Device1` with a tri-state
other than 1, which is when it raises `DEVICE_DISCONNECTED`, the peripheral's
`Connected` does not read as true from the cache. -/
theorem disconnect_raised_after_store (fuel : Nat) (bus : Bus) (w : World) (r : Role)
    (name : String) (value : DBusValue) (rest : DBusMessageIter)
    (hnames : (w.proxy r).property.map prop_entry.name =
      (World.init.proxy r).property.map prop_entry.name) :
    (∃ w0, bluez_add_property fuel bus w r name (.variant value :: rest) true = some w0 ∧
      w0.propertyCallbackCalls = w.propertyCallbackCalls) ∨
    (∃ W, bluez_add_property fuel bus w r name (.variant value :: rest) true =
        propertyChanged fuel bus W (W.proxy r).interface name (triState value) ∧
      ((W.proxy r).interface = "org.bluez.Device1" → name = "Connected" →
        triState value ≠ 1 →
        (bluez_read_property_boolean W (some .device) (some "Connected") (some false)).2
          ≠ some true)) := by
  obtain ⟨hdn, hterm⟩ := declaredNames_static w r hnames
  cases hstore : storeLoop ((w.proxy r).property.take MAX_PROPERTIES) name value with
  | none =>
    left
    exact ⟨w, by simp [bluez_add_property, hstore], rfl⟩
  | some slots =>
    have hmem : name ∈ (((w.proxy r).property.take MAX_PROPERTIES).map
        prop_entry.name).takeWhile (fun n => n ≠ "") := by
      by_contra hnot
      rw [storeLoop_undeclared name value _ hterm hnot] at hstore
      cases hstore
    have hdecl : name ∈ staticNames r := by
      rw [← hdn]
      exact hmem
    obtain ⟨slots1, e, hstore1, hfind, hmsg, -, hlen⟩ := storeLoop_declared name value _ hmem
    rw [hstore] at hstore1
    simp only [Option.some.injEq] at hstore1
    subst hstore1
    have htake : (slots ++ (w.proxy r).property.drop MAX_PROPERTIES).take MAX_PROPERTIES =
        slots := take_stored _ _ _ hlen
    obtain ⟨W, hW⟩ : ∃ W : World, W = w.setProxy r { w.proxy r with
        property := slots ++ (w.proxy r).property.drop MAX_PROPERTIES } := ⟨_, rfl⟩
    have hWp : (W.proxy r).property = slots ++ (w.proxy r).property.drop MAX_PROPERTIES := by
      rw [hW, proxy_setProxy_same]
    have hWcc : W.propertyCallbackCalls = w.propertyCallbackCalls := by
      rw [hW, (setProxy_fields w r _).2.2.2.1]
    have hform : bluez_add_property fuel bus w r name (.variant value :: rest) true = some W ∨
        bluez_add_property fuel bus w r name (.variant value :: rest) true =
          propertyChanged fuel bus
            { W with propertyCallbackCalls := W.propertyCallbackCalls ++
                [{ interface := (W.proxy r).interface, name := name,
                   value := triState value }] }
            (W.proxy r).interface name (triState value) := by
      subst hW
      simp only [bluez_add_property, hstore]
      split
      · left; rfl
      · split
        · left; rfl
        · right; rfl
    rcases hform with hf | hf
    · left
      exact ⟨W, hf, hWcc⟩
    · right
      refine ⟨{ W with propertyCallbackCalls := W.propertyCallbackCalls ++
          [{ interface := (W.proxy r).interface, name := name, value := triState value }] },
        ?_, ?_⟩
      · rw [hf]
        cases r <;> rfl
      · intro _ hname htri
        have hr : r = .device := by
          rw [hname] at hdecl
          cases r
          · simp [staticNames] at hdecl
          · rfl
          · simp [staticNames] at hdecl
          · simp [staticNames] at hdecl
        have hg : bluez_proxy_get_property
            { W with propertyCallbackCalls := W.propertyCallbackCalls ++
                [{ interface := (W.proxy r).interface, name := name,
                   value := triState value }] } (some r) (some name) = some value := by
          have hx : (({ W with propertyCallbackCalls := W.propertyCallbackCalls ++
              [{ interface := (W.proxy r).interface, name := name,
                 value := triState value }] } : World).proxy r).property =
              (W.proxy r).property := by cases r <;> rfl
          simp only [bluez_proxy_get_property, hx, hWp, htake, hfind, hmsg]
        have hne := triState_not_one value htri
        rw [← hr, ← hname]
        simp only [bluez_read_property_boolean, hg]
        cases value with
        | boolean b =>
          cases b
          · intro h
            cases h
          · exact absurd rfl hne
        | _ =>
          intro h
          cases h

/-! ## Screening by interface and UUID -/

/-- On a dictionary whose `UUID` entry is one string, the code and the
specification agree: the dictionary matches exactly the UUID it holds. -/
theorem screen_uuid_single (uuid uuidWanted : String) :
    bluez_screen_uuid (uuidDictionary uuid) uuidWanted = decide (uuid = uuidWanted) ∧
    specScreenUuid (uuidDictionary uuid) uuidWanted = decide (uuid = uuidWanted) := by
  constructor
  · simp +decide [bluez_screen_uuid, uuidDictionary, dbus_message_iter_get_arg_type,
      DBusValue.argType, dbus_message_iter_recurse, screenUuidEntries,
      bluez_dbus_msg_recurse, dbus_message_iter_next, screenUuidValue]
  · simp [specScreenUuid, uuidDictionary, specScreenEntries, specUuidValueMatches]

/-- C15 (the code against the claim, "matches" read as the specification
words it in `specScreenUuid`): `parse_properties` returns at once, changing
nothing, for the D-Bus Introspectable and Properties interfaces;
`org.bluez.Adapter1` always selects the controller; `org.bluez.Device1`
selects the peripheral or nothing, and the peripheral only if the dictionary
matches `UUID_DEVICE`; `org.bluez.GattCharacteristic1` selects a
characteristic only if the dictionary matches its UUID; every other
interface selects nothing; a tuple that selects nothing leaves the whole
program state as it was and one that selects a proxy leaves the other three
as they were; on a dictionary whose `UUID` is one string the characteristic
is chosen as the claim says.  But a `UUIDs` array holding
`UUID_CHARACTERISTIC_WR` first and `UUID_CHARACTERISTIC_RD` second matches
`UUID_CHARACTERISTIC_RD` and selects the write characteristic, not the notify
characteristic, and with `UUID_CHARACTERISTIC_WR` second and an unrelated
UUID first no characteristic at all. -/
theorem C15_screening_roles (fuel : Nat) (bus : Bus) (w : World) (path interface : String)
    (iter : DBusMessageIter) (watch : Nat) :
    ((interface = DBUS_INTERFACE_INTROSPECTABLE ∨ interface = DBUS_INTERFACE_PROPERTIES) →
      parse_properties fuel bus w path interface iter watch = some w) ∧
    (interface = "org.bluez.Adapter1" →
      (bluez_screen_interface w path interface iter watch).1 = some .adapter) ∧
    (interface = "org.bluez.Device1" →
      ((bluez_screen_interface w path interface iter watch).1 = some .device ∨
        (bluez_screen_interface w path interface iter watch).1 = none) ∧
      ((bluez_screen_interface w path interface iter watch).1 = some .device →
        specScreenUuid iter UUID_DEVICE = true)) ∧
    (interface = "org.bluez.GattCharacteristic1" →
      ((bluez_screen_interface w path interface iter watch).1 = some .characteristicRd ∨
        (bluez_screen_interface w path interface iter watch).1 = some .characteristicWr ∨
        (bluez_screen_interface w path interface iter watch).1 = none) ∧
      ((bluez_screen_interface w path interface iter watch).1 = some .characteristicRd →
        specScreenUuid iter UUID_CHARACTERISTIC_RD = true) ∧
      ((bluez_screen_interface w path interface iter watch).1 = some .characteristicWr →
        specScreenUuid iter UUID_CHARACTERISTIC_WR = true)) ∧
    (interface ≠ "org.bluez.Adapter1" → interface ≠ "org.bluez.Device1" →
      interface ≠ "org.bluez.GattCharacteristic1" →
      (bluez_screen_interface w path interface iter watch).1 = none) ∧
    ((bluez_screen_interface w path interface iter watch).1 = none →
      (bluez_screen_interface w path interface iter watch).2 = w ∧
      parse_properties fuel bus w path interface iter watch = some w) ∧
    (∀ r, (bluez_screen_interface w path interface iter watch).1 = some r →
      ∃ w1, parse_properties fuel bus w path interface iter watch = some w1 ∧
        (w1.proxy r).client = true ∧ (w1.proxy r).interface = interface ∧
        ∀ r1, r1 ≠ r → w1.proxy r1 = w.proxy r1) ∧
    (∀ uuid, (bluez_screen_interface w path "org.bluez.GattCharacteristic1"
        (uuidDictionary uuid) watch).1 =
      (if specScreenUuid (uuidDictionary uuid) UUID_CHARACTERISTIC_RD = true
       then some .characteristicRd
       else if specScreenUuid (uuidDictionary uuid) UUID_CHARACTERISTIC_WR = true
       then some .characteristicWr
       else none)) ∧
    (specScreenUuid (uuidsDictionary [UUID_CHARACTERISTIC_WR, UUID_CHARACTERISTIC_RD])
        UUID_CHARACTERISTIC_RD = true ∧
      (bluez_screen_interface w path "org.bluez.GattCharacteristic1"
        (uuidsDictionary [UUID_CHARACTERISTIC_WR, UUID_CHARACTERISTIC_RD]) watch).1
          = some .characteristicWr) ∧
    (specScreenUuid
        (uuidsDictionary ["00001800-0000-1000-8000-00805f9b34fb", UUID_CHARACTERISTIC_WR])
        UUID_CHARACTERISTIC_WR = true ∧
      (bluez_screen_interface w path "org.bluez.GattCharacteristic1"
        (uuidsDictionary ["00001800-0000-1000-8000-00805f9b34fb", UUID_CHARACTERISTIC_WR])
        watch).1 = none) := by
  refine ⟨?_, ?_, ?_, ?_, ?_, ?_, ?_, ?_, ?_, ?_⟩
  · intro h
    exact parse_properties_none fuel bus w path interface iter watch (by
      rcases h with h | h
      · exact Or.inl h
      · exact Or.inr (Or.inl h))
  · intro h
    rw [screen_interface_role, h]
    rfl
  · intro h
    rw [screen_interface_role, h]
    by_cases hm : bluez_screen_uuid iter UUID_DEVICE = true
    · have hs : screenRole "org.bluez.Device1" iter = some .device := by
        simp +decide [screenRole, hm]
      rw [hs]
      exact ⟨Or.inl rfl, fun _ => bluez_screen_uuid_sound iter _ hm⟩
    · have hs : screenRole "org.bluez.Device1" iter = none := by
        simp +decide [screenRole, hm]
      rw [hs]
      exact ⟨Or.inr rfl, (fun h1 => by cases h1)⟩
  · intro h
    rw [screen_interface_role, h]
    by_cases hrd : bluez_screen_uuid iter UUID_CHARACTERISTIC_RD = true
    · have hs : screenRole "org.bluez.GattCharacteristic1" iter = some .characteristicRd := by
        simp +decide [screenRole, hrd]
      rw [hs]
      exact ⟨Or.inl rfl, fun _ => bluez_screen_uuid_sound iter _ hrd, (fun h1 => by cases h1)⟩
    · by_cases hwr : bluez_screen_uuid iter UUID_CHARACTERISTIC_WR = true
      · have hs : screenRole "org.bluez.GattCharacteristic1" iter =
            some .characteristicWr := by
          simp +decide [screenRole, hrd, hwr]
        rw [hs]
        exact ⟨Or.inr (Or.inl rfl), (fun h1 => by cases h1),
          fun _ => bluez_screen_uuid_sound iter _ hwr⟩
      · have hs : screenRole "org.bluez.GattCharacteristic1" iter = none := by
          simp +decide [screenRole, hrd, hwr]
        rw [hs]
        exact ⟨Or.inr (Or.inr rfl), (fun h1 => by cases h1), (fun h1 => by cases h1)⟩
  · intro h1 h2 h3
    rw [screen_interface_role]
    simp [screenRole, h1, h2, h3]
  · intro h
    rw [screen_interface_role] at h
    exact ⟨by rw [screen_interface_none w path interface iter watch h],
      parse_properties_none fuel bus w path interface iter watch (Or.inr (Or.inr h))⟩
  · intro r h
    rw [screen_interface_role] at h
    obtain ⟨w1, slots, hrun, hp, _, hothers, _⟩ :=
      parse_properties_some fuel bus w path interface iter watch r h
    exact ⟨w1, hrun, by rw [hp], by rw [hp], hothers⟩
  · intro uuid
    rw [screen_interface_role]
    obtain ⟨c1, s1⟩ := screen_uuid_single uuid UUID_CHARACTERISTIC_RD
    obtain ⟨c2, s2⟩ := screen_uuid_single uuid UUID_CHARACTERISTIC_WR
    rw [s1, s2]
    simp +decide [screenRole, c1, c2]
  · exact ⟨by decide, by rw [screen_interface_role]; decide⟩
  · exact ⟨by decide, by rw [screen_interface_role]; decide⟩

end BleClient
